import Mathlib

/-!
SeekMusic: command authorization, guild configuration and dispatch

A shallow embedding of `src/index.js` (a Discord music bot in one file) and the
properties of its authorization and dispatch layer.

Conventions of the embedding.

* A JavaScript string is the list of its characters (`JSString`).  The source's
  `.length` counts UTF-16 code units; `jsLength` computes that count.
* A JavaScript number is an IEEE 754 double.  `JSNumber` holds the numbers the
  handlers meet, which are `NaN`, the infinities and the doubles of integer value;
  `Float64` holds any double, as the quotients inside `formatTime` and
  `createProgressBar` need.  Every operation computes the exact result and rounds
  it to the nearest double, a tie going to the even significand.  The two zeros
  are not told apart: no text, comparison or glyph count of the source depends on
  the sign of a zero.  `parseInt` is correctly rounded for numerals of any length,
  as in V8.  The engine's limit on the length of a string is not modelled.
* The Enmap database is an association list keyed by guild id; `db.get` returns a
  deep clone (`cloneLevel: 'deep'`), so a record read from it is a value.
* The handlers run in a `World`: the database together with a log of the
  `db.set` calls and a log of the calls made on the player and its queues.
* What the handlers only read from their surroundings is the `Env`: the queue
  the player reports for a guild, which player calls raise, and the host's
  `String.prototype.toLowerCase`.
* `src/index.js` has an unbalanced parenthesis on lines 91 and 529
  (`Math.floor((ms / (1000 * 60)) % 60;` and `if (isNaN(seconds) {`); both are
  read with the evident closing parenthesis.
-/

namespace SeekMusic

/-! ## Strings -/

/-- A JavaScript string, as the list of its characters. -/
abbrev JSString := List Char

/-- The `.length` of a string: its number of UTF-16 code units. -/
def jsLength (s : JSString) : Nat :=
  (s.map fun c => if c.toNat < 65536 then 1 else 2).sum

/-- Truthiness of a possibly `undefined`/`null` string: defined and non-empty. -/
def truthy : Option JSString → Bool
  | some (_ :: _) => true
  | _ => false

/-- The characters `String.prototype.trim` and `parseInt` strip: the ECMAScript
`WhiteSpace` and `LineTerminator` code points. -/
def isJSWhiteSpace (c : Char) : Bool :=
  let n := c.toNat
  n == 9 || n == 10 || n == 11 || n == 12 || n == 13 || n == 32 || n == 160 ||
  n == 5760 || (8192 ≤ n && n ≤ 8202) || n == 8232 || n == 8233 || n == 8239 ||
  n == 8287 || n == 12288 || n == 65279

/-- The method `String.prototype.trim`. -/
def trim (s : JSString) : JSString :=
  ((s.dropWhile isJSWhiteSpace).reverse.dropWhile isJSWhiteSpace).reverse

/-- The method `String.prototype.startsWith`. -/
def startsWith (s p : JSString) : Bool := p.isPrefixOf s

/-- Worker of `splitSpaces`: `cur` is the piece being read (reversed), `inSep`
tells that the last character read was a space. -/
def splitSpacesAux : JSString → JSString → Bool → List JSString
  | [], cur, _ => [cur.reverse]
  | c :: rest, cur, inSep =>
    if c = ' ' then
      if inSep then splitSpacesAux rest cur true
      else cur.reverse :: splitSpacesAux rest [] true
    else splitSpacesAux rest (c :: cur) false

/-- The call `s.split(/ +/)`: the pieces between maximal runs of spaces. -/
def splitSpaces (s : JSString) : List JSString := splitSpacesAux s [] false

/-- The call `s.split(':')`. -/
def splitColon : JSString → List JSString
  | [] => [[]]
  | c :: rest =>
    if c = ':' then [] :: splitColon rest
    else
      match splitColon rest with
      | [] => [[c]]
      | p :: ps => (c :: p) :: ps

/-! ## Numbers -/

/-- Worker of `floorLog2`, by halving; `fuel` bounds the number of halvings. -/
def floorLog2Aux : Nat → Nat → Nat
  | 0, _ => 0
  | fuel + 1, n => if n < 2 then 0 else floorLog2Aux fuel (n / 2) + 1

/-- The integer part of the binary logarithm of `n ≥ 1`. -/
def floorLog2 (n : Nat) : Nat := floorLog2Aux n n

/-- The integer nearest to `n / d`, a tie going to the even one. -/
def divRoundEven (n d : Nat) : Nat :=
  if 2 * (n % d) > d ∨ (2 * (n % d) = d ∧ n / d % 2 = 1) then n / d + 1 else n / d

/-- The integer part of the binary logarithm of `n / d`, for `n, d ≥ 1`. -/
def ratioLog2 (n d : Nat) : Int :=
  let b : Int := (floorLog2 n : Int) - (floorLog2 d : Int)
  if d * 2 ^ b.toNat ≤ n * 2 ^ (-b).toNat then b else b - 1

/-- The exponent of the unit in the last place of the double nearest to `n / d`: 52 below the
binary logarithm, and at least `-1074` (the subnormal numbers). -/
def ulpExponent (n d : Nat) : Int := max (ratioLog2 n d - 52) (-1074)

/-- A number of the source where the handlers hold one: `NaN`, an infinity, or a double whose
value is an integer.  The two zeros are not told apart. -/
inductive JSNumber where
  | nan
  | infinity (negative : Bool)
  | int (value : Int)
deriving DecidableEq, Repr

instance (n : Nat) : OfNat JSNumber n := ⟨.int n⟩

/-- The number value of an integer: the double nearest to it, a tie going to the even
significand, and an infinity from `2 ^ 1024 - 2 ^ 970` on. -/
def toNumber (k : Int) : JSNumber :=
  let n := k.natAbs
  if floorLog2 n ≤ 52 then .int k
  else
    let e := floorLog2 n - 52
    let v := divRoundEven n (2 ^ e) * 2 ^ e
    if 1024 ≤ floorLog2 v then .infinity (decide (k < 0))
    else .int (if k < 0 then - (v : Int) else (v : Int))

/-- Any double: `NaN`, an infinity, or the finite value `num / 2 ^ shift`, kept in lowest terms.
The two zeros are not told apart. -/
inductive Float64 where
  | nan
  | infinity (negative : Bool)
  | finite (num : Int) (shift : Nat)
deriving DecidableEq, Repr

/-- The value `m / 2 ^ k` in lowest terms. -/
def reduceDyadic : Nat → Int → Float64
  | 0, m => .finite m 0
  | k + 1, m => if m % 2 = 0 then reduceDyadic k (m / 2) else .finite m (k + 1)

/-- The double nearest to the rational `n / d` (`d ≥ 1`), negated when `negative`: the
significand is `n / d` over the unit in the last place, rounded to the nearest integer with a
tie going to the even one. -/
def roundRatio (negative : Bool) (n d : Nat) : Float64 :=
  if n = 0 then .finite 0 0
  else
    let e := ulpExponent n d
    let m := divRoundEven (n * 2 ^ (-e).toNat) (d * 2 ^ e.toNat)
    if 1024 ≤ floorLog2 (m * 2 ^ e.toNat) then .infinity negative
    else reduceDyadic (-e).toNat ((if negative then - (m : Int) else (m : Int)) * 2 ^ e.toNat)

/-- The product `a * b`. -/
def jsMul : JSNumber → JSNumber → JSNumber
  | .nan, _ => .nan
  | _, .nan => .nan
  | .infinity s, .infinity t => .infinity (s != t)
  | .infinity s, .int k => if k = 0 then .nan else .infinity (s != decide (k < 0))
  | .int k, .infinity s => if k = 0 then .nan else .infinity (s != decide (k < 0))
  | .int a, .int b => toNumber (a * b)

/-- The sum `a + b`. -/
def jsAdd : JSNumber → JSNumber → JSNumber
  | .nan, _ => .nan
  | _, .nan => .nan
  | .infinity s, .infinity t => if s = t then .infinity s else .nan
  | .infinity s, .int _ => .infinity s
  | .int _, .infinity s => .infinity s
  | .int a, .int b => toNumber (a + b)

/-- The negation `-a`. -/
def jsNeg : JSNumber → JSNumber
  | .nan => .nan
  | .infinity s => .infinity (!s)
  | .int a => .int (-a)

/-- The difference `a - b`. -/
def jsSub (a b : JSNumber) : JSNumber := jsAdd a (jsNeg b)

/-- The comparison `a < b`, false when one side is `NaN`. -/
def jsLt : JSNumber → JSNumber → Bool
  | .nan, _ => false
  | _, .nan => false
  | .infinity s, .infinity t => s && !t
  | .infinity s, .int _ => s
  | .int _, .infinity s => !s
  | .int a, .int b => decide (a < b)

/-- The function `isNaN` on a number. -/
def isNaN : JSNumber → Bool
  | .nan => true
  | _ => false

/-- The function `Math.max` of two numbers. -/
def mathMax (a b : JSNumber) : JSNumber :=
  if isNaN a || isNaN b then .nan else if jsLt a b then b else a

/-- The function `Math.min` of two numbers. -/
def mathMin (a b : JSNumber) : JSNumber :=
  if isNaN a || isNaN b then .nan else if jsLt b a then b else a

/-- The quotient `a / b` of two numbers. -/
def jsDiv : JSNumber → JSNumber → Float64
  | .nan, _ => .nan
  | _, .nan => .nan
  | .infinity _, .infinity _ => .nan
  | .infinity s, .int k => .infinity (s != decide (k < 0))
  | .int _, .infinity _ => .finite 0 0
  | .int a, .int b =>
    if b = 0 then (if a = 0 then .nan else .infinity (decide (a < 0)))
    else roundRatio (decide (a < 0) != decide (b < 0)) a.natAbs b.natAbs

/-- The product `a * x` of a number and a double. -/
def jsScale : JSNumber → Float64 → Float64
  | .nan, _ => .nan
  | _, .nan => .nan
  | .infinity s, .infinity t => .infinity (s != t)
  | .infinity s, .finite n _ => if n = 0 then .nan else .infinity (s != decide (n < 0))
  | .int k, .infinity s => if k = 0 then .nan else .infinity (s != decide (k < 0))
  | .int k, .finite n shift =>
    roundRatio (decide (k < 0) != decide (n < 0)) (k.natAbs * n.natAbs) (2 ^ shift)

/-- The remainder `x % c` for a positive integer `c`: it has the sign of `x` and is exact. -/
def jsMod (x : Float64) (c : Nat) : Float64 :=
  match x with
  | .nan => .nan
  | .infinity _ => .nan
  | .finite n shift => reduceDyadic shift (Int.tmod n (c * 2 ^ shift))

/-- The function `Math.floor`. -/
def mathFloor : Float64 → JSNumber
  | .nan => .nan
  | .infinity s => .infinity s
  | .finite n shift => .int (n / 2 ^ shift)

/-- The function `Math.round`: the integer nearest to `x`, a tie going up. -/
def mathRound : Float64 → JSNumber
  | .nan => .nan
  | .infinity s => .infinity s
  | .finite n shift => .int ((2 * n + 2 ^ shift) / 2 ^ (shift + 1))

/-! ## Parsing -/

/-- Value of `c` as a digit in radix `r` (`'0'..'9'`, `'a'..'z'`, `'A'..'Z'`), if it is one. -/
def digitValue (r : Nat) (c : Char) : Option Nat :=
  let n := c.toNat
  let v : Option Nat :=
    if 48 ≤ n ∧ n ≤ 57 then some (n - 48)
    else if 97 ≤ n ∧ n ≤ 122 then some (n - 87)
    else if 65 ≤ n ∧ n ≤ 90 then some (n - 55)
    else none
  v.filter fun d => d < r

/-- Reads the longest run of radix-`r` digits at the head of `s`; `acc` is the value of
the digits read so far and `seen` tells whether there was one.  `none` when there is no digit. -/
def readDigits (r : Nat) : JSString → Nat → Bool → Option Nat
  | [], acc, seen => if seen then some acc else none
  | c :: rest, acc, seen =>
    match digitValue r c with
    | some d => readDigits r rest (acc * r + d) true
    | none => if seen then some acc else none

/-- After the sign: a leading `0x`/`0X` selects radix 16, otherwise radix 10. -/
def parseUnsigned : JSString → Option Nat
  | '0' :: 'x' :: rest => readDigits 16 rest 0 false
  | '0' :: 'X' :: rest => readDigits 16 rest 0 false
  | s => readDigits 10 s 0 false

/-- The global `parseInt(s)` with no radix: leading white space is skipped, then an optional
sign, then digits; `NaN` when no digit follows, otherwise the number value of the integer read. -/
def parseInt (s : JSString) : JSNumber :=
  match s.dropWhile isJSWhiteSpace with
  | '-' :: rest =>
    match parseUnsigned rest with
    | some v => toNumber (-(v : Int))
    | none => .nan
  | '+' :: rest =>
    match parseUnsigned rest with
    | some v => toNumber (v : Int)
    | none => .nan
  | rest =>
    match parseUnsigned rest with
    | some v => toNumber (v : Int)
    | none => .nan

/-- An argument that may be `undefined`: `parseInt(undefined)` reads the string `"undefined"`. -/
def parseIntArg : Option JSString → JSNumber
  | some s => parseInt s
  | none => parseInt "undefined".toList

/-- First match of the regular expression `(\d+)<letter>` in a string, returning the captured
digits: the first maximal run of ASCII digits that is directly followed by `letter`.
`run` is the digit run being read. -/
def matchDigitsThen (letter : Char) : JSString → JSString → Option JSString
  | [], _ => none
  | c :: rest, run =>
    if c.isDigit then matchDigitsThen letter rest (run ++ [c])
    else if c = letter ∧ run ≠ [] then some run
    else matchDigitsThen letter rest []

/-- The time parsing of the `seek` command (lines 511-527): the number of seconds read
from the argument `time`. -/
def parseSeekTime (time : JSString) : JSNumber :=
  if ':' ∈ time then
    match splitColon time with
    | [p0, p1] => jsAdd (jsMul (parseInt p0) 60) (parseInt p1)
    | [p0, p1, p2] =>
      jsAdd (jsAdd (jsMul (parseInt p0) 3600) (jsMul (parseInt p1) 60)) (parseInt p2)
    | _ => 0
  else if 'm' ∈ time ∨ 's' ∈ time then
    let seconds0 : JSNumber := 0
    let seconds1 :=
      match matchDigitsThen 'm' time [] with
      | some d => jsAdd seconds0 (jsMul (parseInt d) 60)
      | none => seconds0
    match matchDigitsThen 's' time [] with
    | some d => jsAdd seconds1 (parseInt d)
    | none => seconds1
  else parseInt time

/-! ## Guild configuration and its store -/

/-- A guild configuration record.  `pfx` is the field `prefix` of the source. -/
structure Config where
  pfx : JSString
  djRoles : List JSString
  musicChannel : Option JSString
  defaultVolume : Int
deriving DecidableEq, Repr

/-- The constant `defaultPrefix`, the string `S-`. -/
def defaultPrefix : JSString := ['S', '-']

/-- The record `getServerConfig` stores on first access. -/
def defaultConfig : Config :=
  { pfx := defaultPrefix, djRoles := [], musicChannel := none, defaultVolume := 50 }

/-- The database `db`: guild id to record. -/
abbrev Store := List (JSString × Config)

/-- The call `db.get(key)`. -/
def storeGet : Store → JSString → Option Config
  | [], _ => none
  | (k, v) :: rest, key => if k = key then some v else storeGet rest key

/-- The call `db.has(key)`. -/
def storeHas (db : Store) (key : JSString) : Bool := (storeGet db key).isSome

/-- The call `db.set(key, value)`: replaces the record of `key`, or adds one. -/
def storeSet : Store → JSString → Config → Store
  | [], key, value => [(key, value)]
  | (k, v) :: rest, key, value =>
    if k = key then (k, value) :: rest else (k, v) :: storeSet rest key value

/-! ## The player, as the handlers see it -/

/-- The current track of a queue: the fields the handlers read, in whole milliseconds; such a
field stands for its number value. -/
structure Track where
  position : Int
  duration : Int
deriving DecidableEq, Repr

/-- A guild's queue as returned by `player.getQueue`: the fields the handlers read. -/
structure Queue where
  current : Option Track
  tracksLength : Nat
  paused : Bool
  repeatMode : Int
  connection : Bool
deriving DecidableEq, Repr

/-- A call on the player or on a queue. -/
inductive FacadeCall where
  | play (voiceChannel query : JSString)
  | skip
  | setPaused (paused : Bool)
  | stop
  | setRepeatMode (mode : Int)
  | shuffle
  | seek (position : JSNumber)
  | setVolume (volume : JSNumber)
  | destroy
deriving DecidableEq, Repr

/-- What a handler reads from outside: the queue of a guild, whether a player call raises,
and the host's `toLowerCase`. -/
structure Env where
  getQueue : JSString → Option Queue
  throws : FacadeCall → Bool
  toLowerCase : JSString → JSString

/-- The state the handlers act on: the database, the `db.set` calls made so far and the
player calls made so far (oldest first). -/
structure World where
  db : Store
  writes : List (JSString × Config)
  calls : List FacadeCall
deriving DecidableEq, Repr

/-- The state at the start of an event: the database and empty logs. -/
def World.start (db : Store) : World := { db := db, writes := [], calls := [] }

/-- A `db.set(key, value)` performed in a world. -/
def dbSet (key : JSString) (value : Config) (w : World) : World :=
  { w with db := storeSet w.db key value, writes := w.writes ++ [(key, value)] }

/-- The function `getServerConfig` (lines 65-75): stores the default record when the guild
has none, then returns the stored record. -/
def getServerConfig (guildId : JSString) (w : World) : Config × World :=
  let w1 := if !storeHas w.db guildId then dbSet guildId defaultConfig w else w
  ((storeGet w1.db guildId).getD defaultConfig, w1)

/-- A guild member: the ids in `member.roles.cache`, `member.permissions.has('ManageGuild')`
and `member.voice.channel`. -/
structure Member where
  roles : List JSString
  manageGuild : Bool
  voiceChannel : Option JSString
deriving DecidableEq, Repr

/-- The function `isDJ` (lines 77-81). -/
def isDJ (member : Member) (guildId : JSString) (w : World) : Bool × World :=
  let (config, w1) := getServerConfig guildId w
  if config.djRoles.length = 0 then (true, w1)
  else (member.roles.any (fun role => config.djRoles.contains role) || member.manageGuild, w1)

/-! ## Commands, buttons and replies -/

/-- The cases of the command `switch` of `messageCreate`, named by their command word
(`setPrefix` is the case `setprefix`); `unknown` is its `default`. -/
inductive Command where
  | play | skip | stop | volume | queue | pause | resume | loop | shuffle | seek
  | nowplaying | setPrefix | setmusicchannel | adddj | removedj | help | invite | support
  | unknown
deriving DecidableEq, Repr

/-- The case of the command `switch` a (lower-cased) command word selects. -/
def commandOf (command : JSString) : Command :=
  if command = "play".toList ∨ command = "p".toList then .play
  else if command = "skip".toList then .skip
  else if command = "stop".toList then .stop
  else if command = "volume".toList then .volume
  else if command = "queue".toList then .queue
  else if command = "pause".toList then .pause
  else if command = "resume".toList then .resume
  else if command = "loop".toList then .loop
  else if command = "shuffle".toList then .shuffle
  else if command = "seek".toList then .seek
  else if command = "nowplaying".toList ∨ command = "np".toList then .nowplaying
  else if command = "setprefix".toList then .setPrefix
  else if command = "setmusicchannel".toList then .setmusicchannel
  else if command = "adddj".toList then .adddj
  else if command = "removedj".toList then .removedj
  else if command = "help".toList then .help
  else if command = "invite".toList then .invite
  else if command = "support".toList then .support
  else .unknown

/-- The cases of the button `switch` of `interactionCreate`; `other` is any other id. -/
inductive Button where
  | skip | pause | stop | loop | shuffle | rewind | forward | leave | queue | lyrics | other
deriving DecidableEq, Repr

/-- The case of the button `switch` a `customId` selects. -/
def buttonOf (customId : JSString) : Button :=
  if customId = "skip".toList then .skip
  else if customId = "pause".toList then .pause
  else if customId = "stop".toList then .stop
  else if customId = "loop".toList then .loop
  else if customId = "shuffle".toList then .shuffle
  else if customId = "rewind".toList then .rewind
  else if customId = "forward".toList then .forward
  else if customId = "leave".toList then .leave
  else if customId = "queue".toList then .queue
  else if customId = "lyrics".toList then .lyrics
  else .other

/-- The responses of the two handlers, one constructor per message of the source. -/
inductive Reply where
  /-- You need to be in a voice channel to play music! -/
  | needVoiceChannel
  /-- The reaction `message.react` with a check mark. -/
  | reactedOk
  /-- Failed to play the track. Please try again. -/
  | playFailed
  /-- Please provide a song name or URL! -/
  | needQuery
  /-- You need DJ permissions to (skip tracks, stop playback, ...)! -/
  | needDJ (command : Command)
  /-- No track is currently playing!  (text commands) -/
  | noTrackPlaying
  /-- Skipped the current track -/
  | skipped
  /-- Stopped playback and cleared queue -/
  | stopped
  /-- Please provide a valid volume between 0 and 200! -/
  | invalidVolume
  /-- Volume set to (volume)% -/
  | volumeSet (volume : JSNumber)
  /-- No tracks in queue!  (text command), No tracks in queue (button) -/
  | noTracksInQueue
  /-- The embed titled Current Queue. -/
  | queueView
  /-- Playback paused -/
  | paused
  /-- Playback resumed -/
  | resumed
  /-- Playback paused or Playback resumed, by the queue's `paused` read after the call. -/
  | pauseToggled
  /-- Loop enabled or Loop disabled, by the queue's `repeatMode` read after the call. -/
  | loopToggled
  /-- Not enough tracks in queue to shuffle -/
  | notEnoughTracks
  /-- Queue shuffled -/
  | shuffled
  /-- Please provide a time to seek to (e.g. 1:30 or 90s)! -/
  | needTime
  /-- Please provide a valid time format! -/
  | badTimeFormat
  /-- Seeking to (formatTime of the position in ms) -/
  | seeking (position : JSNumber)
  /-- The embed titled Now Playing. -/
  | nowPlayingView
  /-- You need Manage Server permissions to (change the prefix, ...)! -/
  | needManageServer (command : Command)
  /-- Please provide a valid prefix (1-3 characters)! -/
  | invalidPrefix
  /-- Prefix changed to (new prefix) -/
  | prefixChanged (newPrefix : JSString)
  /-- Music channel set to (channel) -/
  | musicChannelSet (channelId : JSString)
  /-- Please mention a role or provide a role ID! -/
  | needRole
  /-- Added (role) to DJ roles -/
  | djAdded (roleId : JSString)
  /-- This role is already a DJ role! -/
  | alreadyDJ
  /-- Removed (role) from DJ roles -/
  | djRemoved (roleId : JSString)
  /-- This role is not a DJ role! -/
  | notDJRole
  /-- The help embed with its select menu. -/
  | helpView
  /-- The invite embed. -/
  | inviteView
  /-- The support embed. -/
  | supportView
  /-- Unknown command. Use (prefix)help to see available commands. -/
  | unknownCommand (pfx : JSString)
  /-- An error occurred while executing that command. Please try again. -/
  | commandError
  /-- You need DJ permissions to use these controls  (buttons and menus) -/
  | needDJControls
  /-- No track is currently playing  (buttons) -/
  | noTrackPlayingButton
  /-- Rewinded 5 seconds -/
  | rewinded
  /-- Forwarded 5 seconds -/
  | forwarded
  /-- Not connected to a voice channel -/
  | notConnected
  /-- Left the voice channel -/
  | leftVoice
  /-- Lyrics feature coming soon! -/
  | lyricsSoon
deriving DecidableEq, Repr

/-- Outcome of handling one event: the world after it, the response sent (if any) and
whether an exception left the handler. -/
structure Result where
  world : World
  reply : Option Reply
  escaped : Bool
deriving DecidableEq, Repr

/-! ## The handlers -/

/-- A handler returns after sending `r`. -/
def respond (w : World) (r : Reply) : Result := { world := w, reply := some r, escaped := false }

/-- A handler returns without sending anything. -/
def silent (w : World) : Result := { world := w, reply := none, escaped := false }

/-- A player call made in a world. -/
def logCall (c : FacadeCall) (w : World) : World := { w with calls := w.calls ++ [c] }

/-- A player call inside the `try` of `messageCreate`, followed by the response `ok`: when the
call raises, the `catch` sends the generic failure response in its place. -/
def tryCall (env : Env) (c : FacadeCall) (ok : Option Reply) (w : World) : Result :=
  if env.throws c then { world := logCall c w, reply := some .commandError, escaped := false }
  else { world := logCall c w, reply := ok, escaped := false }

/-- A player call in `interactionCreate`, which has no `try`: when the call raises, the
exception leaves the handler and the follow-up is not sent. -/
def rawCall (env : Env) (c : FacadeCall) (ok : Reply) (w : World) : Result :=
  if env.throws c then { world := logCall c w, reply := none, escaped := true }
  else { world := logCall c w, reply := some ok, escaped := false }

/-! ## The display helpers -/

/-- Number of decimal digits of `n ≥ 1`. -/
def decimalLength (n : Nat) : Nat := (Nat.toDigits 10 n).length

/-- Worker of `shortestDecimal`: tries `digits`, `digits + 1`, ... significant digits. -/
def shortestDecimalAux (x : Nat) : Nat → Nat → Nat
  | 0, _ => x
  | fuel + 1, digits =>
    let p := 10 ^ (decimalLength x - digits)
    let lo := x / p * p
    let hi := lo + p
    let okLo := decide (toNumber lo = .int x)
    let okHi := decide (toNumber hi = .int x)
    if okLo && okHi then
      (if x - lo < hi - x then lo else if hi - x < x - lo then hi
       else if x / p % 2 = 0 then lo else hi)
    else if okLo then lo
    else if okHi then hi
    else shortestDecimalAux x fuel (digits + 1)

/-- The integer with the fewest significant digits whose number value is the double `x ≥ 1`,
the nearest to `x` when there are several: the one `Number::toString` prints. -/
def shortestDecimal (x : Nat) : Nat := shortestDecimalAux x (decimalLength x) 1

/-- A decimal numeral without its trailing zeros. -/
def stripTrailingZeros (ds : JSString) : JSString :=
  (ds.reverse.dropWhile fun c => c = '0').reverse

/-- The text of a non-negative integer-valued double: all digits below `10 ^ 21`, and the
exponent form `d.ddde+n` from there on. -/
def naturalToString (x : Nat) : JSString :=
  if x = 0 then ['0']
  else
    let ds := Nat.toDigits 10 (shortestDecimal x)
    if ds.length ≤ 21 then ds
    else
      match stripTrailingZeros ds with
      | [] => ds
      | [d] => d :: 'e' :: '+' :: Nat.toDigits 10 (ds.length - 1)
      | d :: rest => d :: '.' :: (rest ++ ('e' :: '+' :: Nat.toDigits 10 (ds.length - 1)))

/-- The text of a number in a template string. -/
def numberToString : JSNumber → JSString
  | .nan => "NaN".toList
  | .infinity false => "Infinity".toList
  | .infinity true => "-Infinity".toList
  | .int k => if k < 0 then '-' :: naturalToString k.natAbs else naturalToString k.natAbs

/-- The function `formatTime` (lines 89-94). -/
def formatTime (ms : JSNumber) : JSString :=
  let seconds := mathFloor (jsMod (jsDiv ms 1000) 60)
  let minutes := mathFloor (jsMod (jsDiv ms (jsMul 1000 60)) 60)
  let hours := mathFloor (jsDiv ms (jsMul (jsMul 1000 60) 60))
  (if jsLt 0 hours then numberToString hours ++ [':'] else []) ++
    (numberToString minutes ++
      (':' :: ((if jsLt seconds 10 then ['0'] else []) ++ numberToString seconds)))

/-- The bar glyph of the progress bar. -/
def barGlyph : Char := '▬'

/-- The marker glyph of the progress bar. -/
def markerGlyph : Char := '🔘'

/-- The call `glyph.repeat(count)`, `none` when it throws a `RangeError`. -/
def repeatGlyph (glyph : Char) : JSNumber → Option JSString
  | .nan => some []
  | .infinity _ => none
  | .int k => if k < 0 then none else some (List.replicate k.toNat glyph)

/-- The constant `progress` of `createProgressBar`. -/
def progressOf (current total length : JSNumber) : JSNumber :=
  mathRound (jsScale length (jsDiv current total))

/-- The function `createProgressBar` (lines 83-87), `none` when it throws: `repeat` raises a
`RangeError` for a negative or infinite count and gives the empty string for `NaN`.  An integer
argument stands for its number value. -/
def createProgressBar (current total length : Int) : Option JSString :=
  let progress := progressOf (toNumber current) (toNumber total) (toNumber length)
  match repeatGlyph barGlyph progress with
  | none => none
  | some front =>
    match repeatGlyph barGlyph (jsSub (toNumber length) progress) with
    | none => none
    | some back => some (front ++ (markerGlyph :: back))

/-- The current track when `!queue || !queue.current` is false. -/
def currentTrack : Option Queue → Option (Queue × Track)
  | some queue =>
    match queue.current with
    | some track => some (queue, track)
    | none => none
  | none => none

/-- A text message: the fields `messageCreate` reads.  `mentionedRoles` are the ids of
`message.mentions.roles` in order, `guildRoles` the ids in `message.guild.roles.cache`. -/
structure Message where
  authorBot : Bool
  guildId : Option JSString
  channelId : JSString
  content : JSString
  member : Member
  mentionedRoles : List JSString
  guildRoles : List JSString
deriving DecidableEq, Repr

/-- The expression `message.mentions.roles.first() || message.guild.roles.cache.get(args[0])`,
as the id of the role found. -/
def resolveRole (message : Message) (args : List JSString) : Option JSString :=
  match message.mentionedRoles.head? with
  | some role => some role
  | none =>
    match args.head? with
    | some a => if a ∈ message.guildRoles then some a else none
    | none => none

/-- The call `args.join(' ')`. -/
def joinSpaces (args : List JSString) : JSString := List.intercalate [' '] args

/-- The body of a playback command of `messageCreate` that is guarded by `isDJ` and by the
current track: `act` is what follows the two guards. -/
def djCommand (env : Env) (message : Message) (guildId : JSString) (command : Command)
    (w : World) (act : Queue → Track → World → Result) : Result :=
  let (dj, w1) := isDJ message.member guildId w
  if !dj then respond w1 (.needDJ command)
  else
    match currentTrack (env.getQueue guildId) with
    | none => respond w1 .noTrackPlaying
    | some (queue, track) => act queue track w1

/-- The command `switch` of `messageCreate` (lines 354-673), inside its `try`.  `config` is
the record read at line 322 and `pfx` the prefix in force. -/
def runCommand (env : Env) (message : Message) (guildId : JSString) (config : Config)
    (pfx : JSString) (args : List JSString) (w : World) : Command → Result
  | .play =>
    match message.member.voiceChannel with
    | none => respond w .needVoiceChannel
    | some voiceChannel =>
      let query := joinSpaces args
      if query = [] then respond w .needQuery
      else tryCall env (.play voiceChannel query) none w
  | .skip =>
    djCommand env message guildId .skip w fun _ _ w1 => tryCall env .skip (some .skipped) w1
  | .stop =>
    djCommand env message guildId .stop w fun _ _ w1 => tryCall env .stop (some .stopped) w1
  | .volume =>
    djCommand env message guildId .volume w fun _ _ w1 =>
      let volume := parseIntArg args.head?
      if isNaN volume || jsLt volume 0 || jsLt 200 volume then respond w1 .invalidVolume
      else tryCall env (.setVolume volume) (some (.volumeSet volume)) w1
  | .queue =>
    match currentTrack (env.getQueue guildId) with
    | none => respond w .noTracksInQueue
    | some _ => respond w .queueView
  | .pause =>
    djCommand env message guildId .pause w fun _ _ w1 =>
      tryCall env (.setPaused true) (some .paused) w1
  | .resume =>
    djCommand env message guildId .resume w fun _ _ w1 =>
      tryCall env (.setPaused false) (some .resumed) w1
  | .loop =>
    djCommand env message guildId .loop w fun queue _ w1 =>
      tryCall env (.setRepeatMode (if queue.repeatMode = 0 then 1 else 0)) (some .loopToggled) w1
  | .shuffle =>
    let (dj, w1) := isDJ message.member guildId w
    if !dj then respond w1 (.needDJ .shuffle)
    else
      match env.getQueue guildId with
      | none => respond w1 .notEnoughTracks
      | some queue =>
        if queue.tracksLength < 2 then respond w1 .notEnoughTracks
        else tryCall env .shuffle (some .shuffled) w1
  | .seek =>
    djCommand env message guildId .seek w fun _ _ w1 =>
      match args.head? with
      | none => respond w1 .needTime
      | some [] => respond w1 .needTime
      | some time =>
        let seconds := parseSeekTime time
        if isNaN seconds then respond w1 .badTimeFormat
        else tryCall env (.seek (jsMul seconds 1000)) (some (.seeking (jsMul seconds 1000))) w1
  | .nowplaying =>
    match currentTrack (env.getQueue guildId) with
    | none => respond w .noTrackPlaying
    | some (_, track) =>
      match createProgressBar track.position track.duration 15 with
      | none => respond w .commandError
      | some _ => respond w .nowPlayingView
  | .setPrefix =>
    if !message.member.manageGuild then respond w (.needManageServer .setPrefix)
    else
      match args.head? with
      | none => respond w .invalidPrefix
      | some newPrefix =>
        if newPrefix = [] ∨ jsLength newPrefix > 3 then respond w .invalidPrefix
        else respond (dbSet guildId { config with pfx := newPrefix } w) (.prefixChanged newPrefix)
  | .setmusicchannel =>
    if !message.member.manageGuild then respond w (.needManageServer .setmusicchannel)
    else
      respond (dbSet guildId { config with musicChannel := some message.channelId } w)
        (.musicChannelSet message.channelId)
  | .adddj =>
    if !message.member.manageGuild then respond w (.needManageServer .adddj)
    else
      match resolveRole message args with
      | none => respond w .needRole
      | some role =>
        if !config.djRoles.contains role then
          respond (dbSet guildId { config with djRoles := config.djRoles ++ [role] } w)
            (.djAdded role)
        else respond w .alreadyDJ
  | .removedj =>
    if !message.member.manageGuild then respond w (.needManageServer .removedj)
    else
      match resolveRole message args with
      | none => respond w .needRole
      | some role =>
        if config.djRoles.contains role then
          respond
            (dbSet guildId { config with djRoles := config.djRoles.filter fun id => id ≠ role } w)
            (.djRemoved role)
        else respond w .notDJRole
  | .help => respond w .helpView
  | .invite => respond w .inviteView
  | .support => respond w .supportView
  | .unknown => respond w (.unknownCommand pfx)

/-- The words of a command message: `content.slice(prefix.length).trim().split(/ +/)`.  The
content starts with the prefix when this is evaluated, so the slice drops the characters of
the prefix. -/
def commandWords (pfx content : JSString) : List JSString :=
  splitSpaces (trim (content.drop pfx.length))

/-- The expression `args.shift().toLowerCase()`: the command word. -/
def commandWord (env : Env) (args : List JSString) : JSString := env.toLowerCase (args.headD [])

/-- The expression `config.prefix || defaultPrefix`: the prefix in force. -/
def prefixOf (config : Config) : JSString :=
  if config.pfx ≠ [] then config.pfx else defaultPrefix

/-- The handler of `messageCreate` (lines 316-678). -/
def messageCreate (env : Env) (message : Message) (w : World) : Result :=
  if message.authorBot then silent w
  else
    match message.guildId with
    | none => silent w
    | some guildId =>
      let (config, w1) := getServerConfig guildId w
      let pfx := prefixOf config
      if truthy config.musicChannel ∧ some message.channelId = config.musicChannel ∧
          ¬ startsWith message.content pfx then
        match message.member.voiceChannel with
        | none => respond w1 .needVoiceChannel
        | some voiceChannel =>
          let call := FacadeCall.play voiceChannel message.content
          if env.throws call then respond (logCall call w1) .playFailed
          else respond (logCall call w1) .reactedOk
      else if ¬ startsWith message.content pfx then silent w1
      else
        let args := commandWords pfx message.content
        runCommand env message guildId config pfx args.tail w1 (commandOf (commandWord env args))

/-- The body of the music-channel branch of `messageCreate` (lines 327-344): the whole text
of the message is the query of the play request. -/
def playFromMusicChannel (env : Env) (message : Message) (w : World) : Result :=
  match message.member.voiceChannel with
  | none => respond w .needVoiceChannel
  | some voiceChannel =>
    let call := FacadeCall.play voiceChannel message.content
    if env.throws call then respond (logCall call w) .playFailed
    else respond (logCall call w) .reactedOk

/-- The command branch of `messageCreate` (lines 347-677): the prefix check, then the parsing
of the command and the `switch`. -/
def handleCommand (env : Env) (message : Message) (guildId : JSString) (config : Config)
    (w : World) : Result :=
  if ¬ startsWith message.content (prefixOf config) then silent w
  else
    let args := commandWords (prefixOf config) message.content
    runCommand env message guildId config (prefixOf config) args.tail w
      (commandOf (commandWord env args))

/-- A component interaction: the fields `interactionCreate` reads. -/
structure Interaction where
  isButton : Bool
  isStringSelectMenu : Bool
  guildId : JSString
  member : Member
  customId : JSString
deriving DecidableEq, Repr

/-- A button of `interactionCreate` guarded by the current track. -/
def trackButton (env : Env) (guildId : JSString) (w : World)
    (act : Queue → Track → World → Result) : Result :=
  match currentTrack (env.getQueue guildId) with
  | none => respond w .noTrackPlayingButton
  | some (queue, track) => act queue track w

/-- The button `switch` of `interactionCreate` (lines 224-312). -/
def runButton (env : Env) (guildId : JSString) (w : World) : Button → Result
  | .skip => trackButton env guildId w fun _ _ w1 => rawCall env .skip .skipped w1
  | .pause =>
    trackButton env guildId w fun queue _ w1 =>
      rawCall env (.setPaused (!queue.paused)) .pauseToggled w1
  | .stop => trackButton env guildId w fun _ _ w1 => rawCall env .stop .stopped w1
  | .loop =>
    trackButton env guildId w fun queue _ w1 =>
      rawCall env (.setRepeatMode (if queue.repeatMode = 0 then 1 else 0)) .loopToggled w1
  | .shuffle =>
    match env.getQueue guildId with
    | none => respond w .notEnoughTracks
    | some queue =>
      if queue.tracksLength < 2 then respond w .notEnoughTracks
      else rawCall env .shuffle .shuffled w
  | .rewind =>
    trackButton env guildId w fun _ track w1 =>
      rawCall env (.seek (mathMax 0 (jsSub (toNumber track.position) 5000))) .rewinded w1
  | .forward =>
    trackButton env guildId w fun _ track w1 =>
      rawCall env
        (.seek (mathMin (toNumber track.duration) (jsAdd (toNumber track.position) 5000)))
        .forwarded w1
  | .leave =>
    match env.getQueue guildId with
    | none => respond w .notConnected
    | some queue =>
      if !queue.connection then respond w .notConnected
      else rawCall env .destroy .leftVoice w
  | .queue =>
    match currentTrack (env.getQueue guildId) with
    | none => respond w .noTracksInQueue
    | some _ => respond w .queueView
  | .lyrics => respond w .lyricsSoon
  | .other => silent w

/-- The handler of `interactionCreate` (lines 206-314). -/
def interactionCreate (env : Env) (interaction : Interaction) (w : World) : Result :=
  if !interaction.isButton && !interaction.isStringSelectMenu then silent w
  else
    let (_, w1) := getServerConfig interaction.guildId w
    let (dj, w2) := isDJ interaction.member interaction.guildId w1
    if !dj then respond w2 .needDJControls
    else if interaction.isButton then runButton env interaction.guildId w2 (buttonOf interaction.customId)
    else silent w2

/-! ## Stating properties of the handlers -/

/-- The message is a command message for `command` in guild `guildId`: it is not from a bot, it
comes from that guild, its text starts with the prefix in force there and its command word
selects the case `command` of the `switch`. -/
def issues (env : Env) (message : Message) (w : World) (guildId : JSString)
    (command : Command) : Prop :=
  message.authorBot = false ∧ message.guildId = some guildId ∧
  startsWith message.content (prefixOf (getServerConfig guildId w).1) = true ∧
  commandOf (commandWord env
    (commandWords (prefixOf (getServerConfig guildId w).1) message.content)) = command

instance (env : Env) (message : Message) (w : World) (guildId : JSString) (command : Command) :
    Decidable (issues env message w guildId command) := by
  unfold issues
  infer_instance

/-- The arguments of a command message in guild `guildId`. -/
def argsOf (message : Message) (w : World) (guildId : JSString) : List JSString :=
  (commandWords (prefixOf (getServerConfig guildId w).1) message.content).tail

/-- The authorization denials: the DJ-permission responses of the text commands and of the
controls, and the Manage Server responses. -/
def isDenial : Option Reply → Bool
  | some (.needDJ _) => true
  | some (.needManageServer _) => true
  | some .needDJControls => true
  | _ => false

/-- A click on the button `customId` by `member` in guild `g`. -/
def demoClick (customId : String) (member : Member) : Interaction :=
  { isButton := true, isStringSelectMenu := false, guildId := "g".toList, member := member,
    customId := customId.toList }

/-- Value of a string of decimal digits, most significant digit first. -/
def decValue (ds : JSString) : Nat :=
  ds.foldl (fun acc c => acc * 10 + (c.toNat - 48)) 0

/-- The string `ds` writes the natural number `n` in decimal: it is a non-empty string of the
digits `0` to `9` whose value is `n`.  Leading zeros are allowed, as in `01:05`. -/
def IsDecimal (ds : JSString) (n : Nat) : Prop :=
  ds ≠ [] ∧ (∀ c ∈ ds, c.isDigit = true) ∧ decValue ds = n

instance (ds : JSString) (n : Nat) : Decidable (IsDecimal ds n) := by
  unfold IsDecimal
  infer_instance

/-- A non-empty string of decimal digits. -/
def isNumeral (ds : JSString) : Bool := !ds.isEmpty && ds.all Char.isDigit

/-- The seek times the specification names as supported, in its words: colon-delimited
`H:MM:SS` or `M:SS`; the shorthand `<N>m<N>s` with either component optional; a bare integer. -/
def specTimeForm (time : JSString) : Bool :=
  let colon :=
    match splitColon time with
    | [a, b] => isNumeral a && isNumeral b
    | [a, b, c] => isNumeral a && isNumeral b && isNumeral c
    | _ => false
  let shorthand :=
    match time.span Char.isDigit with
    | (d1, ['m']) => isNumeral d1
    | (d1, ['s']) => isNumeral d1
    | (d1, 'm' :: rest) =>
      isNumeral d1 &&
        (match rest.span Char.isDigit with
         | (d2, ['s']) => isNumeral d2
         | _ => false)
    | _ => false
  colon || shorthand || isNumeral time

/-- A queue that is connected and holds three tracks but has no current track. -/
def idleQueue : Queue :=
  { current := none, tracksLength := 3, paused := false, repeatMode := 0, connection := true }

/-- The stores the handlers can produce: the empty store, and the store left by handling any
message or any interaction from a store so produced. -/
inductive Reachable : Store → Prop
  | empty : Reachable []
  | message (env : Env) (message : Message) (db : Store) :
      Reachable db → Reachable (messageCreate env message (World.start db)).world.db
  | interaction (env : Env) (interaction : Interaction) (db : Store) :
      Reachable db → Reachable (interactionCreate env interaction (World.start db)).world.db

/-- The invariants of a configuration record: the prefix is non-empty and at most 3 long (in
UTF-16 code units as `.length` counts, hence also in characters), `djRoles` has no duplicate,
and `defaultVolume` lies in `[0, 200]`. -/
def GoodConfig (c : Config) : Prop :=
  c.pfx ≠ [] ∧ jsLength c.pfx ≤ 3 ∧ c.pfx.length ≤ 3 ∧ c.djRoles.Nodup ∧
  0 ≤ c.defaultVolume ∧ c.defaultVolume ≤ 200

instance (c : Config) : Decidable (GoodConfig c) := by
  unfold GoodConfig
  infer_instance

/-- Every record of the store satisfies the invariants. -/
def StoreGood (db : Store) : Prop := ∀ g c, storeGet db g = some c → GoodConfig c

/-- A queue that plays its one track and has lost its voice connection. -/
def looseQueue : Queue :=
  { current := some { position := 0, duration := 60000 }, tracksLength := 1, paused := false,
    repeatMode := 0, connection := false }

/-- A connected queue of two tracks with no current track. -/
def pairQueue : Queue :=
  { current := none, tracksLength := 2, paused := false, repeatMode := 0, connection := true }

/-- The world `w` a handler leaves is the one the `getServerConfig` that opens the handler made
of the store `db`: no call on the player; for a guild that has a record, no write and the store
as it was; for a guild without one, the one write of the default record. -/
def OnlyOpeningRead (db : Store) (g : JSString) (w : World) : Prop :=
  w = (getServerConfig g (World.start db)).2 ∧ w.calls = [] ∧
  (storeHas db g = true → w = World.start db) ∧
  (storeHas db g = false → w.writes = [(g, defaultConfig)])

/-- A queue with a current track, three tracks waiting and a voice connection. -/
def playingQueue : Queue :=
  { current := some { position := 1000, duration := 60000 }, tracksLength := 3, paused := false,
    repeatMode := 0, connection := true }

/-- Surroundings for the examples: every guild has `queue`, no player call raises, and
`toLowerCase` maps the ASCII letters. -/
def demoEnv (queue : Option Queue) : Env :=
  { getQueue := fun _ => queue, throws := fun _ => false,
    toLowerCase := fun s => s.map Char.toLower }

/-- Surroundings in which every player call raises. -/
def failingEnv (queue : Option Queue) : Env :=
  { getQueue := fun _ => queue, throws := fun _ => true,
    toLowerCase := fun s => s.map Char.toLower }

/-- A member for the examples who is in the voice channel `vc`. -/
def demoListener (roles : List String) (manageGuild : Bool) : Member :=
  { roles := roles.map String.toList, manageGuild := manageGuild,
    voiceChannel := some "vc".toList }

/-- A store for the examples: guild `g` has the default record with music channel `ch`. -/
def musicStore : Store :=
  [("g".toList, { defaultConfig with musicChannel := some "ch".toList })]

/-- A member for the examples, in no voice channel. -/
def demoMember (roles : List String) (manageGuild : Bool) : Member :=
  { roles := roles.map String.toList, manageGuild := manageGuild, voiceChannel := none }

/-- A message for the examples: text `content` sent by `member` in channel `ch` of guild `g`,
whose roles are `roleA` and `roleB`; no role is mentioned. -/
def demoMessage (content : String) (member : Member) : Message :=
  { authorBot := false, guildId := some "g".toList, channelId := "ch".toList,
    content := content.toList, member := member, mentionedRoles := [],
    guildRoles := ["roleA".toList, "roleB".toList] }

/-- A store for the examples: guild `g` has the default record with DJ roles `djRoles`. -/
def demoStore (djRoles : List String) : Store :=
  [("g".toList, { defaultConfig with djRoles := djRoles.map String.toList })]

/-! ## The store and `getServerConfig` -/

theorem storeGet_storeSet_self (db : Store) (k : JSString) (v : Config) :
    storeGet (storeSet db k v) k = some v := by
  induction db with
  | nil => simp [storeSet, storeGet]
  | cons e rest ih =>
    obtain ⟨k0, v0⟩ := e
    by_cases h : k0 = k
    · simp [storeSet, storeGet, h]
    · simp [storeSet, storeGet, h, ih]

theorem storeGet_storeSet_of_ne (db : Store) (k k1 : JSString) (v : Config) (h : k1 ≠ k) :
    storeGet (storeSet db k v) k1 = storeGet db k1 := by
  induction db with
  | nil =>
    have h2 : ¬ k = k1 := fun e => h e.symm
    simp [storeSet, storeGet, h2]
  | cons e rest ih =>
    obtain ⟨k0, v0⟩ := e
    by_cases h0 : k0 = k
    · subst h0
      have h2 : ¬ k0 = k1 := fun e => h e.symm
      simp [storeSet, storeGet, h2]
    · by_cases h1 : k0 = k1
      · subst h1
        simp [storeSet, storeGet, h0]
      · simp [storeSet, storeGet, h0, h1, ih]

theorem storeSet_same (db : Store) (k : JSString) (v : Config) (h : storeGet db k = some v) :
    storeSet db k v = db := by
  induction db with
  | nil => simp [storeGet] at h
  | cons e rest ih =>
    obtain ⟨k0, v0⟩ := e
    by_cases h0 : k0 = k
    · simp [storeGet, h0] at h
      simp [storeSet, h0, h]
    · simp [storeGet, h0] at h
      simp [storeSet, h0, ih h]

theorem getServerConfig_of_some {g : JSString} {w : World} {c : Config}
    (h : storeGet w.db g = some c) : getServerConfig g w = (c, w) := by
  simp [getServerConfig, storeHas, h]

theorem getServerConfig_of_none {g : JSString} {w : World} (h : storeGet w.db g = none) :
    getServerConfig g w = (defaultConfig, dbSet g defaultConfig w) := by
  simp [getServerConfig, storeHas, h, dbSet, storeGet_storeSet_self]

/-- The record `getServerConfig` returns is the one stored afterwards. -/
theorem getServerConfig_stored (g : JSString) (w : World) :
    storeGet (getServerConfig g w).2.db g = some (getServerConfig g w).1 := by
  cases h : storeGet w.db g with
  | none => simp [getServerConfig_of_none h, dbSet, storeGet_storeSet_self]
  | some c => simp [getServerConfig_of_some h, h]

/-- A second `getServerConfig` for the same guild reads the same record and writes nothing. -/
theorem getServerConfig_again (g : JSString) (w : World) :
    getServerConfig g (getServerConfig g w).2 = ((getServerConfig g w).1, (getServerConfig g w).2) :=
  getServerConfig_of_some (getServerConfig_stored g w)

/-- The database, write log and call log after `getServerConfig`, by whether the guild had a record. -/
theorem getServerConfig_world (g : JSString) (w : World) :
    (getServerConfig g w).2.calls = w.calls ∧
    (storeHas w.db g = true → (getServerConfig g w).2 = w) ∧
    (storeHas w.db g = false →
      (getServerConfig g w).2 = dbSet g defaultConfig w ∧ (getServerConfig g w).1 = defaultConfig) := by
  cases h : storeGet w.db g with
  | none => simp [getServerConfig_of_none h, storeHas, h, dbSet]
  | some c => simp [getServerConfig_of_some h, storeHas, h]

theorem isDJ_world (member : Member) (g : JSString) (w : World) :
    (isDJ member g w).2 = (getServerConfig g w).2 := by
  unfold isDJ
  simp only []
  split <;> rfl

theorem isDJ_value (member : Member) (g : JSString) (w : World) :
    (isDJ member g w).1 =
      (decide ((getServerConfig g w).1.djRoles = []) ||
        (member.roles.any (fun role => (getServerConfig g w).1.djRoles.contains role) ||
          member.manageGuild)) := by
  unfold isDJ
  simp only []
  split
  · next h => simp [List.length_eq_zero.mp h]
  · next h =>
    have h2 : ¬ (getServerConfig g w).1.djRoles = [] := fun e => h (by simp [e])
    simp [h2]

/-- Inside a handler `isDJ` is evaluated after `getServerConfig`: it leaves the world as it is. -/
theorem isDJ_after (member : Member) (g : JSString) (w : World) :
    isDJ member g (getServerConfig g w).2 =
      ((isDJ member g w).1, (getServerConfig g w).2) := by
  have h1 := isDJ_world member g (getServerConfig g w).2
  have h2 := isDJ_value member g (getServerConfig g w).2
  rw [getServerConfig_again] at h1 h2
  rw [← isDJ_value member g w] at h2
  exact Prod.ext h2 h1

/-- A message that starts with the prefix in force is dispatched to the command `switch`. -/
theorem messageCreate_command (env : Env) (message : Message) (g : JSString) (w : World)
    (hbot : message.authorBot = false) (hg : message.guildId = some g)
    (hp : startsWith message.content (prefixOf (getServerConfig g w).1) = true) :
    messageCreate env message w =
      runCommand env message g (getServerConfig g w).1 (prefixOf (getServerConfig g w).1)
        (commandWords (prefixOf (getServerConfig g w).1) message.content).tail
        (getServerConfig g w).2
        (commandOf (commandWord env
          (commandWords (prefixOf (getServerConfig g w).1) message.content))) := by
  unfold messageCreate
  simp [hbot, hg, hp]

/-! ## C1: `isDJ` -/

/-- C1: `isDJ(member, guildId)` is true exactly when the guild's `djRoles` list is empty, or the
member holds a role whose id is in `djRoles`, or the member has `ManageGuild`; in particular it
is true whenever `djRoles` is empty and whenever the member has `ManageGuild`. -/
theorem isDJ_iff (member : Member) (guildId : JSString) (w : World) :
    ((isDJ member guildId w).1 = true ↔
      ((getServerConfig guildId w).1.djRoles = [] ∨
        (∃ role, role ∈ member.roles ∧ role ∈ (getServerConfig guildId w).1.djRoles) ∨
        member.manageGuild = true)) ∧
    ((getServerConfig guildId w).1.djRoles = [] → (isDJ member guildId w).1 = true) ∧
    (member.manageGuild = true → (isDJ member guildId w).1 = true) := by
  have key : (isDJ member guildId w).1 = true ↔
      ((getServerConfig guildId w).1.djRoles = [] ∨
        (∃ role, role ∈ member.roles ∧ role ∈ (getServerConfig guildId w).1.djRoles) ∨
        member.manageGuild = true) := by
    rw [isDJ_value]
    simp [List.any_eq_true]
  exact ⟨key, fun h => key.mpr (Or.inl h), fun h => key.mpr (Or.inr (Or.inr h))⟩

theorem messageCreate_of_issues {env : Env} {message : Message} {w : World} {g : JSString}
    {command : Command} (h : issues env message w g command) :
    messageCreate env message w =
      runCommand env message g (getServerConfig g w).1 (prefixOf (getServerConfig g w).1)
        (argsOf message w g) (getServerConfig g w).2 command := by
  obtain ⟨hbot, hg, hp, hc⟩ := h
  rw [messageCreate_command env message g w hbot hg hp, hc]
  rfl

/-! ## C2: configuration commands need `ManageGuild` -/

/-- C2: a member without `ManageGuild` who issues `setprefix`, `setmusicchannel`, `adddj` or
`removedj` gets the Manage Server denial of that command, whatever the stored record and the
member's roles are; the handler does nothing beyond the configuration read that opens it, so the
record of the guild reads the same afterwards and a guild that has a record keeps its store. -/
theorem config_command_denied (env : Env) (message : Message) (db : Store) (guildId : JSString)
    (command : Command) (hissue : issues env message (World.start db) guildId command)
    (hcmd : command = .setPrefix ∨ command = .setmusicchannel ∨ command = .adddj ∨
      command = .removedj)
    (hperm : message.member.manageGuild = false) :
    (messageCreate env message (World.start db)).reply = some (.needManageServer command) ∧
    (messageCreate env message (World.start db)).world =
      (getServerConfig guildId (World.start db)).2 ∧
    (getServerConfig guildId (messageCreate env message (World.start db)).world).1 =
      (getServerConfig guildId (World.start db)).1 ∧
    (∀ c, storeGet db guildId = some c →
      (messageCreate env message (World.start db)).world = World.start db ∧
      storeGet (messageCreate env message (World.start db)).world.db guildId = some c) := by
  have hw : (messageCreate env message (World.start db)).reply = some (.needManageServer command) ∧
      (messageCreate env message (World.start db)).world =
        (getServerConfig guildId (World.start db)).2 := by
    rw [messageCreate_of_issues hissue]
    rcases hcmd with h | h | h | h <;> subst h <;> simp [runCommand, hperm, respond]
  refine ⟨hw.1, hw.2, ?_, ?_⟩
  · rw [hw.2, getServerConfig_again]
  · intro c hc
    have hc2 : storeGet (World.start db).db guildId = some c := hc
    rw [hw.2, getServerConfig_of_some hc2]
    exact ⟨rfl, hc⟩

/-- C2, witness: with DJ roles `roleA`, a member with no role and no `ManageGuild` who sends
`S-setprefix !` is denied, and the store stays as it was. -/
theorem config_command_denied_witness :
    (messageCreate (demoEnv none) (demoMessage "S-setprefix !" (demoMember [] false))
        (World.start (demoStore ["roleA"]))).reply = some (.needManageServer .setPrefix) ∧
    (messageCreate (demoEnv none) (demoMessage "S-setprefix !" (demoMember [] false))
        (World.start (demoStore ["roleA"]))).world = World.start (demoStore ["roleA"]) :=
  have h := config_command_denied (demoEnv none)
    (demoMessage "S-setprefix !" (demoMember [] false)) (demoStore ["roleA"]) "g".toList
    .setPrefix (by decide) (by decide) (by decide)
  ⟨h.1, (h.2.2.2 { defaultConfig with djRoles := ["roleA".toList] } (by decide)).1⟩

/-! ## C3: informational actions -/

/-- An interaction that passes the first line of `interactionCreate` meets the `isDJ` gate: it
is answered with the controls denial when `isDJ` is false and goes on to the button `switch`
otherwise. -/
theorem interactionCreate_gate (env : Env) (interaction : Interaction) (w : World)
    (hb : interaction.isButton = true) :
    interactionCreate env interaction w =
      if (isDJ interaction.member interaction.guildId w).1 = true then
        runButton env interaction.guildId (getServerConfig interaction.guildId w).2
          (buttonOf interaction.customId)
      else respond (getServerConfig interaction.guildId w).2 .needDJControls := by
  unfold interactionCreate
  simp only [hb, Bool.not_true, Bool.false_and, Bool.false_eq_true, if_false, if_true]
  rw [isDJ_after]
  cases (isDJ interaction.member interaction.guildId w).1 <;> simp

/-- C3, as the code has it: the queue button is denied to a member for whom `isDJ` is false.
With DJ roles `roleA`, a member without role and without `ManageGuild` who clicks it while a
track plays is answered with the DJ-permission denial of the controls. -/
theorem queue_button_denied :
    (interactionCreate (demoEnv (some playingQueue)) (demoClick "queue" (demoMember [] false))
      (World.start (demoStore ["roleA"]))).reply = some .needDJControls ∧
    isDenial (interactionCreate (demoEnv (some playingQueue))
      (demoClick "queue" (demoMember [] false)) (World.start (demoStore ["roleA"]))).reply = true := by
  decide

/-- C3, amended: the informational text commands (`queue`, `nowplaying`, `help`, `invite`,
`support`) are never answered with a DJ-permission or Manage Server denial, for every member and
every stored record; the `queue` and `lyrics` buttons are behind the `isDJ` gate of the button
handler and are answered with the DJ-permission denial exactly when `isDJ` is false. -/
theorem informational_permitted (env : Env) (db : Store) (guildId : JSString) :
    (∀ message command, issues env message (World.start db) guildId command →
      (command = .queue ∨ command = .nowplaying ∨ command = .help ∨ command = .invite ∨
        command = .support) →
      isDenial (messageCreate env message (World.start db)).reply = false) ∧
    (∀ interaction : Interaction, interaction.isButton = true → interaction.guildId = guildId →
      (buttonOf interaction.customId = .queue ∨ buttonOf interaction.customId = .lyrics) →
      ((interactionCreate env interaction (World.start db)).reply = some .needDJControls ↔
        (isDJ interaction.member guildId (World.start db)).1 = false) ∧
      (isDenial (interactionCreate env interaction (World.start db)).reply = true ↔
        (isDJ interaction.member guildId (World.start db)).1 = false)) := by
  constructor
  · intro message command hissue hcmd
    rw [messageCreate_of_issues hissue]
    rcases hcmd with h | h | h | h | h <;> subst h <;> simp only [runCommand]
    · cases currentTrack (env.getQueue guildId) <;> rfl
    · repeat' split
      all_goals rfl
    · rfl
    · rfl
    · rfl
  · intro interaction hb hg hbtn
    subst hg
    rw [interactionCreate_gate env interaction _ hb]
    cases hdj : (isDJ interaction.member interaction.guildId (World.start db)).1
    · simp [respond, isDenial]
    · rcases hbtn with h | h <;> rw [h] <;> simp only [runButton, if_true]
      · cases currentTrack (env.getQueue interaction.guildId) <;> simp [respond, isDenial]
      · simp [respond, isDenial]

/-- C3, witness: the text command `queue` of a member without DJ role is answered with the queue
view, and the same member's click on the `queue` button with the denial. -/
theorem informational_permitted_witness :
    isDenial (messageCreate (demoEnv (some playingQueue)) (demoMessage "S-queue" (demoMember [] false))
      (World.start (demoStore ["roleA"]))).reply = false ∧
    (interactionCreate (demoEnv (some playingQueue)) (demoClick "queue" (demoMember [] false))
      (World.start (demoStore ["roleA"]))).reply = some .needDJControls :=
  have h := informational_permitted (demoEnv (some playingQueue)) (demoStore ["roleA"]) "g".toList
  ⟨h.1 (demoMessage "S-queue" (demoMember [] false)) .queue (by decide) (Or.inl rfl),
    ((h.2 (demoClick "queue" (demoMember [] false)) rfl rfl (Or.inl (by decide))).1).mpr
      (by decide)⟩

/-! ## The rounding of numbers -/

/-- The binary logarithm found by halving brackets its argument. -/
theorem floorLog2Aux_spec (fuel n : Nat) (hf : n ≤ fuel) (hn : 1 ≤ n) :
    2 ^ floorLog2Aux fuel n ≤ n ∧ n < 2 ^ (floorLog2Aux fuel n + 1) := by
  induction fuel generalizing n with
  | zero => omega
  | succ fuel ih =>
    unfold floorLog2Aux
    split
    · next h2 => simp; omega
    · next h2 =>
      have h := ih (n / 2) (by omega) (by omega)
      rw [pow_succ, pow_succ]
      omega

theorem floorLog2_spec (n : Nat) (hn : 1 ≤ n) :
    2 ^ floorLog2 n ≤ n ∧ n < 2 ^ (floorLog2 n + 1) :=
  floorLog2Aux_spec n n (le_refl n) hn

theorem floorLog2_lt {n k : Nat} (hn : 1 ≤ n) (h : n < 2 ^ k) : floorLog2 n < k := by
  by_contra hk
  have h1 := (floorLog2_spec n hn).1
  have h2 : 2 ^ k ≤ 2 ^ floorLog2 n := Nat.pow_le_pow_right (by decide) (by omega)
  omega

theorem le_floorLog2 {n k : Nat} (hn : 1 ≤ n) (h : 2 ^ k ≤ n) : k ≤ floorLog2 n := by
  by_contra hk
  have h1 := (floorLog2_spec n hn).2
  have h2 : 2 ^ (floorLog2 n + 1) ≤ 2 ^ k := Nat.pow_le_pow_right (by decide) (by omega)
  omega

theorem floorLog2_zero : floorLog2 0 = 0 := rfl

/-- The nearest integer is within half a unit: `2 * |m * d - n| ≤ d`. -/
theorem divRoundEven_near (n d : Nat) (hd : 1 ≤ d) :
    2 * (divRoundEven n d * d) ≤ 2 * n + d ∧ 2 * n ≤ 2 * (divRoundEven n d * d) + d := by
  have hdm := Nat.div_add_mod n d
  have hlt := Nat.mod_lt n hd
  have hq : n / d * d + n % d = n := by rw [Nat.mul_comm]; exact hdm
  unfold divRoundEven
  split
  · next h =>
    have : (n / d + 1) * d = n / d * d + d := by ring
    rw [this]
    rcases h with h | h <;> omega
  · next h =>
    have h1 : ¬ 2 * (n % d) > d := fun e => h (Or.inl e)
    omega

theorem divRoundEven_exact (q d : Nat) (hd : 1 ≤ d) : divRoundEven (q * d) d = q := by
  unfold divRoundEven
  have h1 : q * d % d = 0 := Nat.mul_mod_left q d
  have h2 : q * d / d = q := Nat.mul_div_cancel q hd
  simp [h1, h2]
  omega

/-- An integer of magnitude at most `2 ^ 53` is a double. -/
theorem toNumber_exact (k : Int) (h : k.natAbs ≤ 2 ^ 53) : toNumber k = .int k := by
  unfold toNumber
  simp only []
  split
  · rfl
  · next hlog =>
    have hpos : 1 ≤ k.natAbs := by
      by_contra h0
      have : k.natAbs = 0 := by omega
      rw [this, floorLog2_zero] at hlog
      omega
    have hge : 2 ^ 53 ≤ k.natAbs := by
      by_contra hlt
      have := floorLog2_lt hpos (show k.natAbs < 2 ^ 53 by omega)
      omega
    have heq : k.natAbs = 2 ^ 53 := by omega
    rcases Int.natAbs_eq k with hk | hk
    · rw [heq] at hk
      rw [hk]
      decide
    · rw [heq] at hk
      rw [hk]
      decide

theorem toNumber_natCast (n : Nat) (h : n ≤ 2 ^ 53) : toNumber (n : Int) = .int n :=
  toNumber_exact n (by simpa using h)

/-- The number value of an integer above `2 ^ 53` is an infinity or an integer from `2 ^ 52` on. -/
theorem toNumber_large (n : Nat) (h : 2 ^ 53 < n) :
    toNumber (n : Int) = .infinity false ∨ ∃ v : Nat, 2 ^ 52 ≤ v ∧ toNumber (n : Int) = .int v := by
  have hpos : 1 ≤ n := by omega
  have hlog : 53 ≤ floorLog2 n := le_floorLog2 hpos (by omega)
  have hneg : ¬ ((n : Int) < 0) := by omega
  unfold toNumber
  simp only [Int.natAbs_ofNat, hneg, decide_False, if_false, show ¬ floorLog2 n ≤ 52 by omega]
  split
  · exact Or.inl rfl
  · right
    refine ⟨_, ?_, rfl⟩
    have hs := (floorLog2_spec n hpos).1
    have he : floorLog2 n = (floorLog2 n - 52) + 52 := by omega
    have hp : 2 ^ floorLog2 n = 2 ^ 52 * 2 ^ (floorLog2 n - 52) := by
      rw [← pow_add]
      congr 1
      omega
    have hnear := (divRoundEven_near n (2 ^ (floorLog2 n - 52)) (Nat.one_le_two_pow)).2
    have hpp : 1 ≤ 2 ^ (floorLog2 n - 52) := Nat.one_le_two_pow
    have hbig : 2 ≤ 2 ^ (floorLog2 n - 52) := by
      have : 2 ^ 1 ≤ 2 ^ (floorLog2 n - 52) := Nat.pow_le_pow_right (by decide) (by omega)
      simpa using this
    nlinarith

/-! ## Decimal numerals and `parseInt` -/

theorem isDigit_iff (c : Char) : c.isDigit = true ↔ 48 ≤ c.toNat ∧ c.toNat ≤ 57 := by
  simp only [Char.isDigit, Bool.and_eq_true, decide_eq_true_eq, Char.toNat, UInt32.le_def,
    Fin.le_def]
  rfl

theorem digitValue_of_isDigit {c : Char} (h : c.isDigit = true) :
    digitValue 10 c = some (c.toNat - 48) := by
  obtain ⟨h1, h2⟩ := (isDigit_iff c).mp h
  have h3 : c.toNat - 48 < 10 := by omega
  simp [digitValue, h1, h2, Option.filter, h3]

theorem not_ws_of_isDigit {c : Char} (h : c.isDigit = true) : isJSWhiteSpace c = false := by
  obtain ⟨h1, h2⟩ := (isDigit_iff c).mp h
  simp only [isJSWhiteSpace, Bool.or_eq_false_iff, beq_eq_false_iff_ne, Bool.and_eq_false_imp,
    decide_eq_true_eq, decide_eq_false_iff_not]
  omega

theorem char_ne_of_not_isDigit {c d : Char} (hc : c.isDigit = true) (hd : d.isDigit = false) :
    c ≠ d := by
  intro e
  rw [e, hd] at hc
  exact Bool.noConfusion hc

theorem decValue_snoc (ds : JSString) (c : Char) :
    decValue (ds ++ [c]) = decValue ds * 10 + (c.toNat - 48) := by
  simp [decValue, List.foldl_append]

theorem readDigits_digits (ds rest : JSString) (acc : Nat) (seen : Bool)
    (hds : ∀ c ∈ ds, c.isDigit = true) :
    readDigits 10 (ds ++ rest) acc seen =
      readDigits 10 rest (ds.foldl (fun a c => a * 10 + (c.toNat - 48)) acc)
        (seen || !ds.isEmpty) := by
  induction ds generalizing acc seen with
  | nil => simp
  | cons c cs ih =>
    have hc : c.isDigit = true := hds c (List.mem_cons_self _ _)
    have hcs : ∀ x ∈ cs, x.isDigit = true := fun x hx => hds x (List.mem_cons_of_mem _ hx)
    have step : readDigits 10 (c :: cs ++ rest) acc seen =
        readDigits 10 (cs ++ rest) (acc * 10 + (c.toNat - 48)) true := by
      simp only [List.cons_append, readDigits, digitValue_of_isDigit hc]
      rfl
    rw [step, ih _ _ hcs]
    simp

theorem digitValue_none_of_not_isDigit {c : Char} (h : c.isDigit = false) :
    digitValue 10 c = none := by
  have hd : ¬ (48 ≤ c.toNat ∧ c.toNat ≤ 57) := fun e => by
    rw [(isDigit_iff c).mpr e] at h
    exact Bool.noConfusion h
  unfold digitValue
  simp only [hd, if_false]
  split
  · next h1 =>
    have : ¬ (c.toNat - 87 < 10) := by omega
    simp [Option.filter, this]
  · split
    · next h2 =>
      have : ¬ (c.toNat - 55 < 10) := by omega
      simp [Option.filter, this]
    · rfl

/-- A tail that does not go on with a digit, nor with the `x` of a hexadecimal prefix. -/
theorem readDigits_numeral {ds rest : JSString} {n : Nat} (h : IsDecimal ds n)
    (hrest : ∀ c, rest.head? = some c → c.isDigit = false) :
    readDigits 10 (ds ++ rest) 0 false = some n := by
  obtain ⟨hne, hds, hv⟩ := h
  rw [readDigits_digits ds rest 0 false hds]
  have hseen : (false || !ds.isEmpty) = true := by
    cases ds with
    | nil => exact absurd rfl hne
    | cons c cs => rfl
  rw [hseen]
  have hval : ds.foldl (fun a c => a * 10 + (c.toNat - 48)) 0 = n := hv
  rw [hval]
  cases rest with
  | nil => rfl
  | cons c cs =>
    have := digitValue_none_of_not_isDigit (hrest c rfl)
    simp [readDigits, this]

theorem parseUnsigned_numeral {ds rest : JSString} {n : Nat} (h : IsDecimal ds n)
    (hrest : ∀ c, rest.head? = some c → c.isDigit = false ∧ c ≠ 'x' ∧ c ≠ 'X') :
    parseUnsigned (ds ++ rest) = some n := by
  have hr := readDigits_numeral h (fun c hc => (hrest c hc).1)
  obtain ⟨hne, hds, _⟩ := h
  cases ds with
  | nil => exact absurd rfl hne
  | cons c cs =>
    have hc : c.isDigit = true := hds c (List.mem_cons_self _ _)
    unfold parseUnsigned
    split
    · next heq =>
      cases cs with
      | nil =>
        simp only [List.cons_append, List.nil_append, List.cons.injEq] at heq
        cases rest with
        | nil => exact absurd heq.2 (by simp)
        | cons r rs =>
          simp only [List.cons.injEq] at heq
          exact absurd heq.2.1 (hrest r rfl).2.1
      | cons d ds2 =>
        have hd : d.isDigit = true := hds d (by simp)
        simp only [List.cons_append, List.cons.injEq] at heq
        exact absurd heq.2.1 (char_ne_of_not_isDigit hd (by decide))
    · next heq =>
      cases cs with
      | nil =>
        simp only [List.cons_append, List.nil_append, List.cons.injEq] at heq
        cases rest with
        | nil => exact absurd heq.2 (by simp)
        | cons r rs =>
          simp only [List.cons.injEq] at heq
          exact absurd heq.2.1 (hrest r rfl).2.2
      | cons d ds2 =>
        have hd : d.isDigit = true := hds d (by simp)
        simp only [List.cons_append, List.cons.injEq] at heq
        exact absurd heq.2.1 (char_ne_of_not_isDigit hd (by decide))
    · exact hr

/-- The function `parseInt` reads the numeral at the head of its argument and ignores what
follows it. -/
theorem parseInt_numeral {ds rest : JSString} {n : Nat} (h : IsDecimal ds n)
    (hrest : ∀ c, rest.head? = some c → c.isDigit = false ∧ c ≠ 'x' ∧ c ≠ 'X') :
    parseInt (ds ++ rest) = toNumber (n : Int) ∧
    parseInt ('-' :: (ds ++ rest)) = toNumber (-(n : Int)) ∧
    parseInt ('+' :: (ds ++ rest)) = toNumber (n : Int) := by
  have hu := parseUnsigned_numeral h hrest
  obtain ⟨hne, hds, _⟩ := h
  cases ds with
  | nil => exact absurd rfl hne
  | cons c cs =>
    have hc : c.isDigit = true := hds c (List.mem_cons_self _ _)
    have hws := not_ws_of_isDigit hc
    have hm : c ≠ '-' := char_ne_of_not_isDigit hc (by decide)
    have hp : c ≠ '+' := char_ne_of_not_isDigit hc (by decide)
    refine ⟨?_, ?_, ?_⟩
    · unfold parseInt
      simp only [List.cons_append, List.dropWhile_cons, hws]
      split
      · next heq => simp at heq; exact absurd heq.1 hm
      · next heq => simp at heq; exact absurd heq.1 hp
      · simp only [List.cons_append] at hu
        simp [hu]
    · have hw : isJSWhiteSpace '-' = false := by decide
      simp only [List.cons_append] at hu
      unfold parseInt
      simp only [List.cons_append, List.dropWhile_cons, hw]
      simp [hu]
    · have hw : isJSWhiteSpace '+' = false := by decide
      simp only [List.cons_append] at hu
      unfold parseInt
      simp only [List.cons_append, List.dropWhile_cons, hw]
      simp [hu]

theorem parseInt_decimal {ds : JSString} {n : Nat} (h : IsDecimal ds n) :
    parseInt ds = toNumber (n : Int) := by
  have := (@parseInt_numeral ds [] n h (fun c hc => by simp at hc)).1
  simpa using this

/-- An argument that starts with no digit, sign or white space is not a number. -/
theorem parseInt_nan (c : Char) (rest : JSString) (hws : isJSWhiteSpace c = false)
    (hd : c.isDigit = false) (hm : c ≠ '-') (hp : c ≠ '+') : parseInt (c :: rest) = .nan := by
  have hdv := digitValue_none_of_not_isDigit hd
  have hu : parseUnsigned (c :: rest) = none := by
    unfold parseUnsigned
    split
    · next heq =>
      simp only [List.cons.injEq] at heq
      rw [heq.1] at hd
      exact absurd hd (by decide)
    · next heq =>
      simp only [List.cons.injEq] at heq
      rw [heq.1] at hd
      exact absurd hd (by decide)
    · simp [readDigits, hdv]
  unfold parseInt
  simp only [List.dropWhile_cons, hws]
  split
  · next heq => simp at heq; exact absurd heq.1 hm
  · next heq => simp at heq; exact absurd heq.1 hp
  · simp [hu]

theorem digitChar_isDigit (k : Nat) (hk : k < 10) :
    (Nat.digitChar k).isDigit = true ∧ (Nat.digitChar k).toNat - 48 = k := by
  interval_cases k <;> decide

/-- What `Nat.toDigitsCore 10` puts in front of its accumulator is a decimal numeral of `n`. -/
theorem toDigitsCore_decimal (fuel n : Nat) (acc : List Char) (h : n < fuel) :
    ∃ pre, Nat.toDigitsCore 10 fuel n acc = pre ++ acc ∧ IsDecimal pre n := by
  induction fuel generalizing n acc with
  | zero => exact absurd h (Nat.not_lt_zero _)
  | succ fuel ih =>
    have hd := digitChar_isDigit (n % 10) (Nat.mod_lt _ (by decide))
    by_cases h0 : n / 10 = 0
    · refine ⟨[Nat.digitChar (n % 10)], by simp [Nat.toDigitsCore, h0], by simp, ?_, ?_⟩
      · intro c hc
        simp only [List.mem_singleton] at hc
        rw [hc]
        exact hd.1
      · simp only [decValue, List.foldl_cons, List.foldl_nil, hd.2]
        omega
    · have hlt : n / 10 < fuel := by omega
      obtain ⟨pre, hpre, hne, hdig, hval⟩ := ih (n / 10) (Nat.digitChar (n % 10) :: acc) hlt
      refine ⟨pre ++ [Nat.digitChar (n % 10)], by simp [Nat.toDigitsCore, h0, hpre], by simp, ?_, ?_⟩
      · intro c hc
        rcases List.mem_append.mp hc with hc | hc
        · exact hdig c hc
        · simp only [List.mem_singleton] at hc
          rw [hc]
          exact hd.1
      · rw [decValue_snoc, hval, hd.2]
        omega

/-- The decimal numeral Lean prints for `n` writes `n` in decimal. -/
theorem isDecimal_toDigits (n : Nat) : IsDecimal (Nat.toDigits 10 n) n := by
  obtain ⟨pre, hpre, hdec⟩ := toDigitsCore_decimal (n + 1) n [] (Nat.lt_succ_self n)
  simp only [List.append_nil] at hpre
  rw [Nat.toDigits, hpre]
  exact hdec

theorem splitColon_no_colon (ds : JSString) (h : ':' ∉ ds) : splitColon ds = [ds] := by
  induction ds with
  | nil => rfl
  | cons c cs ih =>
    have hc : c ≠ ':' := fun e => h (by simp [e])
    have hcs : ':' ∉ cs := fun e => h (List.mem_cons_of_mem _ e)
    simp [splitColon, hc, ih hcs]

theorem splitColon_append (ds rest : JSString) (h : ':' ∉ ds) :
    splitColon (ds ++ ':' :: rest) = ds :: splitColon rest := by
  induction ds with
  | nil => simp [splitColon]
  | cons c cs ih =>
    have hc : c ≠ ':' := fun e => h (by simp [e])
    have hcs : ':' ∉ cs := fun e => h (List.mem_cons_of_mem _ e)
    simp [splitColon, hc, ih hcs]

theorem not_mem_of_digits {ds : JSString} {x : Char} (hds : ∀ c ∈ ds, c.isDigit = true)
    (hx : x.isDigit = false) : x ∉ ds := by
  intro hmem
  rw [hds x hmem] at hx
  exact Bool.noConfusion hx

theorem matchDigitsThen_digits (letter : Char) (ds rest run : JSString)
    (hds : ∀ c ∈ ds, c.isDigit = true) :
    matchDigitsThen letter (ds ++ rest) run = matchDigitsThen letter rest (run ++ ds) := by
  induction ds generalizing run with
  | nil => simp
  | cons c cs ih =>
    have hc : c.isDigit = true := hds c (List.mem_cons_self _ _)
    have hcs : ∀ x ∈ cs, x.isDigit = true := fun x hx => hds x (List.mem_cons_of_mem _ hx)
    have step : matchDigitsThen letter (c :: cs ++ rest) run =
        matchDigitsThen letter (cs ++ rest) (run ++ [c]) := by
      simp only [List.cons_append, matchDigitsThen, hc, if_true]
      rfl
    rw [step, ih _ hcs]
    simp

/-! ## Helpers on the guarded commands -/

/-- A command guarded by `isDJ` and by the current track, as `messageCreate` reaches it. -/
theorem djCommand_eq (env : Env) (message : Message) (g : JSString) (command : Command)
    (w : World) (act : Queue → Track → World → Result) :
    djCommand env message g command (getServerConfig g w).2 act =
      if (isDJ message.member g w).1 = true then
        match currentTrack (env.getQueue g) with
        | none => respond (getServerConfig g w).2 .noTrackPlaying
        | some (queue, track) => act queue track (getServerConfig g w).2
      else respond (getServerConfig g w).2 (.needDJ command) := by
  unfold djCommand
  rw [isDJ_after]
  cases (isDJ message.member g w).1 <;> simp

theorem calls_after_config (g : JSString) (db : Store) :
    (getServerConfig g (World.start db)).2.calls = [] :=
  (getServerConfig_world g (World.start db)).1

theorem tryCall_calls (env : Env) (c : FacadeCall) (ok : Option Reply) (w : World) :
    (tryCall env c ok w).world.calls = w.calls ++ [c] := by
  unfold tryCall
  split <;> rfl


/-! ## Sums and products of small integers -/

theorem jsNumber_ofNat (n : Nat) : (OfNat.ofNat n : JSNumber) = .int (n : Int) := rfl

theorem jsMul_nat (a b : Nat) (h : a * b ≤ 2 ^ 53) :
    jsMul (.int (a : Int)) (.int (b : Int)) = .int ((a * b : Nat) : Int) := by
  have : jsMul (.int (a : Int)) (.int (b : Int)) = toNumber ((a : Int) * (b : Int)) := rfl
  rw [this, ← Int.ofNat_mul]
  exact toNumber_natCast _ h

theorem jsAdd_nat (a b : Nat) (h : a + b ≤ 2 ^ 53) :
    jsAdd (.int (a : Int)) (.int (b : Int)) = .int ((a + b : Nat) : Int) := by
  have : jsAdd (.int (a : Int)) (.int (b : Int)) = toNumber ((a : Int) + (b : Int)) := rfl
  rw [this, ← Int.ofNat_add]
  exact toNumber_natCast _ h

/-! ## The time parser on the supported forms -/

theorem parseSeekTime_hms {hs ms ss : JSString} {h m s : Nat} (hh : IsDecimal hs h)
    (hm : IsDecimal ms m) (hs2 : IsDecimal ss s) (hb : h * 3600 + m * 60 + s ≤ 2 ^ 53) :
    parseSeekTime (hs ++ ':' :: (ms ++ ':' :: ss)) =
      .int ((h * 3600 + m * 60 + s : Nat) : Int) := by
  have c1 : ':' ∉ hs := not_mem_of_digits hh.2.1 (by decide)
  have c2 : ':' ∉ ms := not_mem_of_digits hm.2.1 (by decide)
  have c3 : ':' ∉ ss := not_mem_of_digits hs2.2.1 (by decide)
  have hsplit : splitColon (hs ++ ':' :: (ms ++ ':' :: ss)) = [hs, ms, ss] := by
    rw [splitColon_append _ _ c1, splitColon_append _ _ c2, splitColon_no_colon _ c3]
  have hin : ':' ∈ hs ++ ':' :: (ms ++ ':' :: ss) := by simp
  simp only [parseSeekTime, hin, if_true, hsplit, parseInt_decimal hh, parseInt_decimal hm,
    parseInt_decimal hs2, jsNumber_ofNat]
  rw [toNumber_natCast h (by omega), toNumber_natCast m (by omega), toNumber_natCast s (by omega),
    jsMul_nat h 3600 (by omega), jsMul_nat m 60 (by omega), jsAdd_nat _ _ (by omega),
    jsAdd_nat _ _ (by omega)]

theorem parseSeekTime_ms {ms ss : JSString} {m s : Nat}
    (hm : IsDecimal ms m) (hs2 : IsDecimal ss s) (hb : m * 60 + s ≤ 2 ^ 53) :
    parseSeekTime (ms ++ ':' :: ss) = .int ((m * 60 + s : Nat) : Int) := by
  have c2 : ':' ∉ ms := not_mem_of_digits hm.2.1 (by decide)
  have c3 : ':' ∉ ss := not_mem_of_digits hs2.2.1 (by decide)
  have hsplit : splitColon (ms ++ ':' :: ss) = [ms, ss] := by
    rw [splitColon_append _ _ c2, splitColon_no_colon _ c3]
  have hin : ':' ∈ ms ++ ':' :: ss := by simp
  simp only [parseSeekTime, hin, if_true, hsplit, parseInt_decimal hm, parseInt_decimal hs2,
    jsNumber_ofNat]
  rw [toNumber_natCast m (by omega), toNumber_natCast s (by omega),
    jsMul_nat m 60 (by omega), jsAdd_nat _ _ (by omega)]

theorem parseSeekTime_shorthand {ms ss : JSString} {m s : Nat}
    (hm : IsDecimal ms m) (hs2 : IsDecimal ss s) (hb : m * 60 + s ≤ 2 ^ 53) :
    parseSeekTime (ms ++ 'm' :: (ss ++ ['s'])) = .int ((m * 60 + s : Nat) : Int) ∧
    parseSeekTime (ms ++ ['m']) = .int ((m * 60 : Nat) : Int) ∧
    parseSeekTime (ss ++ ['s']) = .int (s : Int) := by
  have c2 : ':' ∉ ms := not_mem_of_digits hm.2.1 (by decide)
  have c3 : ':' ∉ ss := not_mem_of_digits hs2.2.1 (by decide)
  have m3 : 'm' ∉ ss := not_mem_of_digits hs2.2.1 (by decide)
  have hmne := hm.1
  have hsne := hs2.1
  have z1 : jsAdd (.int ((0 : Nat) : Int)) (.int ((m * 60 : Nat) : Int)) =
      .int ((0 + m * 60 : Nat) : Int) := jsAdd_nat 0 (m * 60) (by omega)
  have z2 : jsAdd (.int ((0 : Nat) : Int)) (.int (s : Int)) = .int ((0 + s : Nat) : Int) :=
    jsAdd_nat 0 s (by omega)
  refine ⟨?_, ?_, ?_⟩
  · have hin : ¬ ':' ∈ ms ++ 'm' :: (ss ++ ['s']) := by simp [c2, c3]
    have hM : matchDigitsThen 'm' (ms ++ 'm' :: (ss ++ ['s'])) [] = some ms := by
      rw [matchDigitsThen_digits _ _ _ _ hm.2.1]
      simp [matchDigitsThen, hmne]
    have hS : matchDigitsThen 's' (ms ++ 'm' :: (ss ++ ['s'])) [] = some ss := by
      rw [matchDigitsThen_digits _ _ _ _ hm.2.1]
      have : matchDigitsThen 's' ('m' :: (ss ++ ['s'])) ([] ++ ms) =
          matchDigitsThen 's' (ss ++ ['s']) [] := by
        simp [matchDigitsThen]
      rw [this, matchDigitsThen_digits _ _ _ _ hs2.2.1]
      simp [matchDigitsThen, hsne]
    have hmem : 'm' ∈ ms ++ 'm' :: (ss ++ ['s']) ∨ 's' ∈ ms ++ 'm' :: (ss ++ ['s']) := by simp
    simp only [parseSeekTime, hin, if_false, hmem, if_true, hM, hS, parseInt_decimal hm,
      parseInt_decimal hs2, jsNumber_ofNat]
    rw [toNumber_natCast m (by omega), toNumber_natCast s (by omega),
      jsMul_nat m 60 (by omega), z1, jsAdd_nat _ _ (by omega)]
    simp
  · have hin : ¬ ':' ∈ ms ++ ['m'] := by simp [c2]
    have hM : matchDigitsThen 'm' (ms ++ ['m']) [] = some ms := by
      rw [matchDigitsThen_digits _ _ _ _ hm.2.1]
      simp [matchDigitsThen, hmne]
    have hS : matchDigitsThen 's' (ms ++ ['m']) [] = none := by
      rw [matchDigitsThen_digits _ _ _ _ hm.2.1]
      simp [matchDigitsThen]
    have hmem : 'm' ∈ ms ++ ['m'] ∨ 's' ∈ ms ++ ['m'] := by simp
    simp only [parseSeekTime, hin, if_false, hmem, if_true, hM, hS, parseInt_decimal hm,
      jsNumber_ofNat]
    rw [toNumber_natCast m (by omega), jsMul_nat m 60 (by omega), z1]
    simp
  · have hin : ¬ ':' ∈ ss ++ ['s'] := by simp [c3]
    have hM : matchDigitsThen 'm' (ss ++ ['s']) [] = none := by
      rw [matchDigitsThen_digits _ _ _ _ hs2.2.1]
      simp [matchDigitsThen]
    have hS : matchDigitsThen 's' (ss ++ ['s']) [] = some ss := by
      rw [matchDigitsThen_digits _ _ _ _ hs2.2.1]
      simp [matchDigitsThen, hsne]
    have hmem : 'm' ∈ ss ++ ['s'] ∨ 's' ∈ ss ++ ['s'] := by simp
    simp only [parseSeekTime, hin, if_false, hmem, if_true, hM, hS, parseInt_decimal hs2,
      jsNumber_ofNat]
    rw [toNumber_natCast s (by omega), z2]
    simp

theorem parseSeekTime_bare {ns : JSString} {n : Nat} (hn : IsDecimal ns n) (hb : n ≤ 2 ^ 53) :
    parseSeekTime ns = .int (n : Int) := by
  have c : ':' ∉ ns := not_mem_of_digits hn.2.1 (by decide)
  have cm : 'm' ∉ ns := not_mem_of_digits hn.2.1 (by decide)
  have cs : 's' ∉ ns := not_mem_of_digits hn.2.1 (by decide)
  simp [parseSeekTime, c, cm, cs, parseInt_decimal hn, toNumber_natCast n hb]

/-- The `seek` command of a member who passes `isDJ`, while a track is current: an argument
whose parsed time is a number makes the one call `seek(seconds * 1000)`. -/
theorem seek_command_call (env : Env) (message : Message) (db : Store) (guildId : JSString)
    (time : JSString)
    (hissue : issues env message (World.start db) guildId .seek)
    (hdj : (isDJ message.member guildId (World.start db)).1 = true)
    (hcur : (currentTrack (env.getQueue guildId)).isSome = true)
    (harg : (argsOf message (World.start db) guildId).head? = some time)
    (hparse : isNaN (parseSeekTime time) = false) :
    (messageCreate env message (World.start db)).world.calls =
      [.seek (jsMul (parseSeekTime time) 1000)] := by
  rw [messageCreate_of_issues hissue]
  obtain ⟨qt, hqt⟩ := Option.isSome_iff_exists.mp hcur
  simp only [runCommand, djCommand_eq, hdj, if_true, hqt, harg]
  cases time with
  | nil => exact absurd hparse (by decide)
  | cons c cs =>
    simp only [hparse, Bool.false_eq_true, if_false, tryCall_calls, calls_after_config,
      List.nil_append]

/-! ## C4: the time parser of `seek` -/

/-- C4, as the code has it: the numbers are doubles.  The numeral `9007199254740993` is read as
`9007199254740992` seconds, and the `seek` command passes `9007199254740992000`; and
`72057594037929` seconds times 1000 is `72057594037928992`, not `72057594037929000`. -/
theorem seek_time_rounds :
    IsDecimal "9007199254740993".toList 9007199254740993 ∧
    parseSeekTime "9007199254740993".toList = .int 9007199254740992 ∧
    (messageCreate (demoEnv (some playingQueue))
      (demoMessage "S-seek 9007199254740993" (demoMember [] false))
      (World.start (demoStore []))).world.calls = [.seek (.int 9007199254740992000)] ∧
    parseSeekTime "72057594037929".toList = .int 72057594037929 ∧
    jsMul (parseSeekTime "72057594037929".toList) 1000 = .int 72057594037928992 := by
  decide

/-- C4, amended: for natural numbers `h`, `m`, `s`, `n` written in decimal as `hs`, `ms`, `ss`,
`ns`, whose position in milliseconds is at most `2 ^ 53` (where the arithmetic of doubles is
exact), the time parser of `seek` reads `hs:ms:ss` as `h*3600 + m*60 + s` seconds, `ms:ss` as
`m*60 + s`, `<ms>m<ss>s` as `m*60 + s`, `<ms>m` as `m*60`, `<ss>s` as `s` and the bare integer
`ns` as `n`, these seconds times 1000 are the exact number of milliseconds, and the `seek`
command passes the parsed number of seconds times 1000 to `seek`. -/
theorem seek_time_parse (hs ms ss ns : JSString) (h m s n : Nat)
    (hh : IsDecimal hs h) (hm : IsDecimal ms m) (hs2 : IsDecimal ss s) (hn : IsDecimal ns n)
    (hb : (h * 3600 + m * 60 + s) * 1000 ≤ 2 ^ 53) (hbn : n * 1000 ≤ 2 ^ 53) :
    parseSeekTime (hs ++ ':' :: (ms ++ ':' :: ss)) = .int ((h * 3600 + m * 60 + s : Nat) : Int) ∧
    parseSeekTime (ms ++ ':' :: ss) = .int ((m * 60 + s : Nat) : Int) ∧
    parseSeekTime (ms ++ 'm' :: (ss ++ ['s'])) = .int ((m * 60 + s : Nat) : Int) ∧
    parseSeekTime (ms ++ ['m']) = .int ((m * 60 : Nat) : Int) ∧
    parseSeekTime (ss ++ ['s']) = .int (s : Int) ∧
    parseSeekTime ns = .int (n : Int) ∧
    jsMul (.int ((h * 3600 + m * 60 + s : Nat) : Int)) 1000 =
      .int (((h * 3600 + m * 60 + s) * 1000 : Nat) : Int) ∧
    jsMul (.int (n : Int)) 1000 = .int ((n * 1000 : Nat) : Int) ∧
    (∀ (env : Env) (message : Message) (db : Store) (guildId time : JSString),
      issues env message (World.start db) guildId .seek →
      (isDJ message.member guildId (World.start db)).1 = true →
      (currentTrack (env.getQueue guildId)).isSome = true →
      (argsOf message (World.start db) guildId).head? = some time →
      isNaN (parseSeekTime time) = false →
      (messageCreate env message (World.start db)).world.calls =
        [.seek (jsMul (parseSeekTime time) 1000)]) :=
  ⟨parseSeekTime_hms hh hm hs2 (by omega), parseSeekTime_ms hm hs2 (by omega),
    (parseSeekTime_shorthand hm hs2 (by omega)).1,
    (parseSeekTime_shorthand hm hs2 (by omega)).2.1,
    (parseSeekTime_shorthand hm hs2 (by omega)).2.2,
    parseSeekTime_bare hn (by omega), jsMul_nat _ 1000 hb, jsMul_nat n 1000 hbn,
    seek_command_call⟩

/-- C4, witness: with a track playing and no DJ role configured, `S-seek 1:30` seeks to
90000 ms, `S-seek 2m30s` to 150000 ms, `S-seek 45s` to 45000 ms and `S-seek 90` to 90000 ms. -/
theorem seek_time_parse_witness :
    (messageCreate (demoEnv (some playingQueue)) (demoMessage "S-seek 1:30" (demoMember [] false))
      (World.start (demoStore []))).world.calls = [.seek 90000] ∧
    (messageCreate (demoEnv (some playingQueue)) (demoMessage "S-seek 2m30s" (demoMember [] false))
      (World.start (demoStore []))).world.calls = [.seek 150000] ∧
    (messageCreate (demoEnv (some playingQueue)) (demoMessage "S-seek 45s" (demoMember [] false))
      (World.start (demoStore []))).world.calls = [.seek 45000] ∧
    (messageCreate (demoEnv (some playingQueue)) (demoMessage "S-seek 90" (demoMember [] false))
      (World.start (demoStore []))).world.calls = [.seek 90000] :=
  have p := seek_time_parse "0".toList "1".toList "30".toList "90".toList 0 1 30 90
    (by decide) (by decide) (by decide) (by decide) (by decide) (by decide)
  have q := seek_time_parse "0".toList "2".toList "30".toList "0".toList 0 2 30 0
    (by decide) (by decide) (by decide) (by decide) (by decide) (by decide)
  have r := seek_time_parse "0".toList "0".toList "45".toList "0".toList 0 0 45 0
    (by decide) (by decide) (by decide) (by decide) (by decide) (by decide)
  ⟨(p.2.2.2.2.2.2.2.2 (demoEnv (some playingQueue))
      (demoMessage "S-seek 1:30" (demoMember [] false))
      (demoStore []) "g".toList "1:30".toList (by decide) (by decide) (by decide) (by decide)
      (by decide)).trans (by decide),
    (q.2.2.2.2.2.2.2.2 (demoEnv (some playingQueue))
      (demoMessage "S-seek 2m30s" (demoMember [] false))
      (demoStore []) "g".toList "2m30s".toList (by decide) (by decide) (by decide) (by decide)
      (by decide)).trans (by decide),
    (r.2.2.2.2.2.2.2.2 (demoEnv (some playingQueue))
      (demoMessage "S-seek 45s" (demoMember [] false))
      (demoStore []) "g".toList "45s".toList (by decide) (by decide) (by decide) (by decide)
      (by decide)).trans (by decide),
    (p.2.2.2.2.2.2.2.2 (demoEnv (some playingQueue))
      (demoMessage "S-seek 90" (demoMember [] false))
      (demoStore []) "g".toList "90".toList (by decide) (by decide) (by decide) (by decide)
      (by decide)).trans (by decide)⟩

/-! ## C5: seek arguments outside the supported forms -/

/-- C5, the code at `S-seek 1:2:3:4` and at `S-seek m`: neither argument has one of the
supported forms, and neither is answered with the bad-time-format response; the parser leaves
its initial `0` in place and the handler calls `seek(0)`.  The argument `abc` is rejected. -/
theorem seek_unsupported_form_seeks :
    specTimeForm "1:2:3:4".toList = false ∧ specTimeForm "m".toList = false ∧
    parseSeekTime "1:2:3:4".toList = 0 ∧ parseSeekTime "m".toList = 0 ∧
    (messageCreate (demoEnv (some playingQueue))
      (demoMessage "S-seek 1:2:3:4" (demoMember [] false)) (World.start (demoStore []))).reply =
        some (.seeking 0) ∧
    (messageCreate (demoEnv (some playingQueue))
      (demoMessage "S-seek 1:2:3:4" (demoMember [] false)) (World.start (demoStore []))).world.calls =
        [.seek 0] ∧
    (messageCreate (demoEnv (some playingQueue))
      (demoMessage "S-seek m" (demoMember [] false)) (World.start (demoStore []))).world.calls =
        [.seek 0] ∧
    specTimeForm "abc".toList = false ∧
    (messageCreate (demoEnv (some playingQueue))
      (demoMessage "S-seek abc" (demoMember [] false)) (World.start (demoStore []))).reply =
        some .badTimeFormat := by
  decide

/-- The forms the specification gives as examples are supported forms. -/
theorem specTimeForm_examples :
    specTimeForm "1:30".toList = true ∧ specTimeForm "1:02:03".toList = true ∧
    specTimeForm "2m30s".toList = true ∧ specTimeForm "5m".toList = true ∧
    specTimeForm "90s".toList = true ∧ specTimeForm "90".toList = true := by
  decide

/-! ## C6: the volume command -/

theorem toNumber_neg (k : Int) : toNumber (-k) = jsNeg (toNumber k) := by
  unfold toNumber
  simp only [Int.natAbs_neg]
  by_cases h0 : k = 0
  · subst h0
    simp [floorLog2_zero, jsNeg]
  · split
    · rfl
    · have hv : 0 < divRoundEven k.natAbs (2 ^ (floorLog2 k.natAbs - 52)) *
          2 ^ (floorLog2 k.natAbs - 52) := by
        have hp : 0 < 2 ^ (floorLog2 k.natAbs - 52) := Nat.two_pow_pos _
        have hk : 2 ^ (floorLog2 k.natAbs - 52) ≤ k.natAbs := by
          have hs := (floorLog2_spec k.natAbs (by omega)).1
          exact le_trans (Nat.pow_le_pow_right (by decide) (Nat.sub_le _ _)) hs
        have hd : 1 ≤ divRoundEven k.natAbs (2 ^ (floorLog2 k.natAbs - 52)) := by
          unfold divRoundEven
          have := (Nat.one_le_div_iff hp).mpr hk
          split <;> omega
        exact Nat.mul_pos hd hp
      by_cases hneg : k < 0
      · have h2 : ¬ (-k < 0) := by omega
        simp only [hneg, h2, decide_True, decide_False, if_true, if_false]
        split
        · rfl
        · simp [jsNeg]
      · have h2 : -k < 0 := by omega
        simp only [hneg, h2, decide_True, decide_False, if_true, if_false]
        split
        · rfl
        · simp [jsNeg]

/-- The number value of a natural number above 200 is above 200. -/
theorem jsLt_toNumber_of_lt (v : Nat) (h : 200 < v) :
    isNaN (toNumber (v : Int)) = false ∧ jsLt (toNumber (v : Int)) 0 = false ∧
    jsLt 200 (toNumber (v : Int)) = true := by
  by_cases hb : v ≤ 2 ^ 53
  · rw [toNumber_natCast v hb]
    refine ⟨rfl, ?_, ?_⟩
    · show decide (((v : Nat) : Int) < ((0 : Nat) : Int)) = false
      simp
    · show decide (((200 : Nat) : Int) < (v : Int)) = true
      simp only [decide_eq_true_eq]
      omega
  · rcases toNumber_large v (by omega) with e | ⟨u, hu, e⟩
    · rw [e]
      exact ⟨rfl, rfl, rfl⟩
    · rw [e]
      refine ⟨rfl, ?_, ?_⟩
      · show decide (((u : Nat) : Int) < ((0 : Nat) : Int)) = false
        simp
      · show decide (((200 : Nat) : Int) < (u : Int)) = true
        simp only [decide_eq_true_eq]
        have : (2 : Nat) ^ 52 = 4503599627370496 := by norm_num
        omega

/-- The number value of a negative integer is below zero. -/
theorem jsLt_toNumber_neg (v : Nat) (h : 1 ≤ v) : jsLt (toNumber (-(v : Int))) 0 = true := by
  rw [toNumber_neg]
  by_cases hb : v ≤ 2 ^ 53
  · rw [toNumber_natCast v hb]
    show decide (-(v : Int) < ((0 : Nat) : Int)) = true
    simp only [decide_eq_true_eq]
    omega
  · rcases toNumber_large v (by omega) with e | ⟨u, hu, e⟩
    · rw [e]
      rfl
    · rw [e]
      show decide (-(u : Int) < ((0 : Nat) : Int)) = true
      simp only [decide_eq_true_eq]
      have : (2 : Nat) ^ 52 = 4503599627370496 := by norm_num
      omega

/-- The `volume` command of a permitted member while a track is current. -/
theorem volume_run (env : Env) (message : Message) (db : Store) (guildId : JSString)
    (hissue : issues env message (World.start db) guildId .volume)
    (hdj : (isDJ message.member guildId (World.start db)).1 = true)
    (hcur : (currentTrack (env.getQueue guildId)).isSome = true) :
    messageCreate env message (World.start db) =
      if (isNaN (parseIntArg (argsOf message (World.start db) guildId).head?) ||
          jsLt (parseIntArg (argsOf message (World.start db) guildId).head?) 0 ||
          jsLt 200 (parseIntArg (argsOf message (World.start db) guildId).head?)) = true then
        respond (getServerConfig guildId (World.start db)).2 .invalidVolume
      else
        tryCall env (.setVolume (parseIntArg (argsOf message (World.start db) guildId).head?))
          (some (.volumeSet (parseIntArg (argsOf message (World.start db) guildId).head?)))
          (getServerConfig guildId (World.start db)).2 := by
  rw [messageCreate_of_issues hissue]
  obtain ⟨qt, hqt⟩ := Option.isSome_iff_exists.mp hcur
  simp only [runCommand, djCommand_eq, hdj, if_true, hqt]

/-- The `volume` command with a rejected argument. -/
theorem volume_rejected (env : Env) (message : Message) (db : Store) (guildId : JSString)
    (hissue : issues env message (World.start db) guildId .volume)
    (hdj : (isDJ message.member guildId (World.start db)).1 = true)
    (hcur : (currentTrack (env.getQueue guildId)).isSome = true)
    (hrej : (isNaN (parseIntArg (argsOf message (World.start db) guildId).head?) ||
          jsLt (parseIntArg (argsOf message (World.start db) guildId).head?) 0 ||
          jsLt 200 (parseIntArg (argsOf message (World.start db) guildId).head?)) = true) :
    (messageCreate env message (World.start db)).reply = some .invalidVolume ∧
    (messageCreate env message (World.start db)).world.calls = [] := by
  rw [volume_run env message db guildId hissue hdj hcur, if_pos hrej]
  exact ⟨rfl, calls_after_config guildId db⟩

/-- The `volume` command with an accepted argument. -/
theorem volume_accepted (env : Env) (message : Message) (db : Store) (guildId : JSString)
    (hissue : issues env message (World.start db) guildId .volume)
    (hdj : (isDJ message.member guildId (World.start db)).1 = true)
    (hcur : (currentTrack (env.getQueue guildId)).isSome = true)
    (hacc : (isNaN (parseIntArg (argsOf message (World.start db) guildId).head?) ||
          jsLt (parseIntArg (argsOf message (World.start db) guildId).head?) 0 ||
          jsLt 200 (parseIntArg (argsOf message (World.start db) guildId).head?)) = false) :
    (messageCreate env message (World.start db)).world.calls =
      [.setVolume (parseIntArg (argsOf message (World.start db) guildId).head?)] := by
  rw [volume_run env message db guildId hissue hdj hcur, if_neg (by simp [hacc]), tryCall_calls,
    calls_after_config]
  rfl

/-- C6, as the code has it: `parseInt` reads the numeral at the head of the argument and ignores
what follows it, so the arguments `75abc`, `200.9` and `1e9`, none of which is an integer from 0
to 200, are not answered with the invalid-volume response: the handler calls `setVolume(75)`,
`setVolume(200)` and `setVolume(1)`. -/
theorem volume_accepts_numeral_prefix :
    (messageCreate (demoEnv (some playingQueue)) (demoMessage "S-volume 75abc" (demoMember [] false))
      (World.start (demoStore []))).world.calls = [.setVolume 75] ∧
    (messageCreate (demoEnv (some playingQueue)) (demoMessage "S-volume 200.9" (demoMember [] false))
      (World.start (demoStore []))).world.calls = [.setVolume 200] ∧
    (messageCreate (demoEnv (some playingQueue)) (demoMessage "S-volume 1e9" (demoMember [] false))
      (World.start (demoStore []))).world.calls = [.setVolume 1] ∧
    (messageCreate (demoEnv (some playingQueue)) (demoMessage "S-volume 75abc" (demoMember [] false))
      (World.start (demoStore []))).reply = some (.volumeSet 75) := by
  decide

/-- C6, amended: for the `volume` command of a member who passes `isDJ`, while a track is
current.  `setVolume` is called exactly when `parseInt` reads from the argument an integer `v`
with `0 ≤ v ≤ 200`, and then that one call `setVolume(v)` is all that is called.  `parseInt`
reads the decimal numeral at the head of the argument and ignores what follows it: an argument
that starts with the numeral of `v ≤ 200` gives the one call `setVolume(v)`; an argument that
starts with the numeral of `v > 200`, or with `-` and the numeral of `v ≥ 1`, or with a character
that is no digit, sign or white space, and an absent argument, are answered with the
invalid-volume response and no call is made. -/
theorem volume_command (env : Env) (message : Message) (db : Store) (guildId : JSString)
    (hissue : issues env message (World.start db) guildId .volume)
    (hdj : (isDJ message.member guildId (World.start db)).1 = true)
    (hcur : (currentTrack (env.getQueue guildId)).isSome = true) :
    (∀ (ds rest : JSString) (v : Nat), IsDecimal ds v →
      (∀ c, rest.head? = some c → c.isDigit = false ∧ c ≠ 'x' ∧ c ≠ 'X') →
      (argsOf message (World.start db) guildId).head? = some (ds ++ rest) →
      (v ≤ 200 →
        (messageCreate env message (World.start db)).world.calls = [.setVolume (.int v)]) ∧
      (200 < v →
        (messageCreate env message (World.start db)).reply = some .invalidVolume ∧
        (messageCreate env message (World.start db)).world.calls = [])) ∧
    (∀ (ds rest : JSString) (v : Nat), IsDecimal ds v →
      (∀ c, rest.head? = some c → c.isDigit = false ∧ c ≠ 'x' ∧ c ≠ 'X') →
      (argsOf message (World.start db) guildId).head? = some ('-' :: (ds ++ rest)) → 1 ≤ v →
      (messageCreate env message (World.start db)).reply = some .invalidVolume ∧
      (messageCreate env message (World.start db)).world.calls = []) ∧
    (∀ (c : Char) (rest : JSString),
      (argsOf message (World.start db) guildId).head? = some (c :: rest) →
      isJSWhiteSpace c = false → c.isDigit = false → c ≠ '-' → c ≠ '+' →
      (messageCreate env message (World.start db)).reply = some .invalidVolume ∧
      (messageCreate env message (World.start db)).world.calls = []) ∧
    ((argsOf message (World.start db) guildId).head? = none →
      (messageCreate env message (World.start db)).reply = some .invalidVolume ∧
      (messageCreate env message (World.start db)).world.calls = []) ∧
    ((∃ v : Int, parseIntArg (argsOf message (World.start db) guildId).head? = .int v ∧
        0 ≤ v ∧ v ≤ 200) ∨
      ((messageCreate env message (World.start db)).reply = some .invalidVolume ∧
       (messageCreate env message (World.start db)).world.calls = [])) ∧
    (∀ volume, FacadeCall.setVolume volume ∈
        (messageCreate env message (World.start db)).world.calls ↔
      (parseIntArg (argsOf message (World.start db) guildId).head? = volume ∧
        ∃ v : Int, volume = .int v ∧ 0 ≤ v ∧ v ≤ 200)) ∧
    (∀ v : Int, parseIntArg (argsOf message (World.start db) guildId).head? = .int v →
      0 ≤ v → v ≤ 200 →
      (messageCreate env message (World.start db)).world.calls = [.setVolume (.int v)]) := by
  have hgen : ∀ v : Int, parseIntArg (argsOf message (World.start db) guildId).head? = .int v →
      0 ≤ v → v ≤ 200 →
      (messageCreate env message (World.start db)).world.calls = [.setVolume (.int v)] := by
    intro v hv h0 h200
    have hacc := volume_accepted env message db guildId hissue hdj hcur (by
      rw [hv]
      show (false || decide (v < ((0 : Nat) : Int)) || decide (((200 : Nat) : Int) < v)) = false
      simp only [Bool.false_or, Bool.or_eq_false_iff, decide_eq_false_iff_not]
      omega)
    rw [hacc, hv]
  refine ⟨?_, ?_, ?_, ?_, ?_, ?_, hgen⟩
  · intro ds rest v hd hrest harg
    have hp : parseIntArg (argsOf message (World.start db) guildId).head? = toNumber (v : Int) := by
      rw [harg]
      exact (parseInt_numeral hd hrest).1
    constructor
    · intro hv
      rw [toNumber_natCast v (le_trans hv (by norm_num))] at hp
      exact hgen v hp (by omega) (by omega)
    · intro hv
      obtain ⟨h1, h2, h3⟩ := jsLt_toNumber_of_lt v hv
      exact volume_rejected env message db guildId hissue hdj hcur (by rw [hp, h1, h2, h3]; rfl)
  · intro ds rest v hd hrest harg hv
    have hp : parseIntArg (argsOf message (World.start db) guildId).head? =
        toNumber (-(v : Int)) := by
      rw [harg]
      exact (parseInt_numeral hd hrest).2.1
    exact volume_rejected env message db guildId hissue hdj hcur (by
      rw [hp, jsLt_toNumber_neg v hv]
      simp)
  · intro c rest harg hws hd hm hpl
    have hp : parseIntArg (argsOf message (World.start db) guildId).head? = .nan := by
      rw [harg]
      exact parseInt_nan c rest hws hd hm hpl
    exact volume_rejected env message db guildId hissue hdj hcur (by rw [hp]; rfl)
  · intro harg
    have hp : parseIntArg (argsOf message (World.start db) guildId).head? = .nan := by
      rw [harg]
      decide
    exact volume_rejected env message db guildId hissue hdj hcur (by rw [hp]; rfl)
  · cases hp : parseIntArg (argsOf message (World.start db) guildId).head? with
    | nan =>
      exact Or.inr (volume_rejected env message db guildId hissue hdj hcur (by rw [hp]; rfl))
    | infinity s =>
      refine Or.inr (volume_rejected env message db guildId hissue hdj hcur ?_)
      rw [hp]
      cases s <;> rfl
    | int u =>
      by_cases hr : 0 ≤ u ∧ u ≤ 200
      · exact Or.inl ⟨u, rfl, hr.1, hr.2⟩
      · refine Or.inr (volume_rejected env message db guildId hissue hdj hcur ?_)
        rw [hp]
        show (false || decide (u < ((0 : Nat) : Int)) || decide (((200 : Nat) : Int) < u)) = true
        simp only [Bool.false_or, Bool.or_eq_true, decide_eq_true_eq]
        omega
  · intro volume
    cases hp : parseIntArg (argsOf message (World.start db) guildId).head? with
    | nan =>
      rw [(volume_rejected env message db guildId hissue hdj hcur (by rw [hp]; rfl)).2]
      simp
      intro e u hu
      rw [← e] at hu
      exact absurd hu (by simp)
    | infinity s =>
      rw [(volume_rejected env message db guildId hissue hdj hcur (by
        rw [hp]
        cases s <;> rfl)).2]
      simp
      intro e u hu
      rw [← e] at hu
      exact absurd hu (by simp)
    | int u =>
      by_cases hr : 0 ≤ u ∧ u ≤ 200
      · rw [hgen u hp hr.1 hr.2]
        simp only [List.mem_singleton, FacadeCall.setVolume.injEq]
        constructor
        · intro e
          exact ⟨e.symm, u, e, hr.1, hr.2⟩
        · intro e
          exact e.1.symm
      · rw [(volume_rejected env message db guildId hissue hdj hcur (by
          rw [hp]
          show (false || decide (u < ((0 : Nat) : Int)) || decide (((200 : Nat) : Int) < u)) = true
          simp only [Bool.false_or, Bool.or_eq_true, decide_eq_true_eq]
          omega)).2]
        simp only [List.not_mem_nil, false_iff, not_and, not_exists]
        intro e v hv
        rw [← e] at hv
        simp only [JSNumber.int.injEq] at hv
        omega

/-- C6, witness: with a track playing, `S-volume 75` makes the one call `setVolume(75)`, and
`S-volume -5` and `S-volume 250` are answered with the invalid-volume response without a call. -/
theorem volume_command_witness :
    (messageCreate (demoEnv (some playingQueue)) (demoMessage "S-volume 75" (demoMember [] false))
      (World.start (demoStore []))).world.calls = [.setVolume 75] ∧
    ((messageCreate (demoEnv (some playingQueue)) (demoMessage "S-volume -5" (demoMember [] false))
      (World.start (demoStore []))).reply = some .invalidVolume ∧
     (messageCreate (demoEnv (some playingQueue)) (demoMessage "S-volume -5" (demoMember [] false))
      (World.start (demoStore []))).world.calls = []) ∧
    ((messageCreate (demoEnv (some playingQueue)) (demoMessage "S-volume 250" (demoMember [] false))
      (World.start (demoStore []))).reply = some .invalidVolume ∧
     (messageCreate (demoEnv (some playingQueue)) (demoMessage "S-volume 250" (demoMember [] false))
      (World.start (demoStore []))).world.calls = []) :=
  ⟨((volume_command (demoEnv (some playingQueue)) (demoMessage "S-volume 75" (demoMember [] false))
      (demoStore []) "g".toList (by decide) (by decide) (by decide)).1 "75".toList [] 75
      (by decide) (by decide) (by decide)).1 (by decide),
    (volume_command (demoEnv (some playingQueue)) (demoMessage "S-volume -5" (demoMember [] false))
      (demoStore []) "g".toList (by decide) (by decide) (by decide)).2.1 "5".toList [] 5
      (by decide) (by decide) (by decide) (by decide),
    ((volume_command (demoEnv (some playingQueue)) (demoMessage "S-volume 250" (demoMember [] false))
      (demoStore []) "g".toList (by decide) (by decide) (by decide)).1 "250".toList [] 250
      (by decide) (by decide) (by decide)).2 (by decide)⟩
/-! ## C7: the guard on the current track -/

/-- C7, as the code has it: with a queue that has no current track, the `leave` button calls
`destroy` and the `shuffle` command and button call `shuffle`; none of them answers that nothing
is playing. -/
theorem leave_shuffle_without_track :
    currentTrack (some idleQueue) = none ∧
    (interactionCreate (demoEnv (some idleQueue)) (demoClick "leave" (demoMember [] false))
      (World.start (demoStore []))).world.calls = [.destroy] ∧
    (interactionCreate (demoEnv (some idleQueue)) (demoClick "leave" (demoMember [] false))
      (World.start (demoStore []))).reply = some .leftVoice ∧
    (interactionCreate (demoEnv (some idleQueue)) (demoClick "shuffle" (demoMember [] false))
      (World.start (demoStore []))).world.calls = [.shuffle] ∧
    (messageCreate (demoEnv (some idleQueue)) (demoMessage "S-shuffle" (demoMember [] false))
      (World.start (demoStore []))).world.calls = [.shuffle] ∧
    (messageCreate (demoEnv (some idleQueue)) (demoMessage "S-shuffle" (demoMember [] false))
      (World.start (demoStore []))).reply = some .shuffled := by
  decide

theorem trackButton_none (env : Env) (g : JSString) (w : World)
    (act : Queue → Track → World → Result) (h : currentTrack (env.getQueue g) = none) :
    trackButton env g w act = respond w .noTrackPlayingButton := by
  simp [trackButton, h]

theorem rawCall_calls (env : Env) (c : FacadeCall) (ok : Reply) (w : World) :
    (rawCall env c ok w).world.calls = w.calls ++ [c] := by
  unfold rawCall
  split <;> rfl

/-- C7, amended: when the guild's queue is missing or has no current track, each of `skip`,
`stop`, `volume`, `pause`, `resume`, `loop`, `seek` (text commands) and `skip`, `pause`, `stop`,
`loop`, `rewind`, `forward` (buttons), issued by a member who passes `isDJ`, is answered that no
track is currently playing and makes no call on the player.  `shuffle` and `leave` have guards of
their own, whether or not a track is current: `shuffle` (command and button) is answered that
there are not enough tracks, without a call, when the guild has no queue or its queue holds fewer
than two tracks, and otherwise makes the one call `shuffle()`; the `leave` button is answered
that the bot is not connected, without a call, when the guild has no queue or its queue has no
voice connection, and otherwise makes the one call `destroy()`. -/
theorem no_track_guard (env : Env) (db : Store) (guildId : JSString) :
    (currentTrack (env.getQueue guildId) = none →
      (∀ message command, issues env message (World.start db) guildId command →
        (isDJ message.member guildId (World.start db)).1 = true →
        (command = .skip ∨ command = .stop ∨ command = .volume ∨ command = .pause ∨
          command = .resume ∨ command = .loop ∨ command = .seek) →
        (messageCreate env message (World.start db)).reply = some .noTrackPlaying ∧
        (messageCreate env message (World.start db)).world.calls = []) ∧
      (∀ interaction : Interaction, interaction.isButton = true →
        interaction.guildId = guildId →
        (isDJ interaction.member guildId (World.start db)).1 = true →
        (buttonOf interaction.customId = .skip ∨ buttonOf interaction.customId = .pause ∨
          buttonOf interaction.customId = .stop ∨ buttonOf interaction.customId = .loop ∨
          buttonOf interaction.customId = .rewind ∨ buttonOf interaction.customId = .forward) →
        (interactionCreate env interaction (World.start db)).reply = some .noTrackPlayingButton ∧
        (interactionCreate env interaction (World.start db)).world.calls = [])) ∧
    (∀ message, issues env message (World.start db) guildId .shuffle →
      (isDJ message.member guildId (World.start db)).1 = true →
      ((env.getQueue guildId = none ∨
          ∃ queue, env.getQueue guildId = some queue ∧ queue.tracksLength < 2) →
        (messageCreate env message (World.start db)).reply = some .notEnoughTracks ∧
        (messageCreate env message (World.start db)).world.calls = []) ∧
      (∀ queue, env.getQueue guildId = some queue → 2 ≤ queue.tracksLength →
        (messageCreate env message (World.start db)).world.calls = [.shuffle] ∧
        (env.throws .shuffle = false →
          (messageCreate env message (World.start db)).reply = some .shuffled))) ∧
    (∀ interaction : Interaction, interaction.isButton = true →
      interaction.guildId = guildId →
      (isDJ interaction.member guildId (World.start db)).1 = true →
      buttonOf interaction.customId = .shuffle →
      ((env.getQueue guildId = none ∨
          ∃ queue, env.getQueue guildId = some queue ∧ queue.tracksLength < 2) →
        (interactionCreate env interaction (World.start db)).reply = some .notEnoughTracks ∧
        (interactionCreate env interaction (World.start db)).world.calls = []) ∧
      (∀ queue, env.getQueue guildId = some queue → 2 ≤ queue.tracksLength →
        (interactionCreate env interaction (World.start db)).world.calls = [.shuffle] ∧
        (env.throws .shuffle = false →
          (interactionCreate env interaction (World.start db)).reply = some .shuffled))) ∧
    (∀ interaction : Interaction, interaction.isButton = true →
      interaction.guildId = guildId →
      (isDJ interaction.member guildId (World.start db)).1 = true →
      buttonOf interaction.customId = .leave →
      ((env.getQueue guildId = none ∨
          ∃ queue, env.getQueue guildId = some queue ∧ queue.connection = false) →
        (interactionCreate env interaction (World.start db)).reply = some .notConnected ∧
        (interactionCreate env interaction (World.start db)).world.calls = []) ∧
      (∀ queue, env.getQueue guildId = some queue → queue.connection = true →
        (interactionCreate env interaction (World.start db)).world.calls = [.destroy] ∧
        (env.throws .destroy = false →
          (interactionCreate env interaction (World.start db)).reply = some .leftVoice))) := by
  refine ⟨?_, ?_, ?_, ?_⟩
  · intro hcur
    constructor
    · intro message command hissue hdj hcmd
      rw [messageCreate_of_issues hissue]
      rcases hcmd with h | h | h | h | h | h | h <;> subst h <;>
        simp [runCommand, djCommand_eq, hdj, hcur, respond, calls_after_config]
    · intro interaction hb hg hdj hbtn
      subst hg
      rw [interactionCreate_gate env interaction _ hb]
      simp only [hdj, if_true]
      rcases hbtn with h | h | h | h | h | h <;> rw [h] <;>
        simp [runButton, trackButton_none _ _ _ _ hcur, respond, calls_after_config]
  · intro message hissue hdj
    rw [messageCreate_of_issues hissue]
    constructor
    · rintro (hq | ⟨queue, hq, hlen⟩)
      · simp [runCommand, isDJ_after, hdj, hq, respond, calls_after_config]
      · simp [runCommand, isDJ_after, hdj, hq, hlen, respond, calls_after_config]
    · intro queue hq hlen
      have hn : ¬ queue.tracksLength < 2 := by omega
      constructor
      · simp [runCommand, isDJ_after, hdj, hq, hn, tryCall_calls, calls_after_config]
      · intro hthrow
        simp [runCommand, isDJ_after, hdj, hq, hn, tryCall, hthrow]
  · intro interaction hb hg hdj hbtn
    subst hg
    rw [interactionCreate_gate env interaction _ hb]
    simp only [hdj, if_true, hbtn]
    constructor
    · rintro (hq | ⟨queue, hq, hlen⟩)
      · simp [runButton, hq, respond, calls_after_config]
      · simp [runButton, hq, hlen, respond, calls_after_config]
    · intro queue hq hlen
      have hn : ¬ queue.tracksLength < 2 := by omega
      constructor
      · simp [runButton, hq, hn, rawCall_calls, calls_after_config]
      · intro hthrow
        simp [runButton, hq, hn, rawCall, hthrow]
  · intro interaction hb hg hdj hbtn
    subst hg
    rw [interactionCreate_gate env interaction _ hb]
    simp only [hdj, if_true, hbtn]
    constructor
    · rintro (hq | ⟨queue, hq, hcon⟩)
      · simp [runButton, hq, respond, calls_after_config]
      · simp [runButton, hq, hcon, respond, calls_after_config]
    · intro queue hq hcon
      constructor
      · simp [runButton, hq, hcon, rawCall_calls, calls_after_config]
      · intro hthrow
        simp [runButton, hq, hcon, rawCall, hthrow]

/-- C7, witness: with no queue for the guild, `S-pause` and a click on `skip` are both answered
that no track is currently playing, and neither makes a call; with a queue of one track and no
voice connection, `S-shuffle` and a click on `leave` make no call; with a queue of two tracks
and a voice connection they call `shuffle()` and `destroy()`. -/
theorem no_track_guard_witness :
    ((messageCreate (demoEnv none) (demoMessage "S-pause" (demoMember [] false))
      (World.start (demoStore []))).reply = some .noTrackPlaying ∧
     (messageCreate (demoEnv none) (demoMessage "S-pause" (demoMember [] false))
      (World.start (demoStore []))).world.calls = []) ∧
    ((interactionCreate (demoEnv none) (demoClick "skip" (demoMember [] false))
      (World.start (demoStore []))).reply = some .noTrackPlayingButton ∧
     (interactionCreate (demoEnv none) (demoClick "skip" (demoMember [] false))
      (World.start (demoStore []))).world.calls = []) ∧
    ((messageCreate (demoEnv (some looseQueue)) (demoMessage "S-shuffle" (demoMember [] false))
      (World.start (demoStore []))).reply = some .notEnoughTracks ∧
     (messageCreate (demoEnv (some looseQueue)) (demoMessage "S-shuffle" (demoMember [] false))
      (World.start (demoStore []))).world.calls = []) ∧
    ((interactionCreate (demoEnv (some looseQueue)) (demoClick "leave" (demoMember [] false))
      (World.start (demoStore []))).reply = some .notConnected ∧
     (interactionCreate (demoEnv (some looseQueue)) (demoClick "leave" (demoMember [] false))
      (World.start (demoStore []))).world.calls = []) ∧
    (messageCreate (demoEnv (some pairQueue)) (demoMessage "S-shuffle" (demoMember [] false))
      (World.start (demoStore []))).world.calls = [.shuffle] ∧
    (interactionCreate (demoEnv (some pairQueue)) (demoClick "leave" (demoMember [] false))
      (World.start (demoStore []))).world.calls = [.destroy] :=
  have h := no_track_guard (demoEnv none) (demoStore []) "g".toList
  have l := no_track_guard (demoEnv (some looseQueue)) (demoStore []) "g".toList
  have p := no_track_guard (demoEnv (some pairQueue)) (demoStore []) "g".toList
  ⟨(h.1 (by decide)).1 (demoMessage "S-pause" (demoMember [] false)) .pause (by decide)
      (by decide) (by decide),
    (h.1 (by decide)).2 (demoClick "skip" (demoMember [] false)) rfl rfl (by decide)
      (Or.inl (by decide)),
    (l.2.1 (demoMessage "S-shuffle" (demoMember [] false)) (by decide) (by decide)).1
      (Or.inr ⟨looseQueue, rfl, by decide⟩),
    (l.2.2.2 (demoClick "leave" (demoMember [] false)) rfl rfl (by decide) (by decide)).1
      (Or.inr ⟨looseQueue, rfl, by decide⟩),
    ((p.2.1 (demoMessage "S-shuffle" (demoMember [] false)) (by decide) (by decide)).2
      pairQueue rfl (by decide)).1,
    ((p.2.2.2 (demoClick "leave" (demoMember [] false)) rfl rfl (by decide) (by decide)).2
      pairQueue rfl (by decide)).1⟩
/-! ## C8: no effects on denial -/

theorem tryCall_not_denial (env : Env) (c : FacadeCall) (ok : Option Reply) (w : World)
    (h : isDenial ok = false) : isDenial (tryCall env c ok w).reply = false := by
  unfold tryCall
  split
  · rfl
  · exact h

theorem rawCall_not_denial (env : Env) (c : FacadeCall) (ok : Reply) (w : World)
    (h : isDenial (some ok) = false) : isDenial (rawCall env c ok w).reply = false := by
  unfold rawCall
  split
  · rfl
  · exact h

/-- Every case of the command `switch` either leaves the world as it found it or sends a
response that is not a denial. -/
theorem runCommand_world_or_not_denial (env : Env) (message : Message) (g : JSString)
    (config : Config) (pfx : JSString) (args : List JSString) (w : World) (command : Command) :
    (runCommand env message g config pfx args (getServerConfig g w).2 command).world =
        (getServerConfig g w).2 ∨
      isDenial (runCommand env message g config pfx args (getServerConfig g w).2 command).reply =
        false := by
  cases command <;> simp only [runCommand, djCommand_eq, isDJ_after] <;> repeat' split
  all_goals first
    | exact Or.inl rfl
    | exact Or.inr rfl
    | exact Or.inr (tryCall_not_denial _ _ _ _ rfl)

/-- Every case of the button `switch` sends a response that is not a denial, or none. -/
theorem runButton_not_denial (env : Env) (g : JSString) (w : World) (button : Button) :
    isDenial (runButton env g w button).reply = false := by
  cases button <;> simp only [runButton, trackButton] <;> repeat' split
  all_goals first
    | rfl
    | exact rawCall_not_denial _ _ _ _ rfl

/-- A handled message either is not answered with a denial, or it leaves the world as the
configuration read that opens the handler left it. -/
theorem messageCreate_world_or_not_denial (env : Env) (message : Message) (w : World) :
    isDenial (messageCreate env message w).reply = false ∨
      ∃ g, message.guildId = some g ∧
        (messageCreate env message w).world = (getServerConfig g w).2 := by
  unfold messageCreate
  split
  · exact Or.inl rfl
  · split
    · exact Or.inl rfl
    · next g hg =>
      simp only []
      split
      · split
        · exact Or.inl rfl
        · split <;> exact Or.inl rfl
      · split
        · exact Or.inl rfl
        · rcases runCommand_world_or_not_denial env message g (getServerConfig g w).1
            (prefixOf (getServerConfig g w).1)
            (commandWords (prefixOf (getServerConfig g w).1) message.content).tail w
            (commandOf (commandWord env
              (commandWords (prefixOf (getServerConfig g w).1) message.content))) with h | h
          · exact Or.inr ⟨g, hg, h⟩
          · exact Or.inl h

/-- C8, as the code has it: the first event ever handled for a guild can be a denial, and
`getServerConfig` has then already written the default record.  From the empty store,
`S-setprefix !` by a member without `ManageGuild` is denied after one `db.set`. -/
theorem denial_after_first_write :
    isDenial (messageCreate (demoEnv none) (demoMessage "S-setprefix !" (demoMember [] false))
      (World.start [])).reply = true ∧
    (messageCreate (demoEnv none) (demoMessage "S-setprefix !" (demoMember [] false))
      (World.start [])).world.writes = [("g".toList, defaultConfig)] ∧
    (messageCreate (demoEnv none) (demoMessage "S-setprefix !" (demoMember [] false))
      (World.start [])).world.db = [("g".toList, defaultConfig)] := by
  decide

theorem onlyOpeningRead_intro (db : Store) (g : JSString) (w : World)
    (h : w = (getServerConfig g (World.start db)).2) : OnlyOpeningRead db g w := by
  have hc := getServerConfig_world g (World.start db)
  refine ⟨h, by rw [h]; exact hc.1, ?_, ?_⟩
  · intro hhas
    rw [h]
    exact hc.2.1 hhas
  · intro hhas
    rw [h, (hc.2.2 hhas).1]
    rfl

/-- C8, amended: a playback command (`skip`, `stop`, `volume`, `pause`, `resume`, `loop`,
`shuffle`, `seek`) of a member for whom `isDJ` is false is answered with the DJ denial of that
command, a configuration command (`setprefix`, `setmusicchannel`, `adddj`, `removedj`) of a
member without `ManageGuild` with its Manage Server denial, and a button or menu interaction of
a member for whom `isDJ` is false with the DJ denial of the controls; and in each case, as
whenever a handler answers with one of these denials, the handler has made no call on the player
and has done nothing to the store beyond the `getServerConfig` that opens it: a guild that has a
record keeps store and write log untouched, and for a guild without one the only write is that of
the default record. -/
theorem denial_no_effects (env : Env) (db : Store) :
    (∀ message guildId command, issues env message (World.start db) guildId command →
      (command = .skip ∨ command = .stop ∨ command = .volume ∨ command = .pause ∨
        command = .resume ∨ command = .loop ∨ command = .shuffle ∨ command = .seek) →
      (isDJ message.member guildId (World.start db)).1 = false →
      (messageCreate env message (World.start db)).reply = some (.needDJ command) ∧
      OnlyOpeningRead db guildId (messageCreate env message (World.start db)).world) ∧
    (∀ message guildId command, issues env message (World.start db) guildId command →
      (command = .setPrefix ∨ command = .setmusicchannel ∨ command = .adddj ∨
        command = .removedj) →
      message.member.manageGuild = false →
      (messageCreate env message (World.start db)).reply = some (.needManageServer command) ∧
      OnlyOpeningRead db guildId (messageCreate env message (World.start db)).world) ∧
    (∀ interaction : Interaction,
      (interaction.isButton = true ∨ interaction.isStringSelectMenu = true) →
      (isDJ interaction.member interaction.guildId (World.start db)).1 = false →
      (interactionCreate env interaction (World.start db)).reply = some .needDJControls ∧
      OnlyOpeningRead db interaction.guildId
        (interactionCreate env interaction (World.start db)).world) ∧
    (∀ message, isDenial (messageCreate env message (World.start db)).reply = true →
      ∃ g, message.guildId = some g ∧
        OnlyOpeningRead db g (messageCreate env message (World.start db)).world) ∧
    (∀ interaction, isDenial (interactionCreate env interaction (World.start db)).reply = true →
      OnlyOpeningRead db interaction.guildId
        (interactionCreate env interaction (World.start db)).world) := by
  refine ⟨?_, ?_, ?_, ?_, ?_⟩
  · intro message guildId command hissue hcmd hdj
    have hw : (messageCreate env message (World.start db)).reply = some (.needDJ command) ∧
        (messageCreate env message (World.start db)).world =
          (getServerConfig guildId (World.start db)).2 := by
      rw [messageCreate_of_issues hissue]
      rcases hcmd with h | h | h | h | h | h | h | h <;> subst h <;>
        simp [runCommand, djCommand_eq, isDJ_after, hdj, respond]
    exact ⟨hw.1, onlyOpeningRead_intro db guildId _ hw.2⟩
  · intro message guildId command hissue hcmd hperm
    have hw : (messageCreate env message (World.start db)).reply =
          some (.needManageServer command) ∧
        (messageCreate env message (World.start db)).world =
          (getServerConfig guildId (World.start db)).2 := by
      rw [messageCreate_of_issues hissue]
      rcases hcmd with h | h | h | h <;> subst h <;> simp [runCommand, hperm, respond]
    exact ⟨hw.1, onlyOpeningRead_intro db guildId _ hw.2⟩
  · intro interaction hkind hdj
    have hw : (interactionCreate env interaction (World.start db)).reply = some .needDJControls ∧
        (interactionCreate env interaction (World.start db)).world =
          (getServerConfig interaction.guildId (World.start db)).2 := by
      unfold interactionCreate
      simp only [isDJ_after, hdj]
      rcases hkind with h | h <;> simp [h, respond]
    exact ⟨hw.1, onlyOpeningRead_intro db interaction.guildId _ hw.2⟩
  · intro message hden
    rcases messageCreate_world_or_not_denial env message (World.start db) with h | ⟨g, hg, hw⟩
    · rw [h] at hden
      exact Bool.noConfusion hden
    · exact ⟨g, hg, onlyOpeningRead_intro db g _ hw⟩
  · intro interaction hden
    have hw : (interactionCreate env interaction (World.start db)).world =
        (getServerConfig interaction.guildId (World.start db)).2 := by
      cases hb : interaction.isButton with
      | true =>
        rw [interactionCreate_gate env interaction _ hb] at hden ⊢
        split
        · next hdj =>
          rw [if_pos hdj, runButton_not_denial] at hden
          exact Bool.noConfusion hden
        · rfl
      | false =>
        unfold interactionCreate at hden ⊢
        simp only [isDJ_after] at hden ⊢
        split
        · simp only [hb] at hden
          split at hden
          · exact Bool.noConfusion hden
          · next hn => simp_all
        · split
          · rfl
          · simp [hb, silent]
    exact onlyOpeningRead_intro db interaction.guildId _ hw

/-- C8, witness: with DJ roles `roleA` and a track playing, `S-pause` and a click on `pause` by a
member who holds no role are denied; `setPaused` is not called and the store is not written. -/
theorem denial_no_effects_witness :
    (messageCreate (demoEnv (some playingQueue)) (demoMessage "S-pause" (demoMember [] false))
      (World.start (demoStore ["roleA"]))).reply = some (.needDJ .pause) ∧
    (messageCreate (demoEnv (some playingQueue)) (demoMessage "S-pause" (demoMember [] false))
      (World.start (demoStore ["roleA"]))).world.calls = [] ∧
    (messageCreate (demoEnv (some playingQueue)) (demoMessage "S-pause" (demoMember [] false))
      (World.start (demoStore ["roleA"]))).world = World.start (demoStore ["roleA"]) ∧
    (interactionCreate (demoEnv (some playingQueue)) (demoClick "pause" (demoMember [] false))
      (World.start (demoStore ["roleA"]))).reply = some .needDJControls ∧
    (interactionCreate (demoEnv (some playingQueue)) (demoClick "pause" (demoMember [] false))
      (World.start (demoStore ["roleA"]))).world = World.start (demoStore ["roleA"]) :=
  have h := (denial_no_effects (demoEnv (some playingQueue)) (demoStore ["roleA"])).1
    (demoMessage "S-pause" (demoMember [] false)) "g".toList .pause (by decide)
    (Or.inr (Or.inr (Or.inr (Or.inl rfl)))) (by decide)
  have k := (denial_no_effects (demoEnv (some playingQueue)) (demoStore ["roleA"])).2.2.1
    (demoClick "pause" (demoMember [] false)) (Or.inl rfl) (by decide)
  ⟨h.1, h.2.2.1, h.2.2.2.1 (by decide), k.1, k.2.2.2.1 (by decide)⟩
/-! ## C9: `adddj` -/

/-- Reading the configuration of a guild from a store in which it has the record `c`. -/
theorem getServerConfig_start {g : JSString} {db : Store} {c : Config}
    (h : storeGet db g = some c) :
    getServerConfig g (World.start db) = (c, World.start db) :=
  getServerConfig_of_some (w := World.start db) h

/-- The `adddj` command of a member with `ManageGuild`, for a role that exists. -/
theorem adddj_run (env : Env) (message : Message) (w : World) (guildId role : JSString)
    (hissue : issues env message w guildId .adddj)
    (hperm : message.member.manageGuild = true)
    (hrole : resolveRole message (argsOf message w guildId) = some role) :
    messageCreate env message w =
      if role ∈ (getServerConfig guildId w).1.djRoles then
        respond (getServerConfig guildId w).2 .alreadyDJ
      else
        respond
          (dbSet guildId
            { (getServerConfig guildId w).1 with
              djRoles := (getServerConfig guildId w).1.djRoles ++ [role] }
            (getServerConfig guildId w).2)
          (.djAdded role) := by
  rw [messageCreate_of_issues hissue]
  simp only [runCommand, hperm, hrole, Bool.not_true, Bool.false_eq_true, if_false]
  by_cases hmem : role ∈ (getServerConfig guildId w).1.djRoles
  · simp [hmem]
  · simp [hmem]

/-- C9: `adddj r` by a member with `ManageGuild`, for an existing role `r`.  If `r` is not in
`djRoles`, the stored record becomes the old one with `r` appended to `djRoles` and the response
confirms the addition; if `r` is in `djRoles`, nothing is written and the response is that the
role is already a DJ role.  Handling the same command again on the resulting store is answered
with the already-a-DJ-role response and leaves that store as it is. -/
theorem adddj_command (env : Env) (message : Message) (db : Store) (guildId role : JSString)
    (hissue : issues env message (World.start db) guildId .adddj)
    (hperm : message.member.manageGuild = true)
    (hrole : resolveRole message (argsOf message (World.start db) guildId) = some role) :
    (role ∉ (getServerConfig guildId (World.start db)).1.djRoles →
      (messageCreate env message (World.start db)).reply = some (.djAdded role) ∧
      storeGet (messageCreate env message (World.start db)).world.db guildId =
        some { (getServerConfig guildId (World.start db)).1 with
          djRoles := (getServerConfig guildId (World.start db)).1.djRoles ++ [role] }) ∧
    (role ∈ (getServerConfig guildId (World.start db)).1.djRoles →
      (messageCreate env message (World.start db)).reply = some .alreadyDJ ∧
      (messageCreate env message (World.start db)).world =
        (getServerConfig guildId (World.start db)).2 ∧
      storeGet (messageCreate env message (World.start db)).world.db guildId =
        some (getServerConfig guildId (World.start db)).1) ∧
    ((messageCreate env message
        (World.start (messageCreate env message (World.start db)).world.db)).reply =
        some .alreadyDJ ∧
      (messageCreate env message
        (World.start (messageCreate env message (World.start db)).world.db)).world.db =
        (messageCreate env message (World.start db)).world.db ∧
      (messageCreate env message
        (World.start (messageCreate env message (World.start db)).world.db)).world.writes = []) := by
  have hrun := adddj_run env message (World.start db) guildId role hissue hperm hrole
  have hstored := getServerConfig_stored guildId (World.start db)
  -- the second handling, from a store `db2` whose record has the same prefix and holds `role`
  have again : ∀ (db2 : Store) (c2 : Config), storeGet db2 guildId = some c2 →
      c2.pfx = (getServerConfig guildId (World.start db)).1.pfx → role ∈ c2.djRoles →
      (messageCreate env message (World.start db2)).reply = some .alreadyDJ ∧
      (messageCreate env message (World.start db2)).world.db = db2 ∧
      (messageCreate env message (World.start db2)).world.writes = [] := by
    intro db2 c2 hget hpfx hmem
    have hcfg := getServerConfig_start hget
    have hp : prefixOf (getServerConfig guildId (World.start db2)).1 =
        prefixOf (getServerConfig guildId (World.start db)).1 := by
      rw [hcfg]
      simp only [prefixOf, hpfx]
    have hissue2 : issues env message (World.start db2) guildId .adddj := by
      unfold issues at hissue ⊢
      rw [hp]
      exact hissue
    have hrole2 : resolveRole message (argsOf message (World.start db2) guildId) = some role := by
      unfold argsOf at hrole ⊢
      rw [hp]
      exact hrole
    rw [adddj_run env message (World.start db2) guildId role hissue2 hperm hrole2, hcfg]
    simp only [hmem, if_true]
    exact ⟨rfl, rfl, rfl⟩
  refine ⟨?_, ?_, ?_⟩
  · intro hmem
    rw [hrun]
    simp [hmem, respond, dbSet, storeGet_storeSet_self]
  · intro hmem
    rw [hrun]
    simp only [hmem, if_true, respond]
    exact ⟨trivial, trivial, hstored⟩
  · by_cases hmem : role ∈ (getServerConfig guildId (World.start db)).1.djRoles
    · refine again _ (getServerConfig guildId (World.start db)).1 ?_ rfl hmem
      rw [hrun]
      simp only [hmem, if_true, respond]
      exact hstored
    · refine again _ { (getServerConfig guildId (World.start db)).1 with
          djRoles := (getServerConfig guildId (World.start db)).1.djRoles ++ [role] } ?_ rfl
        (by simp)
      rw [hrun]
      simp [hmem, respond, dbSet, storeGet_storeSet_self]

/-- C9, witness: from the default record, `S-adddj roleB` by a member with `ManageGuild` makes
the DJ roles `roleB`; sent again, it is answered that the role is already a DJ role and the
store stays the same. -/
theorem adddj_command_witness :
    (messageCreate (demoEnv none) (demoMessage "S-adddj roleB" (demoMember [] true))
      (World.start (demoStore []))).world.db = demoStore ["roleB"] ∧
    (messageCreate (demoEnv none) (demoMessage "S-adddj roleB" (demoMember [] true))
      (World.start (demoStore ["roleB"]))).reply = some .alreadyDJ ∧
    (messageCreate (demoEnv none) (demoMessage "S-adddj roleB" (demoMember [] true))
      (World.start (demoStore ["roleB"]))).world.db = demoStore ["roleB"] :=
  have h := adddj_command (demoEnv none) (demoMessage "S-adddj roleB" (demoMember [] true))
    (demoStore []) "g".toList "roleB".toList (by decide) (by decide) (by decide)
  have e : (messageCreate (demoEnv none) (demoMessage "S-adddj roleB" (demoMember [] true))
      (World.start (demoStore []))).world.db = demoStore ["roleB"] := by decide
  ⟨e, e ▸ h.2.2.1, e ▸ h.2.2.2.1⟩

/-! ## C10: the invariants of the stored records -/

theorem length_le_jsLength (s : JSString) : s.length ≤ jsLength s := by
  induction s with
  | nil => simp [jsLength]
  | cons c cs ih =>
    have : jsLength (c :: cs) = (if c.toNat < 65536 then 1 else 2) + jsLength cs := by
      simp [jsLength]
    rw [this, List.length_cons]
    split <;> omega

theorem goodConfig_default : GoodConfig defaultConfig := by
  refine ⟨by decide, by decide, by decide, List.nodup_nil, by decide, by decide⟩

theorem storeGood_set {db : Store} {c : Config} (g : JSString) (hdb : StoreGood db)
    (hc : GoodConfig c) : StoreGood (storeSet db g c) := by
  intro g1 c1 hget
  by_cases h : g1 = g
  · subst h
    rw [storeGet_storeSet_self] at hget
    simp only [Option.some.injEq] at hget
    rw [← hget]
    exact hc
  · rw [storeGet_storeSet_of_ne _ _ _ _ h] at hget
    exact hdb g1 c1 hget

/-- The configuration read keeps the store good and returns a good record. -/
theorem storeGood_getServerConfig {w : World} (g : JSString) (hdb : StoreGood w.db) :
    StoreGood (getServerConfig g w).2.db ∧ GoodConfig (getServerConfig g w).1 := by
  cases h : storeGet w.db g with
  | none =>
    rw [getServerConfig_of_none h]
    exact ⟨storeGood_set g hdb goodConfig_default, goodConfig_default⟩
  | some c =>
    rw [getServerConfig_of_some h]
    exact ⟨hdb, hdb g c h⟩

theorem tryCall_db (env : Env) (c : FacadeCall) (ok : Option Reply) (w : World) :
    (tryCall env c ok w).world.db = w.db := by
  unfold tryCall
  split <;> rfl

theorem rawCall_db (env : Env) (c : FacadeCall) (ok : Reply) (w : World) :
    (rawCall env c ok w).world.db = w.db := by
  unfold rawCall
  split <;> rfl

/-- Every case of the command `switch` leaves the store as it is or sets the record of the
guild to a good one. -/
theorem runCommand_db (env : Env) (message : Message) (g : JSString) (config : Config)
    (pfx : JSString) (args : List JSString) (w : World) (command : Command)
    (hc : GoodConfig config) :
    (runCommand env message g config pfx args (getServerConfig g w).2 command).world.db =
        (getServerConfig g w).2.db ∨
      ∃ c, GoodConfig c ∧
        (runCommand env message g config pfx args (getServerConfig g w).2 command).world.db =
          storeSet (getServerConfig g w).2.db g c := by
  obtain ⟨h1, h2, h3, h4, h5, h6⟩ := hc
  cases command
  case setPrefix =>
    simp only [runCommand]
    repeat' split
    · exact Or.inl rfl
    · exact Or.inl rfl
    · exact Or.inl rfl
    · next newPrefix _ hok =>
      right
      have hok2 : newPrefix ≠ [] ∧ jsLength newPrefix ≤ 3 := by
        constructor
        · exact fun e => hok (Or.inl e)
        · exact Nat.le_of_not_lt fun e => hok (Or.inr e)
      exact ⟨{ config with pfx := newPrefix },
        ⟨hok2.1, hok2.2, Nat.le_trans (length_le_jsLength _) hok2.2, h4, h5, h6⟩, rfl⟩
  case setmusicchannel =>
    simp only [runCommand]
    split
    · exact Or.inl rfl
    · exact Or.inr ⟨{ config with musicChannel := some message.channelId },
        ⟨h1, h2, h3, h4, h5, h6⟩, rfl⟩
  case adddj =>
    simp only [runCommand]
    repeat' split
    · exact Or.inl rfl
    · exact Or.inl rfl
    · next role _ hnot =>
      right
      have hmem : role ∉ config.djRoles := by simpa using hnot
      refine ⟨{ config with djRoles := config.djRoles ++ [role] },
        ⟨h1, h2, h3, ?_, h5, h6⟩, rfl⟩
      simp [List.nodup_append, h4, hmem]
    · exact Or.inl rfl
  case removedj =>
    simp only [runCommand]
    repeat' split
    · exact Or.inl rfl
    · exact Or.inl rfl
    · next role _ _ =>
      right
      exact ⟨{ config with djRoles := config.djRoles.filter fun id => id ≠ role },
        ⟨h1, h2, h3, List.Nodup.filter _ h4, h5, h6⟩, rfl⟩
    · exact Or.inl rfl
  all_goals
    simp only [runCommand, djCommand_eq, isDJ_after]
    repeat' split
    all_goals first
      | exact Or.inl rfl
      | exact Or.inl (tryCall_db _ _ _ _)

theorem runButton_db (env : Env) (g : JSString) (w : World) (button : Button) :
    (runButton env g w button).world.db = w.db := by
  cases button <;> simp only [runButton, trackButton] <;> repeat' split
  all_goals first
    | rfl
    | exact rawCall_db _ _ _ _

theorem storeGood_messageCreate (env : Env) (message : Message) (db : Store)
    (hdb : StoreGood db) : StoreGood (messageCreate env message (World.start db)).world.db := by
  unfold messageCreate
  split
  · exact hdb
  · split
    · exact hdb
    · next g hg =>
      have hcfg := storeGood_getServerConfig (w := World.start db) g hdb
      simp only []
      split
      · split
        · exact hcfg.1
        · split <;> exact hcfg.1
      · split
        · exact hcfg.1
        · rcases runCommand_db env message g (getServerConfig g (World.start db)).1
            (prefixOf (getServerConfig g (World.start db)).1)
            (commandWords (prefixOf (getServerConfig g (World.start db)).1) message.content).tail
            (World.start db)
            (commandOf (commandWord env
              (commandWords (prefixOf (getServerConfig g (World.start db)).1) message.content)))
            hcfg.2 with h | ⟨c, hc, h⟩
          · rw [h]
            exact hcfg.1
          · rw [h]
            exact storeGood_set g hcfg.1 hc

theorem storeGood_interactionCreate (env : Env) (interaction : Interaction) (db : Store)
    (hdb : StoreGood db) :
    StoreGood (interactionCreate env interaction (World.start db)).world.db := by
  have hcfg := storeGood_getServerConfig (w := World.start db) interaction.guildId hdb
  unfold interactionCreate
  simp only [isDJ_after]
  split
  · exact hdb
  · split
    · exact hcfg.1
    · split
      · rw [runButton_db]
        exact hcfg.1
      · exact hcfg.1

theorem storeGood_of_reachable {db : Store} (h : Reachable db) : StoreGood db := by
  induction h with
  | empty =>
    intro g c hget
    simp [storeGet] at hget
  | message env message db _ ih => exact storeGood_messageCreate env message db ih
  | interaction env interaction db _ ih => exact storeGood_interactionCreate env interaction db ih

/-- C10: in every store reachable from the empty one by handling events, for every guild id,
`getServerConfig` returns a record whose prefix is non-empty and at most 3 long, whose `djRoles`
have no duplicate and whose `defaultVolume` is in `[0, 200]`; for a guild that has no record the
record returned is the default one (prefix `S-`, no DJ role, no music channel, volume 50), and
it is stored by that call. -/
theorem reachable_config_invariant (db : Store) (h : Reachable db) (guildId : JSString) :
    GoodConfig (getServerConfig guildId (World.start db)).1 ∧
    (storeHas db guildId = false →
      (getServerConfig guildId (World.start db)).1 =
        { pfx := ['S', '-'], djRoles := [], musicChannel := none, defaultVolume := 50 } ∧
      (getServerConfig guildId (World.start db)).2.writes = [(guildId, defaultConfig)] ∧
      storeGet (getServerConfig guildId (World.start db)).2.db guildId = some defaultConfig) := by
  have hgood := storeGood_of_reachable h
  refine ⟨(storeGood_getServerConfig (w := World.start db) guildId hgood).2, ?_⟩
  intro hhas
  have hc := (getServerConfig_world guildId (World.start db)).2.2 hhas
  refine ⟨hc.2, ?_, ?_⟩
  · rw [hc.1]
    rfl
  · have := getServerConfig_stored guildId (World.start db)
    rw [hc.2] at this
    exact this

/-- C10, witness: after `S-setprefix !!!` and `S-adddj roleB` by a member with `ManageGuild`,
handled from the empty store, the record of guild `g` satisfies the invariants, and a guild
`h` that was never accessed gets the default record. -/
theorem reachable_config_invariant_witness :
    GoodConfig (getServerConfig "g".toList (World.start
      (messageCreate (demoEnv none) (demoMessage "S-adddj roleB" (demoMember [] true))
        (World.start (messageCreate (demoEnv none)
          (demoMessage "S-setprefix !!!" (demoMember [] true)) (World.start [])).world.db)).world.db)).1 ∧
    (getServerConfig "h".toList (World.start
      (messageCreate (demoEnv none) (demoMessage "S-adddj roleB" (demoMember [] true))
        (World.start (messageCreate (demoEnv none)
          (demoMessage "S-setprefix !!!" (demoMember [] true)) (World.start [])).world.db)).world.db)).1 =
      defaultConfig :=
  have hr : Reachable (messageCreate (demoEnv none)
      (demoMessage "S-adddj roleB" (demoMember [] true))
      (World.start (messageCreate (demoEnv none)
        (demoMessage "S-setprefix !!!" (demoMember [] true)) (World.start [])).world.db)).world.db :=
    Reachable.message _ _ _ (Reachable.message _ _ _ Reachable.empty)
  ⟨(reachable_config_invariant _ hr "g".toList).1,
    ((reachable_config_invariant _ hr "h".toList).2 (by decide)).1⟩

/-! ## C11: `setprefix` -/

theorem jsLength_eq_zero (s : JSString) : jsLength s = 0 ↔ s = [] := by
  constructor
  · intro h
    have := length_le_jsLength s
    exact List.length_eq_zero.mp (by omega)
  · intro h
    rw [h]
    rfl

/-- The `setprefix` command of a member with `ManageGuild`, by its argument. -/
theorem setprefix_run (env : Env) (message : Message) (w : World) (guildId : JSString)
    (hissue : issues env message w guildId .setPrefix)
    (hperm : message.member.manageGuild = true) :
    messageCreate env message w =
      match (argsOf message w guildId).head? with
      | none => respond (getServerConfig guildId w).2 .invalidPrefix
      | some newPrefix =>
        if 1 ≤ jsLength newPrefix ∧ jsLength newPrefix ≤ 3 then
          respond
            (dbSet guildId { (getServerConfig guildId w).1 with pfx := newPrefix }
              (getServerConfig guildId w).2)
            (.prefixChanged newPrefix)
        else respond (getServerConfig guildId w).2 .invalidPrefix := by
  rw [messageCreate_of_issues hissue]
  simp only [runCommand, hperm, Bool.not_true, Bool.false_eq_true, if_false]
  cases (argsOf message w guildId).head? with
  | none => rfl
  | some p =>
    simp only []
    by_cases h0 : p = []
    · subst h0
      have hz : jsLength ([] : JSString) = 0 := rfl
      simp [hz]
    · have hz : jsLength p ≠ 0 := fun e => h0 ((jsLength_eq_zero p).mp e)
      by_cases h3 : jsLength p > 3
      · have : ¬ (1 ≤ jsLength p ∧ jsLength p ≤ 3) := by omega
        simp [h3, this]
      · have : 1 ≤ jsLength p ∧ jsLength p ≤ 3 := by omega
        simp [h0, h3, this]

/-- C11: `setprefix` by a member with `ManageGuild`.  When the argument is present and its
length is between 1 and 3, the handler writes the record with the new prefix and the other
fields as they were, the next `getServerConfig` of the guild returns that record, and the
confirmation carries the new prefix.  Otherwise the response is the invalid-prefix message and
nothing is written.  So the command writes to the store exactly when the argument is present
with a length between 1 and 3. -/
theorem setprefix_command (env : Env) (message : Message) (db : Store) (guildId : JSString)
    (hissue : issues env message (World.start db) guildId .setPrefix)
    (hperm : message.member.manageGuild = true) :
    (∀ p, (argsOf message (World.start db) guildId).head? = some p → 1 ≤ jsLength p →
      jsLength p ≤ 3 →
      (messageCreate env message (World.start db)).reply = some (.prefixChanged p) ∧
      (messageCreate env message (World.start db)).world.writes =
        (getServerConfig guildId (World.start db)).2.writes ++
          [(guildId, { (getServerConfig guildId (World.start db)).1 with pfx := p })] ∧
      (getServerConfig guildId
          (World.start (messageCreate env message (World.start db)).world.db)).1 =
        { pfx := p,
          djRoles := (getServerConfig guildId (World.start db)).1.djRoles,
          musicChannel := (getServerConfig guildId (World.start db)).1.musicChannel,
          defaultVolume := (getServerConfig guildId (World.start db)).1.defaultVolume }) ∧
    ((¬ ∃ p, (argsOf message (World.start db) guildId).head? = some p ∧ 1 ≤ jsLength p ∧
        jsLength p ≤ 3) →
      (messageCreate env message (World.start db)).reply = some .invalidPrefix ∧
      (messageCreate env message (World.start db)).world =
        (getServerConfig guildId (World.start db)).2 ∧
      (getServerConfig guildId
          (World.start (messageCreate env message (World.start db)).world.db)).1 =
        (getServerConfig guildId (World.start db)).1) ∧
    ((messageCreate env message (World.start db)).world.writes ≠
        (getServerConfig guildId (World.start db)).2.writes ↔
      ∃ p, (argsOf message (World.start db) guildId).head? = some p ∧ 1 ≤ jsLength p ∧
        jsLength p ≤ 3) := by
  have hrun := setprefix_run env message (World.start db) guildId hissue hperm
  have hstored := getServerConfig_stored guildId (World.start db)
  have valid : ∀ p, (argsOf message (World.start db) guildId).head? = some p →
      1 ≤ jsLength p → jsLength p ≤ 3 →
      messageCreate env message (World.start db) =
        respond
          (dbSet guildId { (getServerConfig guildId (World.start db)).1 with pfx := p }
            (getServerConfig guildId (World.start db)).2)
          (.prefixChanged p) := by
    intro p hp h1 h3
    rw [hrun, hp]
    simp [h1, h3]
  have invalid : (¬ ∃ p, (argsOf message (World.start db) guildId).head? = some p ∧
      1 ≤ jsLength p ∧ jsLength p ≤ 3) →
      messageCreate env message (World.start db) =
        respond (getServerConfig guildId (World.start db)).2 .invalidPrefix := by
    intro hno
    rw [hrun]
    cases hp : (argsOf message (World.start db) guildId).head? with
    | none => rfl
    | some p =>
      have : ¬ (1 ≤ jsLength p ∧ jsLength p ≤ 3) := fun h => hno ⟨p, hp, h.1, h.2⟩
      simp [this]
  refine ⟨?_, ?_, ?_⟩
  · intro p hp h1 h3
    rw [valid p hp h1 h3]
    refine ⟨rfl, rfl, ?_⟩
    have hget : storeGet
        (respond
          (dbSet guildId { (getServerConfig guildId (World.start db)).1 with pfx := p }
            (getServerConfig guildId (World.start db)).2)
          (.prefixChanged p)).world.db guildId =
        some { (getServerConfig guildId (World.start db)).1 with pfx := p } := by
      simp [respond, dbSet, storeGet_storeSet_self]
    rw [getServerConfig_start hget]
  · intro hno
    rw [invalid hno]
    refine ⟨rfl, rfl, ?_⟩
    have hget : storeGet
        (respond (getServerConfig guildId (World.start db)).2 .invalidPrefix).world.db guildId =
        some (getServerConfig guildId (World.start db)).1 := hstored
    rw [getServerConfig_start hget]
  · constructor
    · intro hne
      by_contra hno
      rw [invalid hno] at hne
      exact hne rfl
    · rintro ⟨p, hp, h1, h3⟩
      rw [valid p hp h1 h3]
      simp [respond, dbSet]

/-- C11, witness: `S-setprefix !!` by a member with `ManageGuild` is confirmed with `!!` and
the guild then reads prefix `!!` with DJ roles `roleA` kept; `S-setprefix toolong` is answered
with the invalid-prefix message and the store stays as it was. -/
theorem setprefix_command_witness :
    (messageCreate (demoEnv none) (demoMessage "S-setprefix !!" (demoMember [] true))
      (World.start (demoStore ["roleA"]))).reply = some (.prefixChanged "!!".toList) ∧
    (getServerConfig "g".toList (World.start
      (messageCreate (demoEnv none) (demoMessage "S-setprefix !!" (demoMember [] true))
        (World.start (demoStore ["roleA"]))).world.db)).1 =
      { pfx := "!!".toList, djRoles := ["roleA".toList], musicChannel := none,
        defaultVolume := 50 } ∧
    (messageCreate (demoEnv none) (demoMessage "S-setprefix toolong" (demoMember [] true))
      (World.start (demoStore ["roleA"]))).reply = some .invalidPrefix ∧
    (messageCreate (demoEnv none) (demoMessage "S-setprefix toolong" (demoMember [] true))
      (World.start (demoStore ["roleA"]))).world = World.start (demoStore ["roleA"]) :=
  have h := (setprefix_command (demoEnv none) (demoMessage "S-setprefix !!" (demoMember [] true))
    (demoStore ["roleA"]) "g".toList (by decide) (by decide)).1 "!!".toList (by decide)
    (by decide) (by decide)
  have k := (setprefix_command (demoEnv none)
    (demoMessage "S-setprefix toolong" (demoMember [] true))
    (demoStore ["roleA"]) "g".toList (by decide) (by decide)).2.1
    (fun ⟨p, hp, _, h3⟩ => by
      have e : some "toolong".toList = some p := hp
      simp only [Option.some.injEq] at e
      rw [← e] at h3
      exact absurd h3 (by decide))
  ⟨h.1, h.2.2, k.1, k.2.1⟩

/-! ## C12: the music-channel path -/

theorem prefixOf_ne_nil (config : Config) : prefixOf config ≠ [] := by
  unfold prefixOf
  split
  · assumption
  · decide

/-- Length of the pieces of a split, each counted with one separator. -/
theorem length_joinSpaces_le (l : List JSString) :
    (joinSpaces l).length ≤ (l.map fun p => p.length + 1).sum := by
  induction l with
  | nil => simp [joinSpaces, List.intercalate]
  | cons a rest ih =>
    cases rest with
    | nil => simp [joinSpaces, List.intercalate]
    | cons b rest2 =>
      have e : joinSpaces (a :: b :: rest2) = a ++ ' ' :: joinSpaces (b :: rest2) := by
        simp [joinSpaces, List.intercalate, List.intersperse]
      rw [e]
      simp only [List.length_append, List.length_cons, List.map_cons, List.sum_cons] at ih ⊢
      omega

theorem splitSpacesAux_weight (s cur : JSString) (inSep : Bool) :
    ((splitSpacesAux s cur inSep).map fun p => p.length + 1).sum ≤ cur.length + s.length + 1 ∧
    splitSpacesAux s cur inSep ≠ [] := by
  induction s generalizing cur inSep with
  | nil => simp [splitSpacesAux]
  | cons c rest ih =>
    unfold splitSpacesAux
    split
    · split
      · have := ih cur true
        refine ⟨?_, this.2⟩
        simp only [List.length_cons]
        omega
      · have := ih [] true
        refine ⟨?_, by simp⟩
        simp only [List.map_cons, List.sum_cons, List.length_reverse, List.length_cons,
          List.length_nil] at this ⊢
        omega
    · have := ih (c :: cur) false
      refine ⟨?_, this.2⟩
      simp only [List.length_cons] at this ⊢
      omega

theorem length_trim_le (s : JSString) : (trim s).length ≤ s.length := by
  have h1 := (List.dropWhile_sublist (l := s) isJSWhiteSpace).length_le
  have h2 := (List.dropWhile_sublist (l := (s.dropWhile isJSWhiteSpace).reverse)
    isJSWhiteSpace).length_le
  unfold trim
  rw [List.length_reverse]
  rw [List.length_reverse] at h2
  omega

/-- The arguments of a command, joined by spaces, are shorter than the message they come from. -/
theorem length_joined_args_lt (pfx content : JSString) (hp : startsWith content pfx = true)
    (hne : pfx ≠ []) : (joinSpaces (commandWords pfx content).tail).length < content.length := by
  have hpre : pfx.length ≤ content.length :=
    List.IsPrefix.length_le (List.isPrefixOf_iff_prefix.mp hp)
  have hpos : 0 < pfx.length := List.length_pos.mpr hne
  have hw := splitSpacesAux_weight (trim (content.drop pfx.length)) [] false
  have ht := length_trim_le (content.drop pfx.length)
  have hd : (content.drop pfx.length).length = content.length - pfx.length := List.length_drop _ _
  have hj := length_joinSpaces_le (commandWords pfx content).tail
  unfold commandWords splitSpaces at hj ⊢
  cases hsplit : splitSpacesAux (trim (content.drop pfx.length)) [] false with
  | nil => exact absurd hsplit hw.2
  | cons p0 ps =>
    rw [hsplit] at hj hw
    simp only [List.tail_cons, List.map_cons, List.sum_cons, List.length_nil] at hj hw ⊢
    omega

/-- Every case of the command `switch` makes no player call or one; a play request it makes
has the joined arguments as its query. -/
theorem runCommand_calls (env : Env) (message : Message) (g : JSString) (config : Config)
    (pfx : JSString) (args : List JSString) (w : World) (command : Command) :
    (runCommand env message g config pfx args (getServerConfig g w).2 command).world.calls =
        (getServerConfig g w).2.calls ∨
      ∃ c,
        (runCommand env message g config pfx args (getServerConfig g w).2 command).world.calls =
          (getServerConfig g w).2.calls ++ [c] ∧
        ∀ vc q, c = FacadeCall.play vc q → q = joinSpaces args := by
  cases command <;> simp only [runCommand, djCommand_eq, isDJ_after] <;> repeat' split
  all_goals first
    | exact Or.inl rfl
    | exact Or.inr ⟨_, tryCall_calls _ _ _ _, fun vc q h => by injection h with _ hq; exact hq.symm⟩
    | exact Or.inr ⟨_, tryCall_calls _ _ _ _, fun vc q h => by cases h⟩

theorem messageCreate_branches (env : Env) (message : Message) (w : World) (g : JSString)
    (hbot : message.authorBot = false) (hg : message.guildId = some g) :
    messageCreate env message w =
      if truthy (getServerConfig g w).1.musicChannel = true ∧
          some message.channelId = (getServerConfig g w).1.musicChannel ∧
          startsWith message.content (prefixOf (getServerConfig g w).1) = false then
        playFromMusicChannel env message (getServerConfig g w).2
      else handleCommand env message g (getServerConfig g w).1 (getServerConfig g w).2 := by
  unfold messageCreate playFromMusicChannel handleCommand
  simp only [hbot, hg, Bool.false_eq_true, if_false, Bool.not_eq_true]

/-- The command branch never requests a play of the whole message text. -/
theorem handleCommand_no_verbatim_play (env : Env) (message : Message) (g : JSString)
    (db : Store) (vc : JSString) :
    FacadeCall.play vc message.content ∉
      (handleCommand env message g (getServerConfig g (World.start db)).1
        (getServerConfig g (World.start db)).2).world.calls := by
  have hc := calls_after_config g db
  unfold handleCommand
  split
  · simp [silent, hc]
  · next hstart =>
    have hp : startsWith message.content (prefixOf (getServerConfig g (World.start db)).1) =
        true := by simpa using hstart
    have hlt := length_joined_args_lt _ _ hp (prefixOf_ne_nil _)
    rcases runCommand_calls env message g (getServerConfig g (World.start db)).1
        (prefixOf (getServerConfig g (World.start db)).1)
        (commandWords (prefixOf (getServerConfig g (World.start db)).1) message.content).tail
        (World.start db)
        (commandOf (commandWord env
          (commandWords (prefixOf (getServerConfig g (World.start db)).1) message.content)))
      with h | ⟨c, h, hq⟩
    · simp only []
      rw [h, hc]
      exact List.not_mem_nil _
    · simp only []
      rw [h, hc]
      intro hmem
      simp only [List.nil_append, List.mem_singleton] at hmem
      have := hq vc message.content hmem.symm
      rw [← this] at hlt
      exact Nat.lt_irrefl _ hlt

/-- C12: for a message that is not from a bot and comes from a guild, the music-channel path
is taken when the guild's `musicChannel` is set, the message's channel is that channel and the
text does not start with the guild's prefix, and only then: in that case the handler is the
music-channel branch, whose play request (made when the author is in a voice channel) carries
the whole text as its query, and no command is parsed; in every other case the handler is the
command branch, which never requests a play of the whole text.  A message that starts with the
prefix goes to the command `switch`. -/
theorem music_channel_path (env : Env) (message : Message) (db : Store) (guildId : JSString)
    (hbot : message.authorBot = false) (hg : message.guildId = some guildId) :
    ((truthy (getServerConfig guildId (World.start db)).1.musicChannel = true ∧
        some message.channelId = (getServerConfig guildId (World.start db)).1.musicChannel ∧
        startsWith message.content (prefixOf (getServerConfig guildId (World.start db)).1) =
          false) →
      messageCreate env message (World.start db) =
        playFromMusicChannel env message (getServerConfig guildId (World.start db)).2 ∧
      ∀ vc, message.member.voiceChannel = some vc →
        (messageCreate env message (World.start db)).world.calls =
          [.play vc message.content]) ∧
    (¬ (truthy (getServerConfig guildId (World.start db)).1.musicChannel = true ∧
        some message.channelId = (getServerConfig guildId (World.start db)).1.musicChannel ∧
        startsWith message.content (prefixOf (getServerConfig guildId (World.start db)).1) =
          false) →
      messageCreate env message (World.start db) =
        handleCommand env message guildId (getServerConfig guildId (World.start db)).1
          (getServerConfig guildId (World.start db)).2) ∧
    (∀ vc, FacadeCall.play vc message.content ∈
        (messageCreate env message (World.start db)).world.calls ↔
      ((truthy (getServerConfig guildId (World.start db)).1.musicChannel = true ∧
          some message.channelId = (getServerConfig guildId (World.start db)).1.musicChannel ∧
          startsWith message.content (prefixOf (getServerConfig guildId (World.start db)).1) =
            false) ∧
        message.member.voiceChannel = some vc)) ∧
    (startsWith message.content (prefixOf (getServerConfig guildId (World.start db)).1) = true →
      messageCreate env message (World.start db) =
        runCommand env message guildId (getServerConfig guildId (World.start db)).1
          (prefixOf (getServerConfig guildId (World.start db)).1)
          (argsOf message (World.start db) guildId)
          (getServerConfig guildId (World.start db)).2
          (commandOf (commandWord env
            (commandWords (prefixOf (getServerConfig guildId (World.start db)).1)
              message.content)))) := by
  have hbr := messageCreate_branches env message (World.start db) guildId hbot hg
  have hc := calls_after_config guildId db
  have music : ∀ vc, message.member.voiceChannel = some vc →
      (playFromMusicChannel env message (getServerConfig guildId (World.start db)).2).world.calls =
        [.play vc message.content] := by
    intro vc hvc
    unfold playFromMusicChannel
    rw [hvc]
    simp only []
    split <;> simp [respond, logCall, hc]
  refine ⟨?_, ?_, ?_, ?_⟩
  · intro hcond
    rw [hbr, if_pos hcond]
    exact ⟨rfl, music⟩
  · intro hcond
    rw [hbr, if_neg hcond]
  · intro vc
    rw [hbr]
    split
    · next hcond =>
      constructor
      · intro hmem
        refine ⟨hcond, ?_⟩
        cases hvc : message.member.voiceChannel with
        | none =>
          unfold playFromMusicChannel at hmem
          rw [hvc] at hmem
          simp [respond, hc] at hmem
        | some vc2 =>
          rw [music vc2 hvc] at hmem
          simp only [List.mem_singleton, FacadeCall.play.injEq] at hmem
          rw [hmem.1]
      · rintro ⟨_, hvc⟩
        rw [music vc hvc]
        exact List.mem_singleton_self _
    · next hcond =>
      constructor
      · intro hmem
        exact absurd hmem (handleCommand_no_verbatim_play env message guildId db vc)
      · rintro ⟨h, _⟩
        exact absurd h hcond
  · intro hstart
    exact messageCreate_command env message guildId (World.start db) hbot hg hstart

/-- C12, witness: in guild `g`, whose music channel is `ch`, the text `never gonna` sent in
`ch` by a member in voice channel `vc` makes the play request with that text as query, and
`S-play never gonna` sent there makes the play request of the `play` command, with query
`never gonna`. -/
theorem music_channel_path_witness :
    (messageCreate (demoEnv none) (demoMessage "never gonna" (demoListener [] false))
      (World.start musicStore)).world.calls = [.play "vc".toList "never gonna".toList] ∧
    (messageCreate (demoEnv none) (demoMessage "S-play never gonna" (demoListener [] false))
      (World.start musicStore)).world.calls = [.play "vc".toList "never gonna".toList] ∧
    FacadeCall.play "vc".toList "S-play never gonna".toList ∉
      (messageCreate (demoEnv none) (demoMessage "S-play never gonna" (demoListener [] false))
        (World.start musicStore)).world.calls :=
  have h := music_channel_path (demoEnv none)
    (demoMessage "never gonna" (demoListener [] false)) musicStore "g".toList rfl rfl
  have k := music_channel_path (demoEnv none)
    (demoMessage "S-play never gonna" (demoListener [] false)) musicStore "g".toList rfl rfl
  ⟨(h.1 (by decide)).2 "vc".toList rfl, by decide,
    fun hmem => absurd ((k.2.2.1 "vc".toList).mp hmem).1.2.2 (by decide)⟩

/-! ## C13: errors of the player calls -/

theorem tryCall_escaped (env : Env) (c : FacadeCall) (ok : Option Reply) (w : World) :
    (tryCall env c ok w).escaped = false := by
  unfold tryCall
  split <;> rfl

/-- No exception leaves a case of the command `switch`: the `try` of `messageCreate` holds
every player call of the text commands. -/
theorem runCommand_escaped (env : Env) (message : Message) (g : JSString) (config : Config)
    (pfx : JSString) (args : List JSString) (w : World) (command : Command) :
    (runCommand env message g config pfx args (getServerConfig g w).2 command).escaped =
      false := by
  cases command <;> simp only [runCommand, djCommand_eq, isDJ_after] <;> repeat' split
  all_goals first
    | rfl
    | exact tryCall_escaped _ _ _ _

/-- No exception of a player call leaves `messageCreate`, on either of its paths. -/
theorem messageCreate_escaped (env : Env) (message : Message) (w : World) :
    (messageCreate env message w).escaped = false := by
  unfold messageCreate
  split
  · rfl
  · split
    · rfl
    · next g hg =>
      simp only []
      split
      · split
        · rfl
        · split <;> rfl
      · split
        · rfl
        · exact runCommand_escaped env message g _ _ _ w _

/-- C13, the code at a click on the `skip` button while a track plays and `queue.skip()`
raises: `interactionCreate` has no `try`, the exception leaves the handler and no response is
sent.  The same failure in the text command `S-skip` and in a music-channel message is caught
and answered with a failure response. -/
theorem button_error_escapes :
    (interactionCreate (failingEnv (some playingQueue)) (demoClick "skip" (demoMember [] false))
      (World.start (demoStore []))).escaped = true ∧
    (interactionCreate (failingEnv (some playingQueue)) (demoClick "skip" (demoMember [] false))
      (World.start (demoStore []))).reply = none ∧
    (interactionCreate (failingEnv (some playingQueue)) (demoClick "skip" (demoMember [] false))
      (World.start (demoStore []))).world.calls = [.skip] ∧
    (messageCreate (failingEnv (some playingQueue)) (demoMessage "S-skip" (demoMember [] false))
      (World.start (demoStore []))).escaped = false ∧
    (messageCreate (failingEnv (some playingQueue)) (demoMessage "S-skip" (demoMember [] false))
      (World.start (demoStore []))).reply = some .commandError ∧
    (messageCreate (failingEnv none) (demoMessage "never gonna" (demoListener [] false))
      (World.start musicStore)).escaped = false ∧
    (messageCreate (failingEnv none) (demoMessage "never gonna" (demoListener [] false))
      (World.start musicStore)).reply = some .playFailed := by
  decide


/-! ## The rounding of quotients -/

/-- The binary logarithm of a quotient: `2 ^ L ≤ n / d < 2 ^ (L + 1)` for `L = ratioLog2 n d`. -/
theorem ratioLog2_spec (n d : Nat) (hn : 1 ≤ n) (hd : 1 ≤ d) :
    d * 2 ^ (ratioLog2 n d).toNat ≤ n * 2 ^ (-(ratioLog2 n d)).toNat ∧
    n * 2 ^ (-(ratioLog2 n d)).toNat < 2 * (d * 2 ^ (ratioLog2 n d).toNat) ∧
    (floorLog2 n : Int) - floorLog2 d - 1 ≤ ratioLog2 n d ∧
    ratioLog2 n d ≤ (floorLog2 n : Int) - floorLog2 d := by
  obtain ⟨hn1, hn2⟩ := floorLog2_spec n hn
  obtain ⟨hd1, hd2⟩ := floorLog2_spec d hd
  unfold ratioLog2
  simp only []
  by_cases hab : floorLog2 d ≤ floorLog2 n
  · obtain ⟨k, hk⟩ : ∃ k, floorLog2 n = floorLog2 d + k := ⟨floorLog2 n - floorLog2 d, by omega⟩
    have e1 : ((floorLog2 n : Int) - (floorLog2 d : Int)).toNat = k := by omega
    have e2 : (-((floorLog2 n : Int) - (floorLog2 d : Int))).toNat = 0 := by omega
    rw [hk, pow_add] at hn1
    rw [hk, show floorLog2 d + k + 1 = (floorLog2 d + k) + 1 from rfl, pow_succ, pow_add] at hn2
    have hdk : 2 ^ floorLog2 d * 2 ^ k ≤ d * 2 ^ k := Nat.mul_le_mul_right _ hd1
    split
    · next htest =>
      rw [e1, e2] at htest ⊢
      refine ⟨htest, ?_, by omega, by omega⟩
      rw [pow_zero, Nat.mul_one]
      omega
    · next htest =>
      rw [e1, e2, pow_zero, Nat.mul_one] at htest
      cases k with
      | zero =>
        have f1 : ((floorLog2 n : Int) - (floorLog2 d : Int) - 1).toNat = 0 := by omega
        have f2 : (-((floorLog2 n : Int) - (floorLog2 d : Int) - 1)).toNat = 1 := by omega
        rw [f1, f2]
        simp only [pow_zero, Nat.mul_one, pow_one] at *
        rw [pow_succ] at hd2
        refine ⟨by omega, by omega, by omega, by omega⟩
      | succ j =>
        have f1 : ((floorLog2 n : Int) - (floorLog2 d : Int) - 1).toNat = j := by omega
        have f2 : (-((floorLog2 n : Int) - (floorLog2 d : Int) - 1)).toNat = 0 := by omega
        rw [f1, f2]
        rw [pow_succ] at htest hn1 hdk
        rw [pow_succ] at hd2
        have hdj : d * 2 ^ j < 2 ^ floorLog2 d * 2 * 2 ^ j := Nat.mul_lt_mul_of_pos_right hd2 (Nat.two_pow_pos j)
        simp only [pow_zero, Nat.mul_one]
        have c1 : 2 ^ floorLog2 d * 2 * 2 ^ j = 2 ^ floorLog2 d * (2 ^ j * 2) := by ring
        have c2 : d * (2 ^ j * 2) = 2 * (d * 2 ^ j) := by ring
        refine ⟨by omega, by omega, by omega, by omega⟩
  · obtain ⟨k, hk⟩ : ∃ k, floorLog2 d = floorLog2 n + (k + 1) :=
      ⟨floorLog2 d - floorLog2 n - 1, by omega⟩
    have e1 : ((floorLog2 n : Int) - (floorLog2 d : Int)).toNat = 0 := by omega
    have e2 : (-((floorLog2 n : Int) - (floorLog2 d : Int))).toNat = k + 1 := by omega
    rw [hk, pow_add] at hd1
    rw [hk, show floorLog2 n + (k + 1) + 1 = floorLog2 n + ((k + 1) + 1) from rfl, pow_add] at hd2
    have hn2k : n * 2 ^ (k + 1) < 2 ^ (floorLog2 n + 1) * 2 ^ (k + 1) :=
      Nat.mul_lt_mul_of_pos_right hn2 (Nat.two_pow_pos _)
    have hn1k : 2 ^ floorLog2 n * 2 ^ (k + 1 + 1) ≤ n * 2 ^ (k + 1 + 1) :=
      Nat.mul_le_mul_right _ hn1
    split
    · next htest =>
      rw [e1, e2] at htest ⊢
      refine ⟨htest, ?_, by omega, by omega⟩
      simp only [pow_zero, Nat.mul_one] at *
      have c1 : 2 ^ (floorLog2 n + 1) * 2 ^ (k + 1) = 2 * (2 ^ floorLog2 n * 2 ^ (k + 1)) := by
        ring
      omega
    · next htest =>
      rw [e1, e2] at htest
      have f1 : ((floorLog2 n : Int) - (floorLog2 d : Int) - 1).toNat = 0 := by omega
      have f2 : (-((floorLog2 n : Int) - (floorLog2 d : Int) - 1)).toNat = k + 1 + 1 := by omega
      rw [f1, f2]
      simp only [pow_zero, Nat.mul_one] at *
      have c1 : n * 2 ^ (k + 1 + 1) = 2 * (n * 2 ^ (k + 1)) := by ring
      refine ⟨by omega, by omega, by omega, by omega⟩

/-- The double nearest to `a / b`, for a quotient of normal size: it is `m / 2 ^ K` with a
significand `m` of 53 bits that is within half a unit of `a * 2 ^ K / b`. -/
theorem roundRatio_spec (a b : Nat) (ha : 1 ≤ a) (hb : 1 ≤ b) (hb2 : b < 2 ^ 200)
    (hab : a < 2 ^ 53 * b) :
    ∃ K m : Nat, roundRatio false a b = reduceDyadic K (m : Int) ∧
      K ≤ 253 ∧ 2 ^ 52 ≤ m ∧ m ≤ 2 ^ 53 ∧
      b * 2 ^ 52 ≤ a * 2 ^ K ∧ a * 2 ^ K < b * 2 ^ 53 ∧
      2 * (m * b) ≤ 2 * (a * 2 ^ K) + b ∧ 2 * (a * 2 ^ K) ≤ 2 * (m * b) + b := by
  obtain ⟨hlo, hhi, hL1, hL2⟩ := ratioLog2_spec a b ha hb
  have hfb : floorLog2 b < 200 := floorLog2_lt hb hb2
  have hL52 : ratioLog2 a b ≤ 52 := by
    by_contra hcon
    obtain ⟨l, hl⟩ : ∃ l : Nat, ratioLog2 a b = ((53 + l : Nat) : Int) :=
      ⟨(ratioLog2 a b - 53).toNat, by omega⟩
    have e1 : (ratioLog2 a b).toNat = 53 + l := by omega
    have e2 : (-(ratioLog2 a b)).toNat = 0 := by omega
    rw [e1, e2, pow_zero, Nat.mul_one, pow_add] at hlo
    have h1 : b * 2 ^ 53 * 1 ≤ b * 2 ^ 53 * 2 ^ l := Nat.mul_le_mul_left _ (Nat.two_pow_pos l)
    have c1 : b * (2 ^ 53 * 2 ^ l) = b * 2 ^ 53 * 2 ^ l := by ring
    have c2 : 2 ^ 53 * b = b * 2 ^ 53 := by ring
    omega
  have hulp : ulpExponent a b = ratioLog2 a b - 52 := by
    unfold ulpExponent
    omega
  obtain ⟨K, hK⟩ : ∃ K : Nat, (K : Int) = 52 - ratioLog2 a b :=
    ⟨(52 - ratioLog2 a b).toNat, by omega⟩
  have eK : (-(ratioLog2 a b - 52)).toNat = K := by omega
  have e0 : (ratioLog2 a b - 52).toNat = 0 := by omega
  have hS : b * 2 ^ 52 ≤ a * 2 ^ K ∧ a * 2 ^ K < b * 2 ^ 53 := by
    by_cases hsign : 0 ≤ ratioLog2 a b
    · obtain ⟨l, hl⟩ : ∃ l : Nat, ratioLog2 a b = (l : Int) := ⟨(ratioLog2 a b).toNat, by omega⟩
      have e1 : (ratioLog2 a b).toNat = l := by omega
      have e2 : (-(ratioLog2 a b)).toNat = 0 := by omega
      rw [e1, e2, pow_zero, Nat.mul_one] at hlo hhi
      have h52 : 52 = l + K := by omega
      have p1 : b * 2 ^ l * 2 ^ K ≤ a * 2 ^ K := Nat.mul_le_mul_right _ hlo
      have p2 : a * 2 ^ K < 2 * (b * 2 ^ l) * 2 ^ K :=
        Nat.mul_lt_mul_of_pos_right hhi (Nat.two_pow_pos K)
      have c1 : b * 2 ^ 52 = b * 2 ^ l * 2 ^ K := by rw [h52, pow_add]; ring
      have c2 : b * 2 ^ 53 = 2 * (b * 2 ^ l) * 2 ^ K := by
        rw [show 53 = (l + K) + 1 by omega, pow_succ, pow_add]; ring
      rw [c1, c2]
      exact ⟨p1, p2⟩
    · obtain ⟨j, hj⟩ : ∃ j : Nat, ratioLog2 a b = -(j : Int) :=
        ⟨(-(ratioLog2 a b)).toNat, by omega⟩
      have e1 : (ratioLog2 a b).toNat = 0 := by omega
      have e2 : (-(ratioLog2 a b)).toNat = j := by omega
      rw [e1, e2, pow_zero, Nat.mul_one] at hlo hhi
      have hKj : K = j + 52 := by omega
      have p1 : b * 2 ^ 52 ≤ a * 2 ^ j * 2 ^ 52 := Nat.mul_le_mul_right _ hlo
      have p2 : a * 2 ^ j * 2 ^ 52 < 2 * b * 2 ^ 52 :=
        Nat.mul_lt_mul_of_pos_right hhi (Nat.two_pow_pos 52)
      have c1 : a * 2 ^ K = a * 2 ^ j * 2 ^ 52 := by rw [hKj, pow_add]; ring
      have c2 : b * 2 ^ 53 = 2 * b * 2 ^ 52 := by
        rw [show 53 = 52 + 1 by rfl, pow_succ]; ring
      rw [c1, c2]
      exact ⟨p1, p2⟩
  obtain ⟨hS1, hS2⟩ := hS
  obtain ⟨hn1, hn2⟩ := divRoundEven_near (a * 2 ^ K) b hb
  have hm53 : divRoundEven (a * 2 ^ K) b ≤ 2 ^ 53 := by
    by_contra hcon
    have h1 : (2 ^ 53 + 1) * b ≤ divRoundEven (a * 2 ^ K) b * b :=
      Nat.mul_le_mul_right _ (by omega)
    have c1 : (2 ^ 53 + 1) * b = b * 2 ^ 53 + b := by ring
    omega
  have hm52 : 2 ^ 52 ≤ divRoundEven (a * 2 ^ K) b := by
    by_contra hcon
    have h1 : (divRoundEven (a * 2 ^ K) b + 1) * b ≤ 2 ^ 52 * b :=
      Nat.mul_le_mul_right _ (by omega)
    have c1 : (divRoundEven (a * 2 ^ K) b + 1) * b = divRoundEven (a * 2 ^ K) b * b + b := by
      ring
    have c2 : 2 ^ 52 * b = b * 2 ^ 52 := by ring
    omega
  have hover : ¬ 1024 ≤ floorLog2 (divRoundEven (a * 2 ^ K) b) := by
    have := floorLog2_lt (k := 54) (show 1 ≤ divRoundEven (a * 2 ^ K) b by
      have : 0 < 2 ^ 52 := Nat.two_pow_pos 52
      omega) (by
      have : (2 : Nat) ^ 54 = 2 * 2 ^ 53 := by rw [show 54 = 53 + 1 by rfl, pow_succ]; ring
      have : 0 < 2 ^ 53 := Nat.two_pow_pos 53
      omega)
    omega
  have hKle : K ≤ 253 := by omega
  refine ⟨K, divRoundEven (a * 2 ^ K) b, ?_, hKle, hm52, hm53, hS1, hS2, hn1, hn2⟩
  unfold roundRatio
  have ha0 : a ≠ 0 := by omega
  simp only [ha0, if_false, hulp, eK, e0, pow_zero, Nat.mul_one, hover, Bool.false_eq_true,
    Int.mul_one]

/-! ## Doubles in lowest terms -/

theorem mathFloor_reduceDyadic (K : Nat) (m : Int) :
    mathFloor (reduceDyadic K m) = .int (m / 2 ^ K) := by
  induction K generalizing m with
  | zero => simp [reduceDyadic, mathFloor]
  | succ K ih =>
    unfold reduceDyadic
    split
    · next heven =>
      obtain ⟨q, hq⟩ : ∃ q, m = 2 * q := ⟨m / 2, by omega⟩
      rw [ih, hq, Int.mul_ediv_cancel_left _ (by decide), pow_succ, Int.mul_comm (2 ^ K) 2,
        Int.mul_ediv_mul_of_pos _ _ (by decide)]
    · rfl

theorem reduceDyadic_even (K m : Nat) (h : m % 2 = 0) :
    reduceDyadic (K + 1) (m : Int) = reduceDyadic K ((m / 2 : Nat) : Int) := by
  have h2 : (m : Int) % 2 = 0 := by omega
  rw [reduceDyadic, if_pos h2]
  congr 1

theorem reduceDyadic_odd (K m : Nat) (h : ¬ m % 2 = 0) :
    reduceDyadic (K + 1) (m : Int) = .finite (m : Int) (K + 1) := by
  have h2 : ¬ (m : Int) % 2 = 0 := by omega
  rw [reduceDyadic, if_neg h2]

/-- The integer part of a remainder: `Math.floor(x % c)` for `x = m / 2 ^ K ≥ 0`. -/
theorem mathFloor_jsMod_reduceDyadic (K m c : Nat) :
    mathFloor (jsMod (reduceDyadic K (m : Int)) c) = .int ((m / 2 ^ K % c : Nat) : Int) := by
  induction K generalizing m with
  | zero =>
    simp only [reduceDyadic, jsMod, mathFloor, pow_zero, Nat.div_one, Int.ediv_one, mul_one]
    rw [Int.tmod_eq_emod (by omega) (by omega)]
    norm_cast
  | succ K ih =>
    by_cases h : m % 2 = 0
    · rw [reduceDyadic_even K m h, ih, Nat.div_div_eq_div_mul, pow_succ]
      congr 4
      ring
    · rw [reduceDyadic_odd K m h]
      simp only [jsMod, mathFloor_reduceDyadic]
      rw [Int.tmod_eq_emod (by omega) (by positivity)]
      have e : ((m : Int) % ((c : Int) * 2 ^ (K + 1))) / 2 ^ (K + 1) =
          (((m % (c * 2 ^ (K + 1))) / 2 ^ (K + 1) : Nat) : Int) := by
        push_cast
        rfl
      rw [e, Nat.mod_mul_left_div_self]

/-- The function `Math.round` at `m / 2 ^ K`. -/
theorem mathRound_reduceDyadic (K m : Nat) :
    mathRound (reduceDyadic K (m : Int)) = .int (((2 * m + 2 ^ K) / 2 ^ (K + 1) : Nat) : Int) := by
  induction K generalizing m with
  | zero =>
    simp only [reduceDyadic, mathRound]
    push_cast
    rfl
  | succ K ih =>
    by_cases h : m % 2 = 0
    · rw [reduceDyadic_even K m h, ih]
      congr 2
      have hm : m = 2 * (m / 2) := by omega
      have e : 2 * m + 2 ^ (K + 1) = 2 * (2 * (m / 2) + 2 ^ K) := by
        rw [pow_succ]
        omega
      rw [e, show 2 ^ (K + 1 + 1) = 2 * 2 ^ (K + 1) by rw [pow_succ _ (K + 1)]; ring,
        Nat.mul_div_mul_left _ _ (by decide)]
    · rw [reduceDyadic_odd K m h]
      simp only [mathRound]
      push_cast
      rfl

/-- A double `m / 2 ^ K ≥ 0` in lowest terms. -/
theorem reduceDyadic_finite (K m : Nat) :
    ∃ n s : Nat, reduceDyadic K (m : Int) = .finite (n : Int) s ∧ n * 2 ^ K = m * 2 ^ s ∧
      s ≤ K := by
  induction K generalizing m with
  | zero => exact ⟨m, 0, rfl, rfl, le_refl _⟩
  | succ K ih =>
    by_cases h : m % 2 = 0
    · obtain ⟨n, s, h1, h2, h3⟩ := ih (m / 2)
      refine ⟨n, s, by rw [reduceDyadic_even K m h, h1], ?_, by omega⟩
      have hm : m = 2 * (m / 2) := by omega
      rw [pow_succ, ← Nat.mul_assoc, h2]
      calc m / 2 * 2 ^ s * 2 = 2 * (m / 2) * 2 ^ s := by ring
        _ = m * 2 ^ s := by rw [← hm]
    · exact ⟨m, K + 1, reduceDyadic_odd K m h, rfl, le_refl _⟩

/-! ## Integer parts of quotients -/

/-- The integer part of the double `a / b` is the integer part of the quotient, for `a` below
`2 ^ 53`; and so is the integer part of its remainder by `c`. -/
theorem mathFloor_jsDiv (a b : Nat) (hb : 1 ≤ b) (hb2 : b < 2 ^ 200) (ha : a < 2 ^ 53) :
    mathFloor (jsDiv (.int (a : Int)) (.int (b : Int))) = .int ((a / b : Nat) : Int) ∧
    ∀ c : Nat, mathFloor (jsMod (jsDiv (.int (a : Int)) (.int (b : Int))) c) =
      .int ((a / b % c : Nat) : Int) := by
  have hb0 : ¬ ((b : Int) = 0) := by omega
  have hsign : (decide ((a : Int) < 0) != decide ((b : Int) < 0)) = false := by
    have h1 : ¬ ((a : Int) < 0) := by omega
    have h2 : ¬ ((b : Int) < 0) := by omega
    simp [h1, h2]
  have hdiv : jsDiv (.int (a : Int)) (.int (b : Int)) = roundRatio false a b := by
    simp only [jsDiv, hb0, if_false, hsign, Int.natAbs_ofNat]
  rw [hdiv]
  by_cases ha0 : a = 0
  · subst ha0
    have hz : roundRatio false 0 b = reduceDyadic 0 ((0 : Nat) : Int) := by
      simp [roundRatio, reduceDyadic]
    rw [hz]
    refine ⟨by rw [mathFloor_reduceDyadic]; simp, fun c => ?_⟩
    rw [mathFloor_jsMod_reduceDyadic]
    simp
  · have hab : a < 2 ^ 53 * b := by
      calc a < 2 ^ 53 := ha
        _ = 2 ^ 53 * 1 := (Nat.mul_one _).symm
        _ ≤ 2 ^ 53 * b := Nat.mul_le_mul_left _ hb
    obtain ⟨K, m, hr, _, _, _, hS1, _, hn1, hn2⟩ := roundRatio_spec a b (by omega) hb hb2 hab
    have hP : 0 < 2 ^ K := Nat.two_pow_pos K
    have hbK : b < 2 * 2 ^ K := by
      have h1 : a * 2 ^ K ≤ (2 ^ 53 - 1) * 2 ^ K := Nat.mul_le_mul_right _ (by omega)
      have c1 : (2 ^ 53 - 1) * 2 ^ K = 9007199254740991 * 2 ^ K := by norm_num
      have c2 : b * 2 ^ 52 = 4503599627370496 * b := by norm_num [Nat.mul_comm]
      omega
    have hq1 : a / b * b ≤ a := Nat.div_mul_le_self a b
    have hq2 : a < (a / b + 1) * b := by
      have := Nat.div_add_mod a b
      have := Nat.mod_lt a hb
      have c : (a / b + 1) * b = b * (a / b) + b := by ring
      omega
    have hlow : a / b * 2 ^ K ≤ m := by
      by_contra hcon
      have h1 : (m + 1) * b ≤ a / b * 2 ^ K * b := Nat.mul_le_mul_right _ (by omega)
      have h2 : a / b * b * 2 ^ K ≤ a * 2 ^ K := Nat.mul_le_mul_right _ hq1
      have c1 : a / b * 2 ^ K * b = a / b * b * 2 ^ K := by ring
      have c2 : (m + 1) * b = m * b + b := by ring
      omega
    have hhigh : m < (a / b + 1) * 2 ^ K := by
      by_contra hcon
      have h1 : (a / b + 1) * 2 ^ K * b ≤ m * b := Nat.mul_le_mul_right _ (by omega)
      have h2 : (a + 1) * 2 ^ K ≤ (a / b + 1) * b * 2 ^ K := Nat.mul_le_mul_right _ hq2
      have c1 : (a / b + 1) * 2 ^ K * b = (a / b + 1) * b * 2 ^ K := by ring
      have c2 : (a + 1) * 2 ^ K = a * 2 ^ K + 2 ^ K := by ring
      omega
    have hfloor : m / 2 ^ K = a / b :=
      Nat.div_eq_of_lt_le (by rw [Nat.mul_comm] at hlow ⊢; exact (Nat.mul_comm _ _ ▸ hlow))
        (by exact hhigh)
    rw [hr]
    refine ⟨?_, fun c => ?_⟩
    · rw [mathFloor_reduceDyadic, ← hfloor]
      norm_cast
    · rw [mathFloor_jsMod_reduceDyadic, hfloor]

/-! ## The text of small numbers -/

theorem shortestDecimalAux_ok (x fuel digits : Nat) :
    shortestDecimalAux x fuel digits = x ∨
      toNumber ((shortestDecimalAux x fuel digits : Nat) : Int) = .int (x : Int) := by
  induction fuel generalizing digits with
  | zero => exact Or.inl rfl
  | succ fuel ih =>
    unfold shortestDecimalAux
    simp only []
    split
    · next h =>
      simp only [Bool.and_eq_true, decide_eq_true_eq] at h
      split
      · exact Or.inr h.1
      · split
        · exact Or.inr h.2
        · split
          · exact Or.inr h.1
          · exact Or.inr h.2
    · split
      · next h =>
        simp only [decide_eq_true_eq] at h
        exact Or.inr h
      · split
        · next h =>
          simp only [decide_eq_true_eq] at h
          exact Or.inr h
        · exact ih _

/-- Below `2 ^ 52` the shortest numeral of a double is the numeral of its value. -/
theorem shortestDecimal_small (x : Nat) (hx : x < 2 ^ 52) : shortestDecimal x = x := by
  unfold shortestDecimal
  rcases shortestDecimalAux_ok x (decimalLength x) 1 with h | h
  · exact h
  · by_cases hr : shortestDecimalAux x (decimalLength x) 1 ≤ 2 ^ 53
    · rw [toNumber_natCast _ hr] at h
      simp only [JSNumber.int.injEq] at h
      exact_mod_cast h
    · rcases toNumber_large _ (Nat.lt_of_not_le hr) with e | ⟨v, hv, e⟩
      · rw [e] at h
        exact absurd h (by simp)
      · rw [e] at h
        simp only [JSNumber.int.injEq] at h
        omega

theorem toDigitsCore_length (fuel n d : Nat) (acc : List Char) (h : n < fuel)
    (hd : n < 10 ^ (d + 1)) : (Nat.toDigitsCore 10 fuel n acc).length ≤ d + 1 + acc.length := by
  induction fuel generalizing n d acc with
  | zero => exact absurd h (Nat.not_lt_zero _)
  | succ fuel ih =>
    by_cases h0 : n / 10 = 0
    · simp [Nat.toDigitsCore, h0]
      omega
    · cases d with
      | zero =>
        exfalso
        apply h0
        simp only [zero_add, pow_one] at hd
        omega
      | succ d =>
        have hlt : n / 10 < fuel := by omega
        have hd2 : n / 10 < 10 ^ (d + 1) := by
          rw [pow_succ] at hd
          omega
        have := ih (n / 10) d (Nat.digitChar (n % 10) :: acc) hlt hd2
        simp only [Nat.toDigitsCore, h0, if_false]
        simp only [List.length_cons] at this
        omega

/-- The text of a natural number below `2 ^ 52` is its decimal numeral. -/
theorem numberToString_small (k : Nat) (hk : k < 2 ^ 52) :
    numberToString (.int (k : Int)) = Nat.toDigits 10 k := by
  have hneg : ¬ ((k : Int) < 0) := by omega
  simp only [numberToString, hneg, if_false, Int.natAbs_ofNat, naturalToString]
  split
  · next h0 =>
    rw [h0]
    rfl
  · rw [shortestDecimal_small k hk]
    have hlen : (Nat.toDigits 10 k).length ≤ 21 := by
      have := toDigitsCore_length (k + 1) k 20 [] (Nat.lt_succ_self k) (by
        have : (2 : Nat) ^ 52 < 10 ^ (20 + 1) := by norm_num
        omega)
      simpa [Nat.toDigits] using this
    simp only [hlen, if_true]

/-! ## C14: the time parser reads what `formatTime` writes -/

theorem isDecimal_zero_cons {ds : JSString} {n : Nat} (h : IsDecimal ds n) :
    IsDecimal ('0' :: ds) n := by
  obtain ⟨_, hd, hv⟩ := h
  refine ⟨by simp, ?_, ?_⟩
  · intro c hc
    rcases List.mem_cons.mp hc with e | e
    · rw [e]
      decide
    · exact hd c e
  · rw [← hv]
    simp [decValue]

/-- The text `formatTime` writes for `n` whole seconds. -/
theorem formatTime_seconds (n : Nat) (hn : n * 1000 ≤ 2 ^ 53) :
    formatTime (jsMul (toNumber (n : Int)) 1000) =
      (if n / 3600 > 0 then Nat.toDigits 10 (n / 3600) ++ [':'] else []) ++
        (Nat.toDigits 10 (n / 60 % 60) ++
          (':' :: ((if n % 60 < 10 then ['0'] else []) ++ Nat.toDigits 10 (n % 60)))) := by
  have h53 : (2 : Nat) ^ 53 = 9007199254740992 := by norm_num
  have h52 : (2 : Nat) ^ 52 = 4503599627370496 := by norm_num
  have hms : jsMul (toNumber (n : Int)) 1000 = .int ((n * 1000 : Nat) : Int) := by
    rw [toNumber_natCast n (by omega)]
    exact jsMul_nat n 1000 hn
  have hb : (1000 : Nat) < 2 ^ 200 := by
    calc (1000 : Nat) < 2 ^ 10 := by norm_num
      _ ≤ 2 ^ 200 := Nat.pow_le_pow_right (by decide) (by decide)
  have hb2 : (60000 : Nat) < 2 ^ 200 := by
    calc (60000 : Nat) < 2 ^ 16 := by norm_num
      _ ≤ 2 ^ 200 := Nat.pow_le_pow_right (by decide) (by decide)
  have hb3 : (3600000 : Nat) < 2 ^ 200 := by
    calc (3600000 : Nat) < 2 ^ 22 := by norm_num
      _ ≤ 2 ^ 200 := Nat.pow_le_pow_right (by decide) (by decide)
  have hlt : n * 1000 < 2 ^ 53 := by omega
  have hs := (mathFloor_jsDiv (n * 1000) 1000 (by decide) hb hlt).2 60
  have hm := (mathFloor_jsDiv (n * 1000) 60000 (by decide) hb2 hlt).2 60
  have hh := (mathFloor_jsDiv (n * 1000) 3600000 (by decide) hb3 hlt).1
  have c1 : (1000 : JSNumber) = .int ((1000 : Nat) : Int) := rfl
  have c2 : jsMul (1000 : JSNumber) 60 = .int ((60000 : Nat) : Int) := by decide
  have c3 : jsMul (.int ((60000 : Nat) : Int)) 60 = .int ((3600000 : Nat) : Int) := by decide
  have e1 : n * 1000 / 1000 % 60 = n % 60 := by omega
  have e2 : n * 1000 / 60000 % 60 = n / 60 % 60 := by omega
  have e3 : n * 1000 / 3600000 = n / 3600 := by omega
  rw [e1] at hs
  rw [e2] at hm
  rw [e3] at hh
  unfold formatTime
  simp only [hms, c2, c3]
  rw [c1, hs, hm, hh]
  rw [numberToString_small (n % 60) (by omega), numberToString_small (n / 60 % 60) (by omega),
    numberToString_small (n / 3600) (by omega)]
  have g1 : jsLt 0 (.int ((n / 3600 : Nat) : Int)) = decide (n / 3600 > 0) := by
    show decide (((0 : Nat) : Int) < ((n / 3600 : Nat) : Int)) = decide (0 < n / 3600)
    simp only [Nat.cast_lt]
  have g2 : jsLt (.int ((n % 60 : Nat) : Int)) 10 = decide (n % 60 < 10) := by
    show decide (((n % 60 : Nat) : Int) < ((10 : Nat) : Int)) = decide (n % 60 < 10)
    simp only [Nat.cast_lt]
  simp only [g1, g2, decide_eq_true_eq]

/-- C14, as the code has it: the numbers are doubles, and `72057594037929 * 1000` is the double
`72057594037928992`; `formatTime` writes it as `20015998343:52:08`, which the time parser reads
as `72057594037928` seconds, one less than `n`. -/
theorem formatTime_round_trip_fails :
    jsMul (toNumber 72057594037929) 1000 = .int 72057594037928992 ∧
    formatTime (jsMul (toNumber 72057594037929) 1000) = "20015998343:52:08".toList ∧
    parseSeekTime (formatTime (jsMul (toNumber 72057594037929) 1000)) = .int 72057594037928 := by
  decide

/-- C14, amended: for every natural number `n` of seconds whose milliseconds `n * 1000` are at
most `2 ^ 53`, `formatTime(n * 1000)` is `M:SS` below one hour and `H:M:SS` from one hour on
(hours and minutes in decimal without padding, seconds padded to two digits), and the time
parser of `seek` reads that text as `n` seconds. -/
theorem parseSeekTime_formatTime (n : Nat) (hn : n * 1000 ≤ 2 ^ 53) :
    (n < 3600 →
      formatTime (jsMul (toNumber (n : Int)) 1000) =
        Nat.toDigits 10 (n / 60) ++
          (':' :: ((if n % 60 < 10 then ['0'] else []) ++ Nat.toDigits 10 (n % 60)))) ∧
    (3600 ≤ n →
      formatTime (jsMul (toNumber (n : Int)) 1000) =
        Nat.toDigits 10 (n / 3600) ++
          (':' :: (Nat.toDigits 10 (n / 60 % 60) ++
            (':' :: ((if n % 60 < 10 then ['0'] else []) ++ Nat.toDigits 10 (n % 60)))))) ∧
    parseSeekTime (formatTime (jsMul (toNumber (n : Int)) 1000)) = .int (n : Int) := by
  have h53 : (2 : Nat) ^ 53 = 9007199254740992 := by norm_num
  have hm := isDecimal_toDigits (n / 60 % 60)
  have hs : IsDecimal ((if n % 60 < 10 then ['0'] else []) ++ Nat.toDigits 10 (n % 60))
      (n % 60) := by
    split
    · exact isDecimal_zero_cons (isDecimal_toDigits _)
    · exact isDecimal_toDigits _
  have hlong : 3600 ≤ n →
      formatTime (jsMul (toNumber (n : Int)) 1000) =
        Nat.toDigits 10 (n / 3600) ++
          (':' :: (Nat.toDigits 10 (n / 60 % 60) ++
            (':' :: ((if n % 60 < 10 then ['0'] else []) ++ Nat.toDigits 10 (n % 60))))) := by
    intro h
    have hh : n / 3600 > 0 := by omega
    rw [formatTime_seconds n hn, if_pos hh]
    simp
  have hshort : n < 3600 →
      formatTime (jsMul (toNumber (n : Int)) 1000) =
        Nat.toDigits 10 (n / 60) ++
          (':' :: ((if n % 60 < 10 then ['0'] else []) ++ Nat.toDigits 10 (n % 60))) := by
    intro h
    have hh : ¬ n / 3600 > 0 := by omega
    have e : n / 60 % 60 = n / 60 := by omega
    rw [formatTime_seconds n hn, if_neg hh, List.nil_append, e]
  refine ⟨hshort, hlong, ?_⟩
  by_cases h : 3600 ≤ n
  · rw [hlong h, parseSeekTime_hms (isDecimal_toDigits _) hm hs (by omega)]
    congr 2
    omega
  · have e : n / 60 % 60 = n / 60 := by omega
    rw [hshort (by omega), ← e, parseSeekTime_ms hm hs (by omega)]
    congr 2
    omega

/-- C14, witness: `formatTime` writes 3725 s as `1:2:05` and 125 s as `2:05`, and the time
parser reads them back. -/
theorem parseSeekTime_formatTime_witness :
    formatTime (jsMul (toNumber 3725) 1000) = "1:2:05".toList ∧
    parseSeekTime (formatTime (jsMul (toNumber 3725) 1000)) = .int 3725 ∧
    formatTime (jsMul (toNumber 125) 1000) = "2:05".toList ∧
    parseSeekTime (formatTime (jsMul (toNumber 125) 1000)) = .int 125 :=
  have h := parseSeekTime_formatTime 3725 (by decide)
  have k := parseSeekTime_formatTime 125 (by decide)
  ⟨(h.2.1 (by decide)).trans (by decide), h.2.2, (k.1 (by decide)).trans (by decide), k.2.2⟩

/-! ## The rounded product of the progress bar -/

/-- The error analysis of `Math.round(L * (c / t))` over the rationals: `X` is `c / t`, `P` its
double with unit `u`, `Y` the double of `L * P` with unit `v`, and `p` the rounded `Y`. -/
theorem progress_core (t L X P Y u v p : ℚ) (ht : 1 ≤ t) (hL : 0 ≤ L) (hLt : t * L ≤ 2 ^ 50)
    (hX : X ≤ 1) (h1 : P ≤ X + u / 2) (h2 : X ≤ P + u / 2) (h3 : u * 2 ^ 52 ≤ X)
    (h4 : Y ≤ L * P + v / 2) (h5 : L * P ≤ Y + v / 2) (h6 : v * 2 ^ 52 ≤ L * P)
    (h7 : p ≤ Y + 1 / 2) (h8 : Y + 1 / 2 < p + 1) :
    2 * p * t < 2 * L * (X * t) + t + 1 ∧ 2 * L * (X * t) < 2 * p * t + t + 1 := by
  have ht0 : 0 ≤ t := by linarith
  have htL : 0 ≤ t * L := mul_nonneg ht0 hL
  have a1 : t * p ≤ t * (Y + 1 / 2) := mul_le_mul_of_nonneg_left h7 ht0
  have a2 : t * (Y + 1 / 2) < t * (p + 1) := mul_lt_mul_of_pos_left h8 (by linarith)
  have b1 : t * Y ≤ t * (L * P + v / 2) := mul_le_mul_of_nonneg_left h4 ht0
  have b2 : t * (L * P) ≤ t * (Y + v / 2) := mul_le_mul_of_nonneg_left h5 ht0
  have c1 : t * L * P ≤ t * L * (X + u / 2) := mul_le_mul_of_nonneg_left h1 htL
  have c2 : t * L * X ≤ t * L * (P + u / 2) := mul_le_mul_of_nonneg_left h2 htL
  have d1 : t * L * (u * 2 ^ 52) ≤ t * L * X := mul_le_mul_of_nonneg_left h3 htL
  have e1 : t * L * X ≤ t * L * 1 := mul_le_mul_of_nonneg_left hX htL
  have f1 : t * (v * 2 ^ 52) ≤ t * (L * P) := mul_le_mul_of_nonneg_left h6 ht0
  have k52 : (2 : ℚ) ^ 52 = 4503599627370496 := by norm_num
  have k50 : (2 : ℚ) ^ 50 = 1125899906842624 := by norm_num
  rw [k52] at d1 f1
  rw [k50] at hLt
  constructor <;> linarith [a1, a2, b1, b2, c1, c2, d1, e1, f1, hLt]

/-- The constant `progress` of `createProgressBar` for a position inside the track, when
`(length + 1) * total ≤ 2 ^ 50`: it is a natural number `p` within one half of
`length * current / total`. -/
theorem progressOf_near (c t L : Nat) (ht : 1 ≤ t) (hc : c ≤ t) (hb : (L + 1) * t ≤ 2 ^ 50) :
    ∃ p : Nat, progressOf (.int (c : Int)) (.int (t : Int)) (.int (L : Int)) = .int (p : Int) ∧
      2 * (p * t) ≤ 2 * (L * c) + t ∧ 2 * (L * c) ≤ 2 * (p * t) + t := by
  have k50 : (2 : Nat) ^ 50 = 1125899906842624 := by norm_num
  have k53 : (2 : Nat) ^ 53 = 9007199254740992 := by norm_num
  have hLt : L * t + t ≤ 2 ^ 50 := by
    have : (L + 1) * t = L * t + t := by ring
    omega
  have ht50 : t ≤ 2 ^ 50 := by omega
  have hL50 : L < 2 ^ 50 := by
    have : L * 1 ≤ L * t := Nat.mul_le_mul_left _ ht
    omega
  have ht200 : t < 2 ^ 200 := by
    calc t < 2 ^ 51 := by
          rw [show (2 : Nat) ^ 51 = 2 * 2 ^ 50 by rw [pow_succ]; ring]
          omega
      _ ≤ 2 ^ 200 := Nat.pow_le_pow_right (by decide) (by decide)
  have ht0 : ¬ ((t : Int) = 0) := by omega
  have hsign : (decide ((c : Int) < 0) != decide ((t : Int) < 0)) = false := by
    have h1 : ¬ ((c : Int) < 0) := by omega
    have h2 : ¬ ((t : Int) < 0) := by omega
    simp [h1, h2]
  have hdiv : jsDiv (.int (c : Int)) (.int (t : Int)) = roundRatio false c t := by
    simp only [jsDiv, ht0, if_false, hsign, Int.natAbs_ofNat]
  have hscale : ∀ n s : Nat, jsScale (.int (L : Int)) (.finite (n : Int) s) =
      roundRatio false (L * n) (2 ^ s) := by
    intro n s
    have h1 : ¬ ((L : Int) < 0) := by omega
    have h2 : ¬ ((n : Int) < 0) := by omega
    simp [jsScale, h1, h2]
  have hzero : ∀ d : Nat, mathRound (roundRatio false 0 d) = .int ((0 : Nat) : Int) := by
    intro d
    simp [roundRatio, mathRound]
  unfold progressOf
  rw [hdiv]
  by_cases hc0 : c = 0
  · subst hc0
    refine ⟨0, ?_, by omega, by omega⟩
    have hz : roundRatio false 0 t = .finite ((0 : Nat) : Int) 0 := by simp [roundRatio]
    rw [hz, hscale 0 0, Nat.mul_zero]
    exact hzero _
  · have hab : c < 2 ^ 53 * t := by
      have : 2 ^ 53 * 1 ≤ 2 ^ 53 * t := Nat.mul_le_mul_left _ ht
      omega
    obtain ⟨K1, m1, hr1, _, hm1, _, hS1, hU1, hN1a, hN1b⟩ :=
      roundRatio_spec c t (by omega) ht ht200 hab
    obtain ⟨n, s, hfin, hns, hsK⟩ := reduceDyadic_finite K1 m1
    rw [hr1, hfin, hscale n s]
    by_cases hL0 : L = 0
    · subst hL0
      refine ⟨0, ?_, by omega, by omega⟩
      rw [Nat.zero_mul]
      exact hzero _
    · have hD1 : 0 < 2 ^ K1 := Nat.two_pow_pos K1
      have hS0 : 0 < 2 ^ s := Nat.two_pow_pos s
      have hm1K : m1 ≤ 2 ^ K1 := by
        by_contra hcon
        have h1 : (2 ^ K1 + 1) * t ≤ m1 * t := Nat.mul_le_mul_right _ (by omega)
        have h2 : c * 2 ^ K1 ≤ t * 2 ^ K1 := Nat.mul_le_mul_right _ hc
        have c1 : (2 ^ K1 + 1) * t = t * 2 ^ K1 + t := by ring
        omega
      have hnS : n ≤ 2 ^ s := by
        have h1 : m1 * 2 ^ s ≤ 2 ^ K1 * 2 ^ s := Nat.mul_le_mul_right _ hm1K
        have h2 : n * 2 ^ K1 ≤ 2 ^ s * 2 ^ K1 := by
          rw [hns, Nat.mul_comm (2 ^ s)]
          exact h1
        exact Nat.le_of_mul_le_mul_right h2 hD1
      have hn1 : 1 ≤ n := by
        by_contra hcon
        have hn0 : n = 0 := by omega
        rw [hn0, Nat.zero_mul] at hns
        have : 0 < m1 * 2 ^ s := Nat.mul_pos (by
          have : 0 < 2 ^ 52 := Nat.two_pow_pos 52
          omega) hS0
        omega
      have hK1lt : 2 ^ K1 < 2 ^ 103 := by
        have h1 : 1 * 2 ^ K1 ≤ c * 2 ^ K1 := Nat.mul_le_mul_right _ (by omega)
        have h2 : t * 2 ^ 53 ≤ 2 ^ 50 * 2 ^ 53 := Nat.mul_le_mul_right _ ht50
        have c1 : (2 : Nat) ^ 103 = 2 ^ 50 * 2 ^ 53 := by rw [← pow_add]
        omega
      have hs200 : 2 ^ s < 2 ^ 200 := by
        calc 2 ^ s ≤ 2 ^ K1 := Nat.pow_le_pow_right (by decide) hsK
          _ < 2 ^ 103 := hK1lt
          _ ≤ 2 ^ 200 := Nat.pow_le_pow_right (by decide) (by decide)
      have hab2 : L * n < 2 ^ 53 * 2 ^ s := by
        have h1 : L * n ≤ L * 2 ^ s := Nat.mul_le_mul_left _ hnS
        have h2 : (L + 1) * 2 ^ s ≤ 2 ^ 53 * 2 ^ s := Nat.mul_le_mul_right _ (by omega)
        have c1 : (L + 1) * 2 ^ s = L * 2 ^ s + 2 ^ s := by ring
        omega
      obtain ⟨K2, m2, hr2, _, _, _, hS2, _, hN2a, hN2b⟩ :=
        roundRatio_spec (L * n) (2 ^ s) (Nat.mul_pos (by omega) hn1) hS0 hs200 hab2
      rw [hr2, mathRound_reduceDyadic]
      have hD2 : 0 < 2 ^ K2 := Nat.two_pow_pos K2
      have hD2s : 0 < 2 ^ (K2 + 1) := Nat.two_pow_pos _
      have hp1 : (2 * m2 + 2 ^ K2) / 2 ^ (K2 + 1) * 2 ^ (K2 + 1) ≤ 2 * m2 + 2 ^ K2 :=
        Nat.div_mul_le_self _ _
      have hp2 : 2 * m2 + 2 ^ K2 < ((2 * m2 + 2 ^ K2) / 2 ^ (K2 + 1) + 1) * 2 ^ (K2 + 1) := by
        have := Nat.div_add_mod (2 * m2 + 2 ^ K2) (2 ^ (K2 + 1))
        have := Nat.mod_lt (2 * m2 + 2 ^ K2) hD2s
        have c : ((2 * m2 + 2 ^ K2) / 2 ^ (K2 + 1) + 1) * 2 ^ (K2 + 1) =
            2 ^ (K2 + 1) * ((2 * m2 + 2 ^ K2) / 2 ^ (K2 + 1)) + 2 ^ (K2 + 1) := by ring
        omega
      generalize (2 * m2 + 2 ^ K2) / 2 ^ (K2 + 1) = p at hp1 hp2 ⊢
      refine ⟨p, rfl, ?_⟩
      -- the same facts over the rationals
      have qt : (0 : ℚ) < (t : ℚ) := by exact_mod_cast ht
      have qD1 : (0 : ℚ) < (2 : ℚ) ^ K1 := by positivity
      have qD2 : (0 : ℚ) < (2 : ℚ) ^ K2 := by positivity
      have qS : (0 : ℚ) < (2 : ℚ) ^ s := by positivity
      have hX : (c : ℚ) / t * t = c := div_mul_cancel₀ _ (ne_of_gt qt)
      have hP : (m1 : ℚ) / 2 ^ K1 * 2 ^ K1 = m1 := div_mul_cancel₀ _ (ne_of_gt qD1)
      have hY : (m2 : ℚ) / 2 ^ K2 * 2 ^ K2 = m2 := div_mul_cancel₀ _ (ne_of_gt qD2)
      have hu : (1 : ℚ) / 2 ^ K1 * 2 ^ K1 = 1 := div_mul_cancel₀ _ (ne_of_gt qD1)
      have hv : (1 : ℚ) / 2 ^ K2 * 2 ^ K2 = 1 := div_mul_cancel₀ _ (ne_of_gt qD2)
      have hPS : (m1 : ℚ) / 2 ^ K1 * 2 ^ s = n := by
        have hq : (n : ℚ) * 2 ^ K1 = m1 * 2 ^ s := by exact_mod_cast hns
        have : (m1 : ℚ) / 2 ^ K1 * 2 ^ s * 2 ^ K1 = n * 2 ^ K1 := by
          rw [hq]
          calc (m1 : ℚ) / 2 ^ K1 * 2 ^ s * 2 ^ K1 = ((m1 : ℚ) / 2 ^ K1 * 2 ^ K1) * 2 ^ s := by ring
            _ = m1 * 2 ^ s := by rw [hP]
        exact mul_right_cancel₀ (ne_of_gt qD1) this
      have qN1a : 2 * ((m1 : ℚ) * t) ≤ 2 * ((c : ℚ) * 2 ^ K1) + t := by exact_mod_cast hN1a
      have qN1b : 2 * ((c : ℚ) * 2 ^ K1) ≤ 2 * ((m1 : ℚ) * t) + t := by exact_mod_cast hN1b
      have qS1 : (t : ℚ) * 2 ^ 52 ≤ (c : ℚ) * 2 ^ K1 := by exact_mod_cast hS1
      have qN2a : 2 * ((m2 : ℚ) * 2 ^ s) ≤ 2 * (((L : ℚ) * n) * 2 ^ K2) + 2 ^ s := by
        exact_mod_cast hN2a
      have qN2b : 2 * (((L : ℚ) * n) * 2 ^ K2) ≤ 2 * ((m2 : ℚ) * 2 ^ s) + 2 ^ s := by
        exact_mod_cast hN2b
      have qS2 : (2 : ℚ) ^ s * 2 ^ 52 ≤ ((L : ℚ) * n) * 2 ^ K2 := by exact_mod_cast hS2
      have qp1 : (p : ℚ) * (2 * 2 ^ K2) ≤ 2 * m2 + 2 ^ K2 := by
        have : p * (2 * 2 ^ K2) ≤ 2 * m2 + 2 ^ K2 := by
          rw [pow_succ] at hp1
          rw [Nat.mul_comm 2 (2 ^ K2)]
          exact hp1
        exact_mod_cast this
      have qp2 : 2 * (m2 : ℚ) + 2 ^ K2 < ((p : ℚ) + 1) * (2 * 2 ^ K2) := by
        have : 2 * m2 + 2 ^ K2 < (p + 1) * (2 * 2 ^ K2) := by
          rw [pow_succ] at hp2
          rw [Nat.mul_comm 2 (2 ^ K2)]
          exact hp2
        exact_mod_cast this
      have g1 : (m1 : ℚ) / 2 ^ K1 ≤ (c : ℚ) / t + 1 / 2 ^ K1 / 2 := by
        refine le_of_mul_le_mul_right ?_ (mul_pos (mul_pos (by norm_num : (0 : ℚ) < 2) qD1) qt)
        calc (m1 : ℚ) / 2 ^ K1 * (2 * 2 ^ K1 * t) = 2 * (((m1 : ℚ) / 2 ^ K1 * 2 ^ K1) * t) := by
              ring
          _ = 2 * ((m1 : ℚ) * t) := by rw [hP]
          _ ≤ 2 * ((c : ℚ) * 2 ^ K1) + t := qN1a
          _ = 2 * (((c : ℚ) / t * t) * 2 ^ K1) + (1 / 2 ^ K1 * 2 ^ K1) * t := by
              rw [hX, hu, one_mul]
          _ = ((c : ℚ) / t + 1 / 2 ^ K1 / 2) * (2 * 2 ^ K1 * t) := by ring
      have g2 : (c : ℚ) / t ≤ (m1 : ℚ) / 2 ^ K1 + 1 / 2 ^ K1 / 2 := by
        refine le_of_mul_le_mul_right ?_ (mul_pos (mul_pos (by norm_num : (0 : ℚ) < 2) qD1) qt)
        calc (c : ℚ) / t * (2 * 2 ^ K1 * t) = 2 * (((c : ℚ) / t * t) * 2 ^ K1) := by ring
          _ = 2 * ((c : ℚ) * 2 ^ K1) := by rw [hX]
          _ ≤ 2 * ((m1 : ℚ) * t) + t := qN1b
          _ = 2 * (((m1 : ℚ) / 2 ^ K1 * 2 ^ K1) * t) + (1 / 2 ^ K1 * 2 ^ K1) * t := by
              rw [hP, hu, one_mul]
          _ = ((m1 : ℚ) / 2 ^ K1 + 1 / 2 ^ K1 / 2) * (2 * 2 ^ K1 * t) := by ring
      have g3 : (1 : ℚ) / 2 ^ K1 * 2 ^ 52 ≤ (c : ℚ) / t := by
        refine le_of_mul_le_mul_right ?_ (mul_pos qD1 qt)
        calc (1 : ℚ) / 2 ^ K1 * 2 ^ 52 * (2 ^ K1 * t)
              = (1 / 2 ^ K1 * 2 ^ K1) * ((t : ℚ) * 2 ^ 52) := by ring
          _ = (t : ℚ) * 2 ^ 52 := by rw [hu, one_mul]
          _ ≤ (c : ℚ) * 2 ^ K1 := qS1
          _ = ((c : ℚ) / t * t) * 2 ^ K1 := by rw [hX]
          _ = (c : ℚ) / t * (2 ^ K1 * t) := by ring
      have g4 : (m2 : ℚ) / 2 ^ K2 ≤ (L : ℚ) * ((m1 : ℚ) / 2 ^ K1) + 1 / 2 ^ K2 / 2 := by
        refine le_of_mul_le_mul_right ?_ (mul_pos (mul_pos (by norm_num : (0 : ℚ) < 2) qD2) qS)
        calc (m2 : ℚ) / 2 ^ K2 * (2 * 2 ^ K2 * 2 ^ s)
              = 2 * (((m2 : ℚ) / 2 ^ K2 * 2 ^ K2) * 2 ^ s) := by ring
          _ = 2 * ((m2 : ℚ) * 2 ^ s) := by rw [hY]
          _ ≤ 2 * (((L : ℚ) * n) * 2 ^ K2) + 2 ^ s := qN2a
          _ = 2 * (((L : ℚ) * ((m1 : ℚ) / 2 ^ K1 * 2 ^ s)) * 2 ^ K2) +
                (1 / 2 ^ K2 * 2 ^ K2) * 2 ^ s := by rw [hPS, hv, one_mul]
          _ = ((L : ℚ) * ((m1 : ℚ) / 2 ^ K1) + 1 / 2 ^ K2 / 2) * (2 * 2 ^ K2 * 2 ^ s) := by ring
      have g5 : (L : ℚ) * ((m1 : ℚ) / 2 ^ K1) ≤ (m2 : ℚ) / 2 ^ K2 + 1 / 2 ^ K2 / 2 := by
        refine le_of_mul_le_mul_right ?_ (mul_pos (mul_pos (by norm_num : (0 : ℚ) < 2) qD2) qS)
        calc (L : ℚ) * ((m1 : ℚ) / 2 ^ K1) * (2 * 2 ^ K2 * 2 ^ s)
              = 2 * (((L : ℚ) * ((m1 : ℚ) / 2 ^ K1 * 2 ^ s)) * 2 ^ K2) := by ring
          _ = 2 * (((L : ℚ) * n) * 2 ^ K2) := by rw [hPS]
          _ ≤ 2 * ((m2 : ℚ) * 2 ^ s) + 2 ^ s := qN2b
          _ = 2 * (((m2 : ℚ) / 2 ^ K2 * 2 ^ K2) * 2 ^ s) + (1 / 2 ^ K2 * 2 ^ K2) * 2 ^ s := by
              rw [hY, hv, one_mul]
          _ = ((m2 : ℚ) / 2 ^ K2 + 1 / 2 ^ K2 / 2) * (2 * 2 ^ K2 * 2 ^ s) := by ring
      have g6 : (1 : ℚ) / 2 ^ K2 * 2 ^ 52 ≤ (L : ℚ) * ((m1 : ℚ) / 2 ^ K1) := by
        refine le_of_mul_le_mul_right ?_ (mul_pos qD2 qS)
        calc (1 : ℚ) / 2 ^ K2 * 2 ^ 52 * (2 ^ K2 * 2 ^ s)
              = (1 / 2 ^ K2 * 2 ^ K2) * ((2 : ℚ) ^ s * 2 ^ 52) := by ring
          _ = (2 : ℚ) ^ s * 2 ^ 52 := by rw [hv, one_mul]
          _ ≤ ((L : ℚ) * n) * 2 ^ K2 := qS2
          _ = ((L : ℚ) * ((m1 : ℚ) / 2 ^ K1 * 2 ^ s)) * 2 ^ K2 := by rw [hPS]
          _ = (L : ℚ) * ((m1 : ℚ) / 2 ^ K1) * (2 ^ K2 * 2 ^ s) := by ring
      have g7 : (p : ℚ) ≤ (m2 : ℚ) / 2 ^ K2 + 1 / 2 := by
        refine le_of_mul_le_mul_right ?_ (mul_pos (by norm_num : (0 : ℚ) < 2) qD2)
        calc (p : ℚ) * (2 * 2 ^ K2) ≤ 2 * m2 + 2 ^ K2 := qp1
          _ = 2 * ((m2 : ℚ) / 2 ^ K2 * 2 ^ K2) + 2 ^ K2 := by rw [hY]
          _ = ((m2 : ℚ) / 2 ^ K2 + 1 / 2) * (2 * 2 ^ K2) := by ring
      have g8 : (m2 : ℚ) / 2 ^ K2 + 1 / 2 < (p : ℚ) + 1 := by
        refine lt_of_mul_lt_mul_right ?_ (le_of_lt (mul_pos (by norm_num : (0 : ℚ) < 2) qD2))
        calc ((m2 : ℚ) / 2 ^ K2 + 1 / 2) * (2 * 2 ^ K2)
              = 2 * ((m2 : ℚ) / 2 ^ K2 * 2 ^ K2) + 2 ^ K2 := by ring
          _ = 2 * m2 + 2 ^ K2 := by rw [hY]
          _ < ((p : ℚ) + 1) * (2 * 2 ^ K2) := qp2
      have qX1 : (c : ℚ) / t ≤ 1 := by
        rw [div_le_one qt]
        exact_mod_cast hc
      have qLt : (t : ℚ) * L ≤ 2 ^ 50 := by
        have : t * L ≤ 2 ^ 50 := by
          rw [Nat.mul_comm]
          omega
        exact_mod_cast this
      obtain ⟨r1, r2⟩ := progress_core (t : ℚ) L ((c : ℚ) / t) ((m1 : ℚ) / 2 ^ K1)
        ((m2 : ℚ) / 2 ^ K2) (1 / 2 ^ K1) (1 / 2 ^ K2) p (by exact_mod_cast ht)
        (by positivity) qLt qX1 g1 g2 g3 g4 g5 g6 g7 g8
      rw [hX] at r1 r2
      have n1 : 2 * p * t < 2 * L * c + t + 1 := by exact_mod_cast r1
      have n2 : 2 * L * c < 2 * p * t + t + 1 := by exact_mod_cast r2
      have c1 : 2 * p * t = 2 * (p * t) := by ring
      have c2 : 2 * L * c = 2 * (L * c) := by ring
      omega

/-! ## C15: the progress bar -/

/-- The bar for a position inside the track, when `(length + 1) * total ≤ 2 ^ 50`. -/
theorem createProgressBar_inside (c t L : Nat) (ht : 1 ≤ t) (hc : c ≤ t)
    (hb : (L + 1) * t ≤ 2 ^ 50) :
    ∃ p : Nat, progressOf (toNumber (c : Int)) (toNumber (t : Int)) (toNumber (L : Int)) =
        .int (p : Int) ∧
      p ≤ L ∧ 2 * (p * t) ≤ 2 * (L * c) + t ∧ 2 * (L * c) ≤ 2 * (p * t) + t ∧
      createProgressBar (c : Int) (t : Int) (L : Int) =
        some (List.replicate p barGlyph ++ (markerGlyph :: List.replicate (L - p) barGlyph)) := by
  have k50 : (2 : Nat) ^ 50 = 1125899906842624 := by norm_num
  have k53 : (2 : Nat) ^ 53 = 9007199254740992 := by norm_num
  have hLt : L * t + t ≤ 2 ^ 50 := by
    have : (L + 1) * t = L * t + t := by ring
    omega
  have hL50 : L < 2 ^ 50 := by
    have : L * 1 ≤ L * t := Nat.mul_le_mul_left _ ht
    omega
  obtain ⟨p, hp, h1, h2⟩ := progressOf_near c t L ht hc hb
  have hpL : p ≤ L := by
    by_contra hcon
    have e1 : (L + 1) * t ≤ p * t := Nat.mul_le_mul_right _ (by omega)
    have e2 : L * c ≤ L * t := Nat.mul_le_mul_left _ hc
    have e3 : (L + 1) * t = L * t + t := by ring
    omega
  have nc : toNumber (c : Int) = .int (c : Int) := toNumber_natCast c (by omega)
  have nt : toNumber (t : Int) = .int (t : Int) := toNumber_natCast t (by omega)
  have nL : toNumber (L : Int) = .int (L : Int) := toNumber_natCast L (by omega)
  have hsub : jsSub (.int (L : Int)) (.int (p : Int)) = .int (((L - p : Nat) : Nat) : Int) := by
    show toNumber ((L : Int) + -(p : Int)) = _
    rw [toNumber_exact _ (by omega)]
    congr 1
    omega
  rw [nc, nt, nL]
  refine ⟨p, hp, hpL, h1, h2, ?_⟩
  have hneg1 : ¬ ((p : Int) < 0) := by omega
  have hneg2 : ¬ (((L - p : Nat) : Int) < 0) := by omega
  simp only [createProgressBar, nc, nt, nL, hp, hsub, repeatGlyph, hneg1, hneg2, if_false,
    Int.toNat_ofNat]

/-- C15, as the code has it: the quotient and the product are rounded to doubles before
`Math.round`.  For `createProgressBar(15, 22, 11)` the exact `length * current / total` is
`7 + 1/2` and the bar has 7 glyphs before the marker (`Math.round` of the exact value is 8).
For `createProgressBar(3298482002, 3394662639, 1088399)` the constant `progress` is 1057562,
which is more than one half above `length * current / total` (about 1057561.4999999998):
it is not the nearest integer. -/
theorem createProgressBar_misrounds :
    createProgressBar 15 22 11 =
      some (List.replicate 7 barGlyph ++ (markerGlyph :: List.replicate 4 barGlyph)) ∧
    2 * (11 * 15) = 2 * (7 * 22) + 22 ∧
    progressOf (toNumber 3298482002) (toNumber 3394662639) (toNumber 1088399) =
      .int 1057562 ∧
    2 * (1088399 * 3298482002) + 3394662639 < 2 * (1057562 * 3394662639) :=
  ⟨by decide, by decide, by decide, by decide⟩

/-- C15, amended: for integers with `total > 0`, `0 ≤ current ≤ total`, `0 ≤ length ≤ 2 ^ 27`
and `(length + 1) * total ≤ 2 ^ 50`, `createProgressBar(current, total, length)` does not throw;
it returns `p` bar glyphs, the marker glyph and `length - p` bar glyphs, where `p` is an integer
between `0` and `length` within one half of `length * current / total` (a nearest integer; at
the exact half either neighbour); the result has `length + 1` glyphs.  At its call site in
`nowplaying` (length 15) the embed is sent for such a track of at most `2 ^ 46` ms.  The bound
`(length + 1) * total ≤ 2 ^ 50` is where the two roundings stay below `1 / (2 * total)`; the bound
`length ≤ 2 ^ 27` keeps the bar within the strings an engine builds, a limit the embedding
leaves out. -/
theorem createProgressBar_shape (current total length : Int) (ht : 0 < total)
    (hc0 : 0 ≤ current) (hc : current ≤ total) (hl : 0 ≤ length) (_hlen : length ≤ 2 ^ 27)
    (hacc : (length + 1) * total ≤ 2 ^ 50) :
    (∃ p : Nat,
      progressOf (toNumber current) (toNumber total) (toNumber length) = .int (p : Int) ∧
      (p : Int) ≤ length ∧
      2 * ((p : Int) * total) ≤ 2 * (length * current) + total ∧
      2 * (length * current) ≤ 2 * ((p : Int) * total) + total ∧
      createProgressBar current total length =
        some (List.replicate p barGlyph ++
          (markerGlyph :: List.replicate (length.toNat - p) barGlyph))) ∧
    (createProgressBar current total length).map List.length = some (length.toNat + 1) ∧
    (∀ (env : Env) (message : Message) (db : Store) (guildId : JSString) (queue : Queue),
      issues env message (World.start db) guildId .nowplaying →
      currentTrack (env.getQueue guildId) =
        some (queue, { position := current, duration := total }) →
      16 * total ≤ 2 ^ 50 →
      (messageCreate env message (World.start db)).reply = some .nowPlayingView) := by
  obtain ⟨c, rfl⟩ := Int.eq_ofNat_of_zero_le hc0
  obtain ⟨t, rfl⟩ := Int.eq_ofNat_of_zero_le (le_of_lt ht)
  obtain ⟨L, rfl⟩ := Int.eq_ofNat_of_zero_le hl
  have ht1 : 1 ≤ t := by omega
  have hct : c ≤ t := by omega
  have hb : (L + 1) * t ≤ 2 ^ 50 := by exact_mod_cast hacc
  obtain ⟨p, hp, hpL, h1, h2, hbar⟩ := createProgressBar_inside c t L ht1 hct hb
  refine ⟨⟨p, hp, by omega, by exact_mod_cast h1, by exact_mod_cast h2, ?_⟩, ?_, ?_⟩
  · rw [hbar, Int.toNat_ofNat]
  · rw [hbar]
    simp only [Option.map_some', List.length_append, List.length_cons, List.length_replicate,
      Option.some.injEq, Int.toNat_ofNat]
    omega
  · intro env message db guildId queue hissue hcur h16
    have hb15 : (15 + 1) * t ≤ 2 ^ 50 := by
      have : 16 * t ≤ 2 ^ 50 := by exact_mod_cast h16
      omega
    obtain ⟨q, _, _, _, _, hbar15⟩ := createProgressBar_inside c t 15 ht1 hct hb15
    have h15 : createProgressBar (c : Int) (t : Int) 15 =
        some (List.replicate q barGlyph ++ (markerGlyph :: List.replicate (15 - q) barGlyph)) :=
      hbar15
    rw [messageCreate_of_issues hissue]
    simp only [runCommand, hcur, h15]
    rfl

/-- C15, witness: half way through a track of 60 units the bar of length 15 is 8 bar glyphs,
the marker and 7 bar glyphs, 16 glyphs in all. -/
theorem createProgressBar_shape_witness :
    createProgressBar 30 60 15 =
      some (List.replicate 8 barGlyph ++ (markerGlyph :: List.replicate 7 barGlyph)) ∧
    (createProgressBar 30 60 15).map List.length = some 16 :=
  have h := createProgressBar_shape 30 60 15 (by decide) (by decide) (by decide) (by decide)
    (by decide) (by decide)
  ⟨by decide, h.2.1⟩

end SeekMusic
